import Mathlib

/-! BcmTrunk: aggregate-port (trunk) programming against the Broadcom SDK

A shallow embedding of `fboss/agent/hw/bcm/BcmTrunk.cpp`.  The SDK is an explicit
state-passing record of entry points, every SDK call is appended to a trace, and a
C++ exception is a completion value next to the machine state reached when it was
thrown (state written before the throw is kept).
-/

namespace fboss

/-! ## Identifiers and SDK constants -/

abbrev PortID := Nat
abbrev AggregatePortID := Nat
abbrev bcm_trunk_t := Int
abbrev bcm_gport_t := Int
abbrev bcm_port_t := Int
abbrev bcm_module_t := Int

/-- SDK return code for success (`bcm/error.h`, a vendor header outside the repository). -/
def BCM_E_NONE : Int := 0

/-- SDK return code for "object not found" (`bcm/error.h`). -/
def BCM_E_NOT_FOUND : Int := -7

/-- SDK macro `BCM_FAILURE(rv)`: a return code is a failure when it is negative. -/
def BCM_FAILURE (rv : Int) : Bool := decide (rv < 0)

/-- SDK constant written into the three index fields of the trunk info. -/
def BCM_TRUNK_UNSPEC_INDEX : Int := -1

/-- SDK constant selecting port-flow (RTAG7) hashing. -/
def BCM_TRUNK_PSC_PORTFLOW : Int := 9

def BCM_PORT_FLOOD_BLOCK_BCAST : Nat := 0x1
def BCM_PORT_FLOOD_BLOCK_UNKNOWN_UCAST : Nat := 0x2
def BCM_PORT_FLOOD_BLOCK_UNKNOWN_MCAST : Nat := 0x4
def BCM_PORT_FLOOD_BLOCK_ALL : Nat := 0x8

/-- The value `BcmTrunk::INVALID` of a `bcmTrunkID_` that names no trunk. -/
def INVALID : bcm_trunk_t := -1

/-- The exception type thrown by `bcmCheckError`; it carries the SDK return code. -/
structure BcmError where
  rv : Int
  deriving DecidableEq, Repr

/-- Modelled from the spec: `bcmCheckError` of `BcmError.h` (not under src/). A failed
driver call is classified at the call site: the helper throws exactly when the return
code is an SDK failure and is a no-op otherwise. -/
def bcmCheckError (rv : Int) : Option BcmError :=
  if BCM_FAILURE rv then some ⟨rv⟩ else none

/-! ## Software state: aggregate ports -/

/-- The type `AggregatePort::Forwarding`. -/
inductive Forwarding
  | DISABLED
  | ENABLED
  deriving DecidableEq, Repr

/-- Modelled from the spec: `AggregatePort` of `state/AggregatePort.h` (not under src/):
`{id, orderedSubports: sequence of (portId, ForwardingState)}` together with its name. -/
structure AggregatePort where
  id : AggregatePortID
  name : String
  subports : List (PortID × Forwarding)
  deriving DecidableEq, Repr

def AggregatePort.getID (a : AggregatePort) : AggregatePortID := a.id

def AggregatePort.getName (a : AggregatePort) : String := a.name

/-- The range iterated by `subportAndFwdState()`. -/
def AggregatePort.subportAndFwdState (a : AggregatePort) : List (PortID × Forwarding) :=
  a.subports

/-- The subports in order, as iterated by `sortedSubports()`. -/
def AggregatePort.sortedSubports (a : AggregatePort) : List PortID :=
  a.subports.map Prod.fst

/-- Modelled from the spec: `forwardingSubportCount()`, the number of subports whose
software forwarding state is Enabled. -/
def AggregatePort.forwardingSubportCount (a : AggregatePort) : Nat :=
  (a.subports.filter (fun sp => sp.2 = Forwarding.ENABLED)).length

/-! ## SDK data and the SDK call trace -/

/-- The SDK struct `bcm_trunk_member_t`, reduced to the field the code reads and writes. -/
structure bcm_trunk_member_t where
  gport : bcm_gport_t
  deriving DecidableEq, Repr

/-- A value-initialised member, as produced by `vector<bcm_trunk_member_t>(n)` and by
`bcm_trunk_member_t_init`. -/
def bcm_trunk_member_t_init : bcm_trunk_member_t := ⟨0⟩

/-- The SDK struct `bcm_trunk_info_t`, reduced to the fields `init` assigns. -/
structure bcm_trunk_info_t where
  dlf_index : Int
  mc_index : Int
  ipmc_index : Int
  psc : Int
  deriving DecidableEq, Repr

/-- One SDK call with the arguments it was given (the unit number is constant). -/
inductive SdkCall
  | trunk_create (flags : Int)
  | trunk_get (tid : bcm_trunk_t) (member_max : Nat)
  | trunk_set (tid : bcm_trunk_t) (info : bcm_trunk_info_t) (members : List bcm_trunk_member_t)
  | trunk_member_add (tid : bcm_trunk_t) (member : bcm_trunk_member_t)
  | trunk_member_delete (tid : bcm_trunk_t) (member : bcm_trunk_member_t)
  | port_gport_get (port : bcm_port_t)
  | trunk_find (modid : bcm_module_t) (port : bcm_port_t)
  | port_flood_block_set (ingress egress : bcm_port_t) (flags : Nat)
  deriving DecidableEq, Repr

/-- The SDK entry points used by `BcmTrunk`, over an arbitrary driver state `σ`. Each
returns the return code first, then its out-parameters, then the next driver state. -/
structure BcmSdk (σ : Type) where
  bcm_trunk_create : σ → Int → Int × bcm_trunk_t × σ
  bcm_trunk_get : σ → bcm_trunk_t → Nat → Int × List bcm_trunk_member_t × Int × σ
  bcm_trunk_set : σ → bcm_trunk_t → bcm_trunk_info_t → List bcm_trunk_member_t → Int × σ
  bcm_trunk_member_add : σ → bcm_trunk_t → bcm_trunk_member_t → Int × σ
  bcm_trunk_member_delete : σ → bcm_trunk_t → bcm_trunk_member_t → Int × σ
  bcm_port_gport_get : σ → bcm_port_t → Int × bcm_gport_t × σ
  bcm_trunk_find : σ → bcm_module_t → bcm_port_t → Int × bcm_trunk_t × σ
  bcm_port_flood_block_set : σ → bcm_port_t → bcm_port_t → Nat → Int × σ

/-- The messages `BcmTrunk.cpp` writes with `XLOG`. -/
inductive XLog
  | foundMembersInHw (member_count : Int) (aggPort : AggregatePortID)
  | foundDisabledMemberPort (subPort : PortID)
  | createdTrunk (tid : bcm_trunk_t) (aggPort : AggregatePortID)
  | addedPort (memberPort : PortID) (tid : bcm_trunk_t)
  | alreadyDeletedPort (memberPort : PortID) (tid : bcm_trunk_t)
  | deletedPort (memberPort : PortID) (tid : bcm_trunk_t)
  | removedPortInInterruptContext (toDisable : bcm_port_t) (tid : bcm_trunk_t)
  deriving DecidableEq, Repr

/-! ## The switch-side collaborators -/

/-- Modelled from the spec: the warm-boot inventory `BcmWarmBootCache` (not under src/),
"a queryable snapshot of hardware objects surviving from a prior process instance",
here its trunks keyed by aggregate-port id. -/
structure BcmWarmBootCache where
  trunks : List (AggregatePortID × bcm_trunk_t)
  deriving DecidableEq, Repr

/-- The lookups `BcmTrunk` makes through `hw_` (`BcmSwitchIf`, `BcmPortTable`,
`BcmWarmBootCache::programmed`); their code is not under src/ and is taken as given. -/
structure BcmSwitchIf where
  getBcmGport : PortID → bcm_gport_t
  getBcmPortId : PortID → bcm_port_t
  programmed : BcmWarmBootCache → AggregatePortID × bcm_trunk_t → BcmWarmBootCache

/-- Modelled from the spec: `BcmTrunkStats` (not under src/), the per-member
"statistics/membership bookkeeping (grant/revoke on add/remove)": the set of granted
member ports, and the trunk id and name recorded when the stats are set up. -/
structure BcmTrunkStats where
  aggregatePortID : Option AggregatePortID
  trunkName : String
  memberPortIDs : Finset PortID

def BcmTrunkStats.grantMembership (s : BcmTrunkStats) (p : PortID) : BcmTrunkStats :=
  { s with memberPortIDs := insert p s.memberPortIDs }

def BcmTrunkStats.revokeMembership (s : BcmTrunkStats) (p : PortID) : BcmTrunkStats :=
  { s with memberPortIDs := s.memberPortIDs.erase p }

/-- The method `BcmTrunkStats::initialize(id, name)`. -/
def BcmTrunkStats.setup (s : BcmTrunkStats) (id : AggregatePortID) (name : String) :
    BcmTrunkStats :=
  { s with aggregatePortID := some id, trunkName := name }

/-- The data members of a `BcmTrunk` object. -/
structure BcmTrunk where
  bcmTrunkID_ : bcm_trunk_t
  trunkStats_ : BcmTrunkStats

/-- A freshly constructed `BcmTrunk`: `bcmTrunkID_` is `INVALID`, the stats are empty. -/
def BcmTrunk.new : BcmTrunk := ⟨INVALID, ⟨none, "", ∅⟩⟩

/-! ## Machine state and completions -/

/-- Everything a `BcmTrunk` method can read or write: the driver state, the trace of SDK
calls issued so far (oldest first), the log, the warm-boot cache and the object itself. -/
structure Machine (σ : Type) where
  sdk : σ
  calls : List SdkCall
  xlog : List XLog
  warmBootCache : BcmWarmBootCache
  trunk : BcmTrunk

/-- How a call ends: it returns a value, throws a `BcmError`, aborts on a failed
`CHECK`, or indexes a vector outside its bounds (undefined behaviour in C++). -/
inductive Completion (α : Type)
  | returned (a : α)
  | threw (e : BcmError)
  | checkFailed
  | outOfBounds (index size : Nat)
  deriving DecidableEq, Repr

structure Outcome (σ : Type) (α : Type) where
  completion : Completion α
  machine : Machine σ

def Completion.isReturned {α : Type} : Completion α → Bool
  | .returned _ => true
  | _ => false

def Completion.isThrew {α : Type} : Completion α → Bool
  | .threw _ => true
  | _ => false

variable {σ : Type}

def Machine.log (m : Machine σ) (msg : XLog) : Machine σ :=
  { m with xlog := m.xlog ++ [msg] }

def Machine.record (m : Machine σ) (s : σ) (c : SdkCall) : Machine σ :=
  { m with sdk := s, calls := m.calls ++ [c] }

def Machine.grantMembership (m : Machine σ) (p : PortID) : Machine σ :=
  { m with trunk := { m.trunk with trunkStats_ := m.trunk.trunkStats_.grantMembership p } }

def Machine.revokeMembership (m : Machine σ) (p : PortID) : Machine σ :=
  { m with trunk := { m.trunk with trunkStats_ := m.trunk.trunkStats_.revokeMembership p } }

def Machine.statsSetup (m : Machine σ) (id : AggregatePortID) (name : String) : Machine σ :=
  { m with trunk := { m.trunk with trunkStats_ := m.trunk.trunkStats_.setup id name } }

/-- The granted member ports recorded in `trunkStats_`. -/
def Machine.granted (m : Machine σ) : Finset PortID := m.trunk.trunkStats_.memberPortIDs

/-! ## `BcmTrunk::modifyMemberPort`, `programForwardingState`, `program` -/

/-- The method `BcmTrunk::modifyMemberPort(added, memberPort)`. -/
def modifyMemberPort (hw : BcmSwitchIf) (sdk : BcmSdk σ) (added : Bool) (memberPort : PortID)
    (m : Machine σ) : Outcome σ Unit :=
  let member : bcm_trunk_member_t := { bcm_trunk_member_t_init with gport := hw.getBcmGport memberPort }
  if added then
    let r := sdk.bcm_trunk_member_add m.sdk m.trunk.bcmTrunkID_ member
    let m1 := m.record r.2 (SdkCall.trunk_member_add m.trunk.bcmTrunkID_ member)
    match bcmCheckError r.1 with
    | some e => ⟨.threw e, m1⟩
    | none =>
      ⟨.returned (), (m1.log (XLog.addedPort memberPort m.trunk.bcmTrunkID_)).grantMembership memberPort⟩
  else
    let r := sdk.bcm_trunk_member_delete m.sdk m.trunk.bcmTrunkID_ member
    let m1 := m.record r.2 (SdkCall.trunk_member_delete m.trunk.bcmTrunkID_ member)
    if r.1 = BCM_E_NOT_FOUND then
      ⟨.returned (), m1.log (XLog.alreadyDeletedPort memberPort m.trunk.bcmTrunkID_)⟩
    else
      match bcmCheckError r.1 with
      | some e => ⟨.threw e, m1⟩
      | none =>
        ⟨.returned (), (m1.log (XLog.deletedPort memberPort m.trunk.bcmTrunkID_)).revokeMembership memberPort⟩

/-- The method `BcmTrunk::programForwardingState(oldRange, newRange)`: the loop over
`newRange`, with `std::find_if` over `oldRange` as `List.find?`. -/
def programForwardingState (hw : BcmSwitchIf) (sdk : BcmSdk σ)
    (oldRange : List (PortID × Forwarding)) :
    List (PortID × Forwarding) → Machine σ → Outcome σ Unit
  | [], m => ⟨.returned (), m⟩
  | (newSubport, newFwdState) :: rest, m =>
    match oldRange.find? (fun val => decide (val.1 = newSubport)) with
    | none => programForwardingState hw sdk oldRange rest m
    | some (oldSubport, oldFwdState) =>
      if oldSubport ≠ newSubport then ⟨.checkFailed, m⟩
      else if oldFwdState ≠ newFwdState then
        match modifyMemberPort hw sdk (decide (newFwdState = Forwarding.ENABLED)) newSubport m with
        | ⟨.returned _, m1⟩ => programForwardingState hw sdk oldRange rest m1
        | out => out
      else programForwardingState hw sdk oldRange rest m

/-- The method `BcmTrunk::program(oldAggPort, newAggPort)`. -/
def program (hw : BcmSwitchIf) (sdk : BcmSdk σ) (oldAggPort newAggPort : AggregatePort)
    (m : Machine σ) : Outcome σ Unit :=
  match programForwardingState hw sdk oldAggPort.subportAndFwdState
      newAggPort.subportAndFwdState m with
  | ⟨.returned _, m1⟩ =>
    if oldAggPort.getName ≠ newAggPort.getName then
      ⟨.returned (), m1.statsSetup newAggPort.getID newAggPort.getName⟩
    else ⟨.returned (), m1⟩
  | out => out

/-! ## `BcmTrunk::shrinkTrunkGroupHwNotLocked`, `findTrunk` -/

/-- The static method `BcmTrunk::shrinkTrunkGroupHwNotLocked(unit, trunk, toDisable)`. -/
def shrinkTrunkGroupHwNotLocked (sdk : BcmSdk σ) (trunk : bcm_trunk_t) (toDisable : bcm_port_t)
    (m : Machine σ) : Outcome σ Unit :=
  let r := sdk.bcm_port_gport_get m.sdk toDisable
  let m1 := m.record r.2.2 (SdkCall.port_gport_get toDisable)
  match bcmCheckError r.1 with
  | some e => ⟨.threw e, m1⟩
  | none =>
    let member : bcm_trunk_member_t := { bcm_trunk_member_t_init with gport := r.2.1 }
    let d := sdk.bcm_trunk_member_delete m1.sdk trunk member
    let m2 := m1.record d.2 (SdkCall.trunk_member_delete trunk member)
    if d.1 = BCM_E_NOT_FOUND then ⟨.returned (), m2⟩
    else
      match bcmCheckError d.1 with
      | some e => ⟨.threw e, m2⟩
      | none => ⟨.returned (), m2.log (XLog.removedPortInInterruptContext toDisable trunk)⟩

/-- The static method `BcmTrunk::findTrunk(unit, modid, port)`. -/
def findTrunk (sdk : BcmSdk σ) (modid : bcm_module_t) (port : bcm_port_t) (m : Machine σ) :
    Outcome σ (Option bcm_trunk_t) :=
  let r := sdk.bcm_trunk_find m.sdk modid port
  let m1 := m.record r.2.2 (SdkCall.trunk_find modid port)
  if r.1 = BCM_E_NOT_FOUND then ⟨.returned none, m1⟩
  else
    match bcmCheckError r.1 with
    | some e => ⟨.threw e, m1⟩
    | none => ⟨.returned (some r.2.1), m1⟩

/-- The static method `BcmTrunk::rtag7()`. -/
def rtag7 : Int := BCM_TRUNK_PSC_PORTFLOW

/-! ## `BcmTrunk::suppressTrunkInternalFlood` -/

/-- The flag word `trafficToBlock`. -/
def trafficToBlock : Nat :=
  BCM_PORT_FLOOD_BLOCK_BCAST ||| BCM_PORT_FLOOD_BLOCK_UNKNOWN_UCAST |||
    BCM_PORT_FLOOD_BLOCK_UNKNOWN_MCAST ||| BCM_PORT_FLOOD_BLOCK_ALL

/-- The inner loop of `suppressTrunkInternalFlood` over the egress subports; the return
code of `bcm_port_flood_block_set` is discarded, as in the source. A subport is
identified by its port id. -/
def suppressEgressLoop (hw : BcmSwitchIf) (sdk : BcmSdk σ) (ingressSubport : PortID)
    (ingressPortID : bcm_port_t) : List PortID → Machine σ → Machine σ
  | [], m => m
  | egressSubport :: rest, m =>
    if ingressSubport = egressSubport then
      suppressEgressLoop hw sdk ingressSubport ingressPortID rest m
    else
      let egressPortID := hw.getBcmPortId egressSubport
      let r := sdk.bcm_port_flood_block_set m.sdk ingressPortID egressPortID trafficToBlock
      suppressEgressLoop hw sdk ingressSubport ingressPortID rest
        (m.record r.2 (SdkCall.port_flood_block_set ingressPortID egressPortID trafficToBlock))

/-- The outer loop of `suppressTrunkInternalFlood` over the ingress subports. -/
def suppressIngressLoop (hw : BcmSwitchIf) (sdk : BcmSdk σ) (all : List PortID) :
    List PortID → Machine σ → Machine σ
  | [], m => m
  | ingressSubport :: rest, m =>
    suppressIngressLoop hw sdk all rest
      (suppressEgressLoop hw sdk ingressSubport (hw.getBcmPortId ingressSubport) all m)

/-- The method `BcmTrunk::suppressTrunkInternalFlood(aggPort)`. -/
def suppressTrunkInternalFlood (hw : BcmSwitchIf) (sdk : BcmSdk σ) (aggPort : AggregatePort)
    (m : Machine σ) : Machine σ :=
  suppressIngressLoop hw sdk aggPort.sortedSubports aggPort.sortedSubports m

/-! ## `BcmTrunk::init` -/

/-- The vector `members(n)` after `bcm_trunk_get` was given its `n` slots: the driver
fills at most `n` of them, the others keep their value-initialised content. -/
def receiveMembers (n : Nat) (written : List bcm_trunk_member_t) : List bcm_trunk_member_t :=
  written.take n ++ List.replicate (n - written.length) bcm_trunk_member_t_init

/-- The loop of the warm-boot branch of `init` over `subportAndFwdState()`. -/
def initWarmBootLoop (hw : BcmSwitchIf) (members : List bcm_trunk_member_t) :
    List (PortID × Forwarding) → Machine σ → Machine σ
  | [], m => m
  | (subPort, fwdState) :: rest, m =>
    if fwdState = Forwarding.DISABLED then initWarmBootLoop hw members rest m
    else
      let memberGport := hw.getBcmGport subPort
      if members.all (fun mem => !decide (mem.gport = memberGport)) then
        initWarmBootLoop hw members rest (m.log (XLog.foundDisabledMemberPort subPort))
      else
        initWarmBootLoop hw members rest (m.grantMembership subPort)

/-- The loop of the fresh branch of `init` over `folly::enumerate(subportAndFwdState())`;
`index` is `it.index`. Indexing `members` at or past its size is undefined behaviour and
ends the run with `outOfBounds`. -/
def initFreshLoop (hw : BcmSwitchIf) :
    Nat → List (PortID × Forwarding) → List bcm_trunk_member_t → Machine σ →
      Outcome σ (List bcm_trunk_member_t)
  | _, [], members, m => ⟨.returned members, m⟩
  | index, (subport, fwdState) :: rest, members, m =>
    if fwdState = Forwarding.DISABLED then initFreshLoop hw (index + 1) rest members m
    else if index < members.length then
      initFreshLoop hw (index + 1) rest
        (members.set index { bcm_trunk_member_t_init with gport := hw.getBcmGport subport })
        (m.grantMembership subport)
    else ⟨.outOfBounds index members.length, m⟩

/-- The `bcm_trunk_info_t info` that the fresh branch of `init` fills in. -/
def freshTrunkInfo : bcm_trunk_info_t :=
  { dlf_index := BCM_TRUNK_UNSPEC_INDEX, mc_index := BCM_TRUNK_UNSPEC_INDEX,
    ipmc_index := BCM_TRUNK_UNSPEC_INDEX, psc := rtag7 }

/-- The method `BcmTrunk::init(aggPort)`. -/
def init (hw : BcmSwitchIf) (sdk : BcmSdk σ) (aggPort : AggregatePort) (m : Machine σ) :
    Outcome σ Unit :=
  match m.warmBootCache.trunks.find? (fun trunk => decide (aggPort.getID = trunk.1)) with
  | some foundTrunk =>
    let m0 : Machine σ := { m with trunk := { m.trunk with bcmTrunkID_ := foundTrunk.2 } }
    let n := aggPort.forwardingSubportCount
    let r := sdk.bcm_trunk_get m0.sdk foundTrunk.2 n
    let members := receiveMembers n r.2.1
    let m1 := m0.record r.2.2.2 (SdkCall.trunk_get foundTrunk.2 n)
    match bcmCheckError r.1 with
    | some e => ⟨.threw e, m1⟩
    | none =>
      let m2 := m1.log (XLog.foundMembersInHw r.2.2.1 aggPort.getID)
      let m3 := initWarmBootLoop hw members aggPort.subportAndFwdState m2
      let m4 := m3.statsSetup aggPort.getID aggPort.getName
      ⟨.returned (), { m4 with warmBootCache := hw.programmed m4.warmBootCache foundTrunk }⟩
  | none =>
    let c := sdk.bcm_trunk_create m.sdk 0
    let m0 : Machine σ :=
      { (m.record c.2.2 (SdkCall.trunk_create 0)) with trunk := { m.trunk with bcmTrunkID_ := c.2.1 } }
    match bcmCheckError c.1 with
    | some e => ⟨.threw e, m0⟩
    | none =>
      let m1 := m0.log (XLog.createdTrunk c.2.1 aggPort.getID)
      let info : bcm_trunk_info_t := freshTrunkInfo
      match initFreshLoop hw 0 aggPort.subportAndFwdState
          (List.replicate aggPort.forwardingSubportCount bcm_trunk_member_t_init) m1 with
      | ⟨.returned members, m2⟩ =>
        let s := sdk.bcm_trunk_set m2.sdk c.2.1 info members
        let m3 := m2.record s.2 (SdkCall.trunk_set c.2.1 info members)
        match bcmCheckError s.1 with
        | some e => ⟨.threw e, m3⟩
        | none =>
          let m4 := suppressTrunkInternalFlood hw sdk aggPort m3
          ⟨.returned (), m4.statsSetup aggPort.getID aggPort.getName⟩
      | ⟨.threw e, m2⟩ => ⟨.threw e, m2⟩
      | ⟨.checkFailed, m2⟩ => ⟨.checkFailed, m2⟩
      | ⟨.outOfBounds i n, m2⟩ => ⟨.outOfBounds i n, m2⟩

/-! ## A simulated SDK -/

/-- SDK return code for "entry exists" (`bcm/error.h`). -/
def BCM_E_EXISTS : Int := -8

/-- SDK return code for "invalid port" (`bcm/error.h`). -/
def BCM_E_PORT : Int := -18

/-- Modelled from the spec: the state of the external ASIC driver capability
(`create`, `remove -> ok | NotFound | error`, `findContainingGroup`): the live member
list of every trunk, the trunks created so far and the next trunk id to hand out. -/
structure SimSdk where
  nextTrunk : bcm_trunk_t
  created : List bcm_trunk_t
  members : bcm_trunk_t → List bcm_gport_t

def SimSdk.setMembers (s : SimSdk) (tid : bcm_trunk_t) (ms : List bcm_gport_t) : SimSdk :=
  { s with members := fun t => if t = tid then ms else s.members t }

/-- Modelled from the spec: the external ASIC driver capability as a simulator over
`SimSdk`. Deleting a member that is absent from the trunk returns `BCM_E_NOT_FOUND` and
changes nothing; deleting a present member removes it; `bcm_trunk_get` hands back the
first `member_max` live members; a valid BCM port `p` has gport `p + 1000`. -/
def simSdk : BcmSdk SimSdk where
  bcm_trunk_create := fun s _ =>
    (BCM_E_NONE, s.nextTrunk,
      { s with nextTrunk := s.nextTrunk + 1, created := s.created ++ [s.nextTrunk] })
  bcm_trunk_get := fun s tid member_max =>
    (BCM_E_NONE, ((s.members tid).take member_max).map bcm_trunk_member_t.mk,
      (((s.members tid).take member_max).length : Int), s)
  bcm_trunk_set := fun s tid _ ms => (BCM_E_NONE, s.setMembers tid (ms.map bcm_trunk_member_t.gport))
  bcm_trunk_member_add := fun s tid mem =>
    if mem.gport ∈ s.members tid then (BCM_E_EXISTS, s)
    else (BCM_E_NONE, s.setMembers tid (s.members tid ++ [mem.gport]))
  bcm_trunk_member_delete := fun s tid mem =>
    if mem.gport ∈ s.members tid then
      (BCM_E_NONE, s.setMembers tid ((s.members tid).filter (fun g => decide (g ≠ mem.gport))))
    else (BCM_E_NOT_FOUND, s)
  bcm_port_gport_get := fun s port =>
    if port < 0 then (BCM_E_PORT, 0, s) else (BCM_E_NONE, port + 1000, s)
  bcm_trunk_find := fun s _ port =>
    match s.created.find? (fun t => decide (port + 1000 ∈ s.members t)) with
    | some t => (BCM_E_NONE, t, s)
    | none => (BCM_E_NOT_FOUND, 0, s)
  bcm_port_flood_block_set := fun s _ _ _ => (BCM_E_NONE, s)

/-- A driver every call of which succeeds: it hands out trunk id `tid` and reports the
member list `live` for every trunk. -/
def okSdk (tid : bcm_trunk_t) (live : List bcm_trunk_member_t) : BcmSdk Unit where
  bcm_trunk_create := fun s _ => (BCM_E_NONE, tid, s)
  bcm_trunk_get := fun s _ member_max => (BCM_E_NONE, live.take member_max, (live.length : Int), s)
  bcm_trunk_set := fun s _ _ _ => (BCM_E_NONE, s)
  bcm_trunk_member_add := fun s _ _ => (BCM_E_NONE, s)
  bcm_trunk_member_delete := fun s _ _ => (BCM_E_NONE, s)
  bcm_port_gport_get := fun s port => (BCM_E_NONE, port + 1000, s)
  bcm_trunk_find := fun s _ _ => (BCM_E_NONE, tid, s)
  bcm_port_flood_block_set := fun s _ _ _ => (BCM_E_NONE, s)

/-- A port table for examples: port `p` has gport `p + 1000` and BCM port id `p`; the
warm-boot cache drops an entry once it is programmed. -/
def demoHw : BcmSwitchIf where
  getBcmGport := fun p => (p : Int) + 1000
  getBcmPortId := fun p => (p : Int)
  programmed := fun c t => ⟨c.trunks.erase t⟩

/-- The machine at start-up: nothing called or logged yet, a new `BcmTrunk`. -/
def Machine.start (s : σ) (cache : BcmWarmBootCache) : Machine σ :=
  ⟨s, [], [], cache, BcmTrunk.new⟩

/-- A simulated driver state with no trunks; the first trunk created gets id 1. -/
def SimSdk.empty : SimSdk :=
  ⟨1, [], fun _ => []⟩

/-- A simulated driver state left by a previous process: one trunk `tid` whose live
member list is `live`. -/
def SimSdk.withTrunk (tid : bcm_trunk_t) (live : List bcm_gport_t) : SimSdk :=
  ⟨tid + 1, [tid], fun t => if t = tid then live else []⟩

/-! ## Trace and bookkeeping vocabulary used by the statements -/

/-- Whether a call is `bcm_trunk_member_add` or `bcm_trunk_member_delete`. -/
def SdkCall.isMemberCall : SdkCall → Bool
  | .trunk_member_add _ _ => true
  | .trunk_member_delete _ _ => true
  | _ => false

/-- Whether a call is a member add or delete whose member has gport `g`. -/
def SdkCall.isMemberCallFor (g : bcm_gport_t) : SdkCall → Bool
  | .trunk_member_add _ mem => decide (mem.gport = g)
  | .trunk_member_delete _ mem => decide (mem.gport = g)
  | _ => false

/-- The member add and delete calls of a trace that name gport `g`, in order. -/
def memberCallsFor (g : bcm_gport_t) (calls : List SdkCall) : List SdkCall :=
  calls.filter (SdkCall.isMemberCallFor g)

/-- The calls a run issued: the trace after the run without the `before` calls that were
already in it. -/
def issuedSince (before : List SdkCall) (after : List SdkCall) : List SdkCall :=
  after.drop before.length

/-- A driver whose calls succeed: no entry point ever returns a failure code. -/
def CallsSucceed (sdk : BcmSdk σ) : Prop :=
  (∀ s f, BCM_FAILURE (sdk.bcm_trunk_create s f).1 = false) ∧
  (∀ s t n, BCM_FAILURE (sdk.bcm_trunk_get s t n).1 = false) ∧
  (∀ s t i ms, BCM_FAILURE (sdk.bcm_trunk_set s t i ms).1 = false) ∧
  (∀ s t mem, BCM_FAILURE (sdk.bcm_trunk_member_add s t mem).1 = false) ∧
  (∀ s t mem, BCM_FAILURE (sdk.bcm_trunk_member_delete s t mem).1 = false) ∧
  (∀ s p, BCM_FAILURE (sdk.bcm_port_gport_get s p).1 = false) ∧
  (∀ s md p, BCM_FAILURE (sdk.bcm_trunk_find s md p).1 = false) ∧
  (∀ s i e f, BCM_FAILURE (sdk.bcm_port_flood_block_set s i e f).1 = false)

/-- The forwarding state recorded for port `p` in a snapshot, as `std::find_if` finds it. -/
def fwdStateOf (range : List (PortID × Forwarding)) (p : PortID) : Option Forwarding :=
  (range.find? (fun val => decide (val.1 = p))).map Prod.snd

/-- The ports of `newRange` that are Enabled there and Disabled in `oldRange`. -/
def wentEnabled (oldRange newRange : List (PortID × Forwarding)) : Finset PortID :=
  ((newRange.filter (fun e => decide (e.2 = Forwarding.ENABLED ∧
      fwdStateOf oldRange e.1 = some Forwarding.DISABLED))).map Prod.fst).toFinset

/-- The ports of `newRange` that are Disabled there and Enabled in `oldRange`. -/
def wentDisabled (oldRange newRange : List (PortID × Forwarding)) : Finset PortID :=
  ((newRange.filter (fun e => decide (e.2 = Forwarding.DISABLED ∧
      fwdStateOf oldRange e.1 = some Forwarding.ENABLED))).map Prod.fst).toFinset

/-! ## Vocabulary of the statements about `init`, the driver and the examples -/

/-- The driver call `programForwardingState` owes one entry of `newRange`: none when the
port is not in `oldRange` or its state did not change, else an add or a delete. -/
def memberCallOf (hw : BcmSwitchIf) (tid : bcm_trunk_t) (oldRange : List (PortID × Forwarding))
    (e : PortID × Forwarding) : Option SdkCall :=
  match fwdStateOf oldRange e.1 with
  | none => none
  | some so =>
    if so = e.2 then none
    else if e.2 = Forwarding.ENABLED then some (SdkCall.trunk_member_add tid ⟨hw.getBcmGport e.1⟩)
    else some (SdkCall.trunk_member_delete tid ⟨hw.getBcmGport e.1⟩)

/-- The bookkeeping change that goes with `memberCallOf`. -/
def grantStep (oldRange : List (PortID × Forwarding)) (S : Finset PortID)
    (e : PortID × Forwarding) : Finset PortID :=
  match fwdStateOf oldRange e.1 with
  | none => S
  | some so =>
    if so = e.2 then S
    else if e.2 = Forwarding.ENABLED then insert e.1 S
    else S.erase e.1

/-- A driver that keeps hardware member lists, read by `live`: deleting a member that is
absent from the trunk returns `BCM_E_NOT_FOUND` and changes no list; deleting a present
member succeeds and removes that member from that trunk only; the port-to-gport lookup
changes no list. -/
def TracksMembers (sdk : BcmSdk σ) (live : σ → bcm_trunk_t → List bcm_gport_t) : Prop :=
  (∀ s t mem, mem.gport ∉ live s t →
    (sdk.bcm_trunk_member_delete s t mem).1 = BCM_E_NOT_FOUND ∧
    live (sdk.bcm_trunk_member_delete s t mem).2 = live s) ∧
  (∀ s t mem, mem.gport ∈ live s t →
    BCM_FAILURE (sdk.bcm_trunk_member_delete s t mem).1 = false ∧
    live (sdk.bcm_trunk_member_delete s t mem).2 =
      fun t' => if t' = t then (live s t).filter (fun g => decide (g ≠ mem.gport))
        else live s t') ∧
  (∀ s port, live (sdk.bcm_port_gport_get s port).2.2 = live s)

/-- A machine for examples: the simulated driver holds trunk 5 with live members
`live`, and the `BcmTrunk` object is bound to trunk 5 with ports `granted` granted. -/
def Machine.onTrunk5 (live : List bcm_gport_t) (granted : Finset PortID) : Machine SimSdk :=
  ⟨SimSdk.withTrunk 5 live, [], [], ⟨[]⟩, ⟨5, ⟨some 7, "po1", granted⟩⟩⟩

/-- The flood-block calls owed for the ingress subports `ingress` of a trunk whose
subports are `all`: one per egress subport other than the ingress one. -/
def floodCalls (hw : BcmSwitchIf) (all ingress : List PortID) : List SdkCall :=
  ingress.flatMap (fun i =>
    (all.filter (fun e => decide (i ≠ e))).map (fun e =>
      SdkCall.port_flood_block_set (hw.getBcmPortId i) (hw.getBcmPortId e) trafficToBlock))

def SdkCall.isTrunkCreate : SdkCall → Bool
  | .trunk_create _ => true
  | _ => false

def SdkCall.isTrunkSet : SdkCall → Bool
  | .trunk_set _ _ _ => true
  | _ => false

/-- The trunk id a call is about, for the calls that take one. -/
def SdkCall.trunkOf : SdkCall → Option bcm_trunk_t
  | .trunk_get tid _ => some tid
  | .trunk_set tid _ _ => some tid
  | .trunk_member_add tid _ => some tid
  | .trunk_member_delete tid _ => some tid
  | _ => none

/-- Whether a call may follow `bcm_trunk_create` on the fresh branch of `init`: a
`bcm_trunk_set` on trunk `tid` or a flood-block call. -/
def SdkCall.isFreshTail (tid : bcm_trunk_t) : SdkCall → Bool
  | .trunk_set t _ _ => decide (t = tid)
  | .port_flood_block_set _ _ _ => true
  | _ => false

/-- The machine of a process that starts on hardware left by a previous one: the
simulated driver holds trunk `tid` with live members `live`, the warm-boot cache maps
aggregate port 7 to `tid`, and the `BcmTrunk` object is new. -/
def Machine.warmStart (tid : bcm_trunk_t) (live : List bcm_gport_t) : Machine SimSdk :=
  Machine.start (SimSdk.withTrunk tid live) ⟨[(7, tid)]⟩

/-- Whether a call is a `bcm_trunk_member_add` whose member has gport `g`. -/
def SdkCall.isMemberAddFor (g : bcm_gport_t) : SdkCall → Bool
  | .trunk_member_add _ mem => decide (mem.gport = g)
  | _ => false

/-- SDK return code for a general failure (`bcm/error.h`). -/
def BCM_E_FAIL : Int := -11

/-- A driver whose calls all succeed except `bcm_port_flood_block_set`, which answers
`BCM_E_FAIL` every time; it hands out trunk id `tid`. -/
def floodFailSdk (tid : bcm_trunk_t) : BcmSdk Unit :=
  { okSdk tid [] with bcm_port_flood_block_set := fun s _ _ _ => (BCM_E_FAIL, s) }

/-- Whether a call is `bcm_port_flood_block_set`. -/
def SdkCall.isFloodBlock : SdkCall → Bool
  | .port_flood_block_set _ _ _ => true
  | _ => false

/-! ## SAI next-hop-group members (`SaiNextHopGroupManager.h`) -/

/-- The type `SaiNextHopGroupTraits::AdapterKey`: the SAI id of a next-hop group. -/
abbrev NextHopGroupSaiId := Nat

/-- The adapter key of a next hop. -/
abbrev NextHopSaiId := Nat

/-- The type `SaiNextHopGroupMemberTraits::Attributes::Weight`. -/
abbrev NextHopWeight := Nat

/-- A `SaiObject<NextHopTraits>`, reduced to its adapter key. -/
structure SaiNextHopObject where
  adapterKey : NextHopSaiId
  deriving DecidableEq, Repr

/-- The type `PublisherObjects = std::tuple<NextHopWeakPtr>`: one weak pointer to a next
hop, `none` when it has expired. -/
abbrev PublisherObjects := Option SaiNextHopObject

/-- The type `SaiNextHopGroupMemberTraits::AdapterHostKey`. -/
structure GroupMemberAdapterHostKey where
  nexthopGroupId : NextHopGroupSaiId
  nexthopId : NextHopSaiId
  deriving DecidableEq, Repr

/-- The type `SaiNextHopGroupMemberTraits::CreateAttributes`. -/
structure GroupMemberCreateAttributes where
  nexthopGroupId : NextHopGroupSaiId
  nexthopId : NextHopSaiId
  weight : Option NextHopWeight
  deriving DecidableEq, Repr

/-- The calls a subscriber makes on its base class to create or destroy its object. -/
inductive StoreCall
  | setObject (adapterHostKey : GroupMemberAdapterHostKey)
      (createAttributes : GroupMemberCreateAttributes)
  | resetObject
  deriving DecidableEq, Repr

/-- The class `SaiNextHopSubscriberForNextHopGroupMember<NextHopTraits>`: its two data
members, and the state of its base class `SaiObjectEventAggregateSubscriber` (not under
src/): the published next hop it watches, the group member it holds, and the `setObject`
and `resetObject` calls made so far (oldest first). -/
structure SaiNextHopSubscriberForNextHopGroupMember where
  nexthopGroupId_ : NextHopGroupSaiId
  weight_ : Option NextHopWeight
  publishedObjects : PublisherObjects
  object_ : Option (GroupMemberAdapterHostKey × GroupMemberCreateAttributes)
  storeCalls : List StoreCall
  deriving DecidableEq, Repr

/-- The constructor: nothing published yet, no object, no calls. -/
def SaiNextHopSubscriberForNextHopGroupMember.new (nexthopGroupId : NextHopGroupSaiId)
    (weight : Option NextHopWeight) : SaiNextHopSubscriberForNextHopGroupMember :=
  ⟨nexthopGroupId, weight, none, none, []⟩

/-- Modelled from the spec: `allPublishedObjectsAlive()` of the base class (not under
src/): whether "the dependency object is actually resolved at call time". -/
def SaiNextHopSubscriberForNextHopGroupMember.allPublishedObjectsAlive
    (s : SaiNextHopSubscriberForNextHopGroupMember) : Bool :=
  s.publishedObjects.isSome

/-- Modelled from the spec: `setObject(adapterHostKey, createAttributes)` of the base class
(not under src/): "issues the group-member create ..., then stores the resulting
Membership handle". -/
def SaiNextHopSubscriberForNextHopGroupMember.setObject
    (s : SaiNextHopSubscriberForNextHopGroupMember) (adapterHostKey : GroupMemberAdapterHostKey)
    (createAttributes : GroupMemberCreateAttributes) :
    SaiNextHopSubscriberForNextHopGroupMember :=
  { s with object_ := some (adapterHostKey, createAttributes),
           storeCalls := s.storeCalls ++ [StoreCall.setObject adapterHostKey createAttributes] }

/-- Modelled from the spec: `resetObject()` of the base class (not under src/): "the
subscriber destroys the Membership (group-member delete)". -/
def SaiNextHopSubscriberForNextHopGroupMember.resetObject
    (s : SaiNextHopSubscriberForNextHopGroupMember) :
    SaiNextHopSubscriberForNextHopGroupMember :=
  { s with object_ := none, storeCalls := s.storeCalls ++ [StoreCall.resetObject] }

/-- How a subscriber callback ends: it returns, a `CHECK` aborts the process, or a null
`shared_ptr` is dereferenced (undefined behaviour). -/
inductive SubscriberCompletion
  | returned
  | checkFailed
  | nullDereference
  deriving DecidableEq, Repr

structure SubscriberOutcome where
  completion : SubscriberCompletion
  subscriber : SaiNextHopSubscriberForNextHopGroupMember
  deriving DecidableEq, Repr

/-- The method `createObject(PublisherObjects added)`. -/
def SaiNextHopSubscriberForNextHopGroupMember.createObject
    (s : SaiNextHopSubscriberForNextHopGroupMember) (added : PublisherObjects) :
    SubscriberOutcome :=
  if s.allPublishedObjectsAlive = false then ⟨.checkFailed, s⟩
  else
    match added with
    | none => ⟨.nullDereference, s⟩
    | some nexthop =>
      let nexthopId := nexthop.adapterKey
      let adapterHostKey : GroupMemberAdapterHostKey := ⟨s.nexthopGroupId_, nexthopId⟩
      let createAttributes : GroupMemberCreateAttributes :=
        ⟨s.nexthopGroupId_, nexthopId, s.weight_⟩
      ⟨.returned, s.setObject adapterHostKey createAttributes⟩

/-- The method `removeObject(size_t index, PublisherObjects removed)`; neither argument
is used. -/
def SaiNextHopSubscriberForNextHopGroupMember.removeObject
    (s : SaiNextHopSubscriberForNextHopGroupMember) (_index : Nat) (_removed : PublisherObjects) :
    SubscriberOutcome :=
  ⟨.returned, s.resetObject⟩

/-- A dependency-resolution event for one subscriber: the next hop became resolved (and
is now published as the given object), or became unresolved; `index` is the position the
base class passes to `removeObject`. -/
inductive DependencyTransition
  | resolved (nexthop : SaiNextHopObject)
  | unresolved (index : Nat)
  deriving DecidableEq, Repr

def DependencyTransition.isResolved : DependencyTransition → Bool
  | .resolved _ => true
  | .unresolved _ => false

/-- Modelled from the spec: delivery of one transition by the base class (not under
src/). "On Dependency transition Unresolved→Resolved" the next hop is published and
`createObject` is called with it; "on Resolved→Unresolved" `removeObject` is called and
the published next hop is gone. -/
def SaiNextHopSubscriberForNextHopGroupMember.deliver
    (s : SaiNextHopSubscriberForNextHopGroupMember) : DependencyTransition → SubscriberOutcome
  | .resolved nexthop =>
    ({ s with publishedObjects := some nexthop }).createObject (some nexthop)
  | .unresolved index =>
    ⟨(s.removeObject index s.publishedObjects).completion,
      { (s.removeObject index s.publishedObjects).subscriber with publishedObjects := none }⟩

/-- Delivery of a sequence of transitions, in order; it stops at the first callback that
does not return. -/
def SaiNextHopSubscriberForNextHopGroupMember.deliverAll
    (s : SaiNextHopSubscriberForNextHopGroupMember) : List DependencyTransition → SubscriberOutcome
  | [] => ⟨.returned, s⟩
  | t :: rest =>
    match s.deliver t with
    | ⟨.returned, s1⟩ => s1.deliverAll rest
    | out => out

def StoreCall.isSetObject : StoreCall → Bool
  | .setObject _ _ => true
  | .resetObject => false

def StoreCall.isResetObject : StoreCall → Bool
  | .setObject _ _ => false
  | .resetObject => true

/-- The store call owed to one transition of a subscriber for group `groupId` with
weight `weight`. -/
def DependencyTransition.storeCall (groupId : NextHopGroupSaiId) (weight : Option NextHopWeight) :
    DependencyTransition → StoreCall
  | .resolved nexthop =>
    StoreCall.setObject ⟨groupId, nexthop.adapterKey⟩ ⟨groupId, nexthop.adapterKey, weight⟩
  | .unresolved _ => StoreCall.resetObject

/-- The variant `std::variant<std::shared_ptr<Ip>, std::shared_ptr<Mpls>>`: which flavor
is held, and the pointer (`none` when null). -/
inductive FlavorVariant (Ip Mpls : Type)
  | ip (arg : Option Ip)
  | mpls (arg : Option Mpls)

/-- The class `SubscriberForNextHopGroupMember`: its two variants. The subscriber classes
of the two flavors are type parameters. -/
structure SubscriberForNextHopGroupMember (NeighborIp NeighborMpls NextHopIp NextHopMpls : Type) where
  neighborSubscriber_ : FlavorVariant NeighborIp NeighborMpls
  nexthopSubscriber_ : FlavorVariant NextHopIp NextHopMpls

/-- The method `SubscriberForNextHopGroupMember::isAlive()`:
`std::visit([](auto arg) { return arg && arg->isAlive(); }, nexthopSubscriber_)`. The
`isAlive()` of each flavor's subscriber class (base-class code, not under src/) is a
parameter. -/
def SubscriberForNextHopGroupMember.isAlive {NeighborIp NeighborMpls NextHopIp NextHopMpls : Type}
    (ipIsAlive : NextHopIp → Bool) (mplsIsAlive : NextHopMpls → Bool)
    (s : SubscriberForNextHopGroupMember NeighborIp NeighborMpls NextHopIp NextHopMpls) : Bool :=
  match s.nexthopSubscriber_ with
  | .ip arg =>
    match arg with
    | some sub => ipIsAlive sub
    | none => false
  | .mpls arg =>
    match arg with
    | some sub => mplsIsAlive sub
    | none => false

/-! ## The shared object registry behind `incRefOrAddNextHopGroup` -/

/-- A `LogicalIdentity`, such as the next-hop set given to `incRefOrAddNextHopGroup`. -/
abbrev LogicalIdentity := Nat

/-- A `HardwareHandle`: the object id the driver returned on creation. -/
abbrev HardwareHandle := Nat

/-- Modelled from the spec: the implementation of `incRefOrAddNextHopGroup` and of
`FlatRefMap` is not under src/. A `RegistryEntry` is
`{identity, handle, refcount: integer ≥ 1}`. -/
structure RegistryEntry where
  identity : LogicalIdentity
  handle : HardwareHandle
  refcount : Nat
  deriving DecidableEq, Repr

/-- A call the registry makes on the driver. -/
inductive DriverEvent
  | create (identity : LogicalIdentity)
  | delete (identity : LogicalIdentity) (handle : HardwareHandle)
  deriving DecidableEq, Repr

/-- Modelled from the spec: the Shared Object Registry: its entries, and the driver calls
it has made so far (oldest first). -/
structure Registry where
  entries : List RegistryEntry
  driverEvents : List DriverEvent
  deriving DecidableEq, Repr

def Registry.empty : Registry := ⟨[], []⟩

/-- The entry of identity `x`, if there is one. -/
def Registry.lookup (r : Registry) (x : LogicalIdentity) : Option RegistryEntry :=
  r.entries.find? (fun e => decide (e.identity = x))

/-- Modelled from the spec: `acquire(identity)`. "The first caller creates the hardware
object via the driver; subsequent callers receive a new reference to the same object
without a driver call"; "if driver creation fails, no entry is installed and the error is
propagated". The driver's answer to a create is the parameter `driverCreate`. -/
def Registry.acquire (driverCreate : LogicalIdentity → Option HardwareHandle) (r : Registry)
    (x : LogicalIdentity) : Option HardwareHandle × Registry :=
  match r.lookup x with
  | some e =>
    (some e.handle,
      { r with entries := r.entries.map (fun e' =>
          if e'.identity = x then { e' with refcount := e'.refcount + 1 } else e') })
  | none =>
    match driverCreate x with
    | some h =>
      (some h, { entries := r.entries ++ [⟨x, h, 1⟩],
                 driverEvents := r.driverEvents ++ [DriverEvent.create x] })
    | none => (none, { r with driverEvents := r.driverEvents ++ [DriverEvent.create x] })

/-- Modelled from the spec: `release` of a reference on identity `x`: it "decrements; at
refcount zero it invokes the driver delete and removes the entry". Releasing an identity
that has no entry does nothing. -/
def Registry.release (r : Registry) (x : LogicalIdentity) : Registry :=
  match r.lookup x with
  | none => r
  | some e =>
    if e.refcount ≤ 1 then
      { entries := r.entries.filter (fun e' => decide (e'.identity ≠ x)),
        driverEvents := r.driverEvents ++ [DriverEvent.delete x e.handle] }
    else
      { r with entries := r.entries.map (fun e' =>
          if e'.identity = x then { e' with refcount := e'.refcount - 1 } else e') }

/-- One registry operation by some holder. -/
inductive RegistryOp
  | acquire (x : LogicalIdentity)
  | release (x : LogicalIdentity)
  deriving DecidableEq, Repr

def RegistryOp.identity : RegistryOp → LogicalIdentity
  | .acquire x => x
  | .release x => x

def Registry.step (driverCreate : LogicalIdentity → Option HardwareHandle) (r : Registry) :
    RegistryOp → Registry
  | .acquire x => (r.acquire driverCreate x).2
  | .release x => r.release x

/-- The registry after a sequence of operations, applied in order. -/
def Registry.run (driverCreate : LogicalIdentity → Option HardwareHandle) (r : Registry)
    (ops : List RegistryOp) : Registry :=
  ops.foldl (Registry.step driverCreate) r

/-- The number of driver creates for identity `x` in a trace. -/
def createsOf (x : LogicalIdentity) (events : List DriverEvent) : Nat :=
  (events.filter (fun ev => match ev with
    | .create y => decide (y = x)
    | .delete _ _ => false)).length

/-- The number of driver deletes for identity `x` in a trace. -/
def deletesOf (x : LogicalIdentity) (events : List DriverEvent) : Nat :=
  (events.filter (fun ev => match ev with
    | .create _ => false
    | .delete y _ => decide (y = x))).length

/-- The number of registry entries for identity `x`. -/
def Registry.entriesOf (r : Registry) (x : LogicalIdentity) : Nat :=
  (r.entries.filter (fun e => decide (e.identity = x))).length

/-- The reference count of identity `x`: that of its entry, 0 when it has none. -/
def Registry.refs (r : Registry) (x : LogicalIdentity) : Nat :=
  match r.lookup x with
  | some e => e.refcount
  | none => 0

/-- The registry invariant: identities are pairwise distinct and every entry has a
reference count of at least one. -/
def Registry.Wf (r : Registry) : Prop :=
  (r.entries.map RegistryEntry.identity).Nodup ∧ ∀ e ∈ r.entries, 1 ≤ e.refcount

/-- The number of outstanding references on `x` after one operation, when it was `k`. -/
def RegistryOp.countAfter (x : LogicalIdentity) (k : Nat) : RegistryOp → Nat
  | .acquire y => if y = x then k + 1 else k
  | .release y => if y = x then k - 1 else k

/-- How often the number of outstanding references on `x` rises from zero during `ops`,
starting at `k`. -/
def rises (x : LogicalIdentity) : Nat → List RegistryOp → Nat
  | _, [] => 0
  | k, op :: rest =>
    (if op = RegistryOp.acquire x ∧ k = 0 then 1 else 0) + rises x (op.countAfter x k) rest

/-- How often the number of outstanding references on `x` falls back to zero during
`ops`, starting at `k`. -/
def falls (x : LogicalIdentity) : Nat → List RegistryOp → Nat
  | _, [] => 0
  | k, op :: rest =>
    (if op = RegistryOp.release x ∧ k = 1 then 1 else 0) + falls x (op.countAfter x k) rest

/-- The operations of `ops` that are on identity `x`, in order. -/
def opsOn (x : LogicalIdentity) (ops : List RegistryOp) : List RegistryOp :=
  ops.filter (fun o => decide (o.identity = x))

/-! ## The batched route programmer (`RouteUpdateWrapper.h`) -/

abbrev RouterID := Nat
abbrev ClientID := Nat

/-- The thrift struct `IpPrefix`: an address (a `folly::IPAddress`, here a number) and a
mask length. -/
structure IpPrefix where
  ip : Nat
  mask : Nat
  deriving DecidableEq, Repr

/-- The thrift struct `UnicastRoute`, reduced to its destination and its next-hop entry
(a `RouteNextHopEntry`, here a number). -/
structure UnicastRoute where
  dest : IpPrefix
  entry : Nat
  deriving DecidableEq, Repr

/-- The struct `RouteUpdateWrapper::AddDelRoutes`. -/
structure AddDelRoutes where
  toAdd : List UnicastRoute
  toDel : List IpPrefix
  deriving DecidableEq, Repr

/-- The accumulator type of `ribRoutesToAddDel_`: an `unordered_map` from
`(RouterID, ClientID)` to `AddDelRoutes`, as an association list with one pair per key. -/
abbrev RouteBatches := List ((RouterID × ClientID) × AddDelRoutes)

/-- The data members of `RouteUpdateWrapper`. -/
structure RouteUpdateWrapper where
  ribRoutesToAddDel_ : RouteBatches
  isStandaloneRibEnabled_ : Bool
  deriving DecidableEq, Repr

/-- The constructor `RouteUpdateWrapper(bool isStandaloneRibEnabled)`. -/
def RouteUpdateWrapper.new (isStandaloneRibEnabled : Bool) : RouteUpdateWrapper :=
  ⟨[], isStandaloneRibEnabled⟩

/-- The entry `ribRoutesToAddDel_[key]` after `f` was applied to it; as with
`operator[]`, a missing key starts from an empty `AddDelRoutes`. -/
def RouteBatches.update (batches : RouteBatches) (key : RouterID × ClientID)
    (f : AddDelRoutes → AddDelRoutes) : RouteBatches :=
  match batches.find? (fun kv => decide (kv.1 = key)) with
  | some _ => batches.map (fun kv => if kv.1 = key then (kv.1, f kv.2) else kv)
  | none => batches ++ [(key, f ⟨[], []⟩)]

/-- Modelled from the spec: `addRoute` (declared in the header, defined outside src/):
it "accumulates route add operations keyed by (routingInstanceId, clientId)". -/
def RouteUpdateWrapper.addRoute (w : RouteUpdateWrapper) (id : RouterID) (network : Nat)
    (mask : Nat) (clientId : ClientID) (entry : Nat) : RouteUpdateWrapper :=
  let batches := RouteBatches.update w.ribRoutesToAddDel_ (id, clientId)
    (fun r => { r with toAdd := r.toAdd ++ [⟨⟨network, mask⟩, entry⟩] })
  { w with ribRoutesToAddDel_ := batches }

/-- Modelled from the spec: `delRoute` (declared in the header, defined outside src/): it
"accumulates route delete operations keyed by (routingInstanceId, clientId)". -/
def RouteUpdateWrapper.delRoute (w : RouteUpdateWrapper) (id : RouterID) (network : Nat)
    (mask : Nat) (clientId : ClientID) : RouteUpdateWrapper :=
  let batches := RouteBatches.update w.ribRoutesToAddDel_ (id, clientId)
    (fun r => { r with toDel := r.toDel ++ [⟨network, mask⟩] })
  { w with ribRoutesToAddDel_ := batches }

/-- An invocation of one of the two backends, with the batches it was given. -/
inductive BackendCall
  | programLegacyRib (batches : RouteBatches)
  | programStandAloneRib (batches : RouteBatches)
  deriving DecidableEq, Repr

/-- The two pure virtual methods `programLegacyRib()` and `programStandAloneRib()`, given
by a subclass: each reads the accumulated batches, acts on a backend state `β` and
either returns (`true`) or throws (`false`). -/
structure RibBackends (β : Type) where
  programLegacyRib : RouteBatches → β → Bool × β
  programStandAloneRib : RouteBatches → β → Bool × β

/-- A wrapper together with the backend state and the backend invocations made so far
(oldest first). -/
structure RouteProgrammer (β : Type) where
  wrapper : RouteUpdateWrapper
  backend : β
  invoked : List BackendCall

/-- Modelled from the spec: `RouteUpdateWrapper::program()` (declared in the header,
defined outside src/): it "flushes all accumulated batches to exactly one of two
alternative backend implementations chosen by a single static configuration flag, and
clears the accumulator on success", "with accumulated-but-unflushed batches preserved if
`program()` itself fails". The result is `true` when it returns and `false` when it
throws. -/
def RouteUpdateWrapper.program {β : Type} (backends : RibBackends β) (s : RouteProgrammer β) :
    Bool × RouteProgrammer β :=
  if s.wrapper.isStandaloneRibEnabled_ then
    let r := backends.programStandAloneRib s.wrapper.ribRoutesToAddDel_ s.backend
    let s1 : RouteProgrammer β :=
      { s with backend := r.2,
               invoked := s.invoked ++ [BackendCall.programStandAloneRib s.wrapper.ribRoutesToAddDel_] }
    if r.1 then (true, { s1 with wrapper := { s1.wrapper with ribRoutesToAddDel_ := [] } })
    else (false, s1)
  else
    let r := backends.programLegacyRib s.wrapper.ribRoutesToAddDel_ s.backend
    let s1 : RouteProgrammer β :=
      { s with backend := r.2,
               invoked := s.invoked ++ [BackendCall.programLegacyRib s.wrapper.ribRoutesToAddDel_] }
    if r.1 then (true, { s1 with wrapper := { s1.wrapper with ribRoutesToAddDel_ := [] } })
    else (false, s1)

def BackendCall.isLegacy : BackendCall → Bool
  | .programLegacyRib _ => true
  | .programStandAloneRib _ => false

/-- One accumulating call on a `RouteUpdateWrapper`. -/
inductive RouteUpdate
  | addRoute (id : RouterID) (network : Nat) (mask : Nat) (clientId : ClientID) (entry : Nat)
  | delRoute (id : RouterID) (network : Nat) (mask : Nat) (clientId : ClientID)
  deriving DecidableEq, Repr

def RouteUpdateWrapper.apply (w : RouteUpdateWrapper) : RouteUpdate → RouteUpdateWrapper
  | .addRoute id network mask clientId entry => w.addRoute id network mask clientId entry
  | .delRoute id network mask clientId => w.delRoute id network mask clientId

/-- The wrapper after a sequence of `addRoute` and `delRoute` calls, in order. -/
def RouteUpdateWrapper.applyAll (w : RouteUpdateWrapper) (updates : List RouteUpdate) :
    RouteUpdateWrapper :=
  updates.foldl RouteUpdateWrapper.apply w

/-- The batches a backend invocation was given. -/
def BackendCall.batches : BackendCall → RouteBatches
  | .programLegacyRib b => b
  | .programStandAloneRib b => b

/-- A port table like `demoHw` whose warm-boot cache keeps an entry after it was
programmed, so that a later lookup for the same aggregate port finds it again. -/
def retainingHw : BcmSwitchIf where
  getBcmGport := fun p => (p : Int) + 1000
  getBcmPortId := fun p => (p : Int)
  programmed := fun c _ => c

/-! ## SAI LAG API test (`LagApiTest.cpp`) -/

abbrev sai_object_id_t := Nat
abbrev LagSaiId := sai_object_id_t
abbrev LagMemberSaiId := sai_object_id_t

/-- The NUL character: the content of every element of a value-initialised
`std::array<char, 32>` and the terminator of a C string. -/
def NUL : Char := Char.ofNat 0

/-- Modelled from the spec: a LAG held by the fake SAI (`FakeSai.h` is not under src/):
its id and its label attribute, an array of 32 characters. -/
structure FakeLag where
  id : LagSaiId
  label : List Char
  deriving DecidableEq

/-- Modelled from the spec: a LAG member held by the fake SAI: its id, the LAG it belongs
to and its port. -/
structure FakeLagMember where
  id : LagMemberSaiId
  lagId : sai_object_id_t
  portId : sai_object_id_t
  deriving DecidableEq

/-- Modelled from the spec: the part of `FakeSai` the LAG API works on (not under src/):
the LAGs and LAG members that exist, in creation order, and the next ids to hand out. -/
structure FakeSai where
  nextLagId : sai_object_id_t
  nextLagMemberId : sai_object_id_t
  lags : List FakeLag
  lagMembers : List FakeLagMember
  deriving DecidableEq

/-- Modelled from the spec: the fake SAI before any object is created. -/
def FakeSai.getInstance : FakeSai := ⟨1, 1, [], []⟩

/-- Modelled from the spec: `fs->lagManager.exists(lag)`. -/
def FakeSai.lagManagerExists (fs : FakeSai) (lag : LagSaiId) : Bool :=
  fs.lags.any (fun l => decide (l.id = lag))

/-- Modelled from the spec: `lagApi->create<SaiLagTraits>({}, switchid)` (`LagApi.h` is not
under src/): a new LAG with a fresh id, a zero-filled label and no members. -/
def LagApi.createLag (fs : FakeSai) : LagSaiId × FakeSai :=
  (fs.nextLagId,
    { fs with nextLagId := fs.nextLagId + 1,
              lags := fs.lags ++ [⟨fs.nextLagId, List.replicate 32 NUL⟩] })

/-- Modelled from the spec: `lagApi->create<SaiLagMemberTraits>({lag, port}, switchid)`: a
new member of `lag` with a fresh id; the call throws (`none`) when `lag` does not exist. -/
def LagApi.createLagMember (fs : FakeSai) (lag : sai_object_id_t) (port : sai_object_id_t) :
    Option (LagMemberSaiId × FakeSai) :=
  if fs.lagManagerExists lag then
    some (fs.nextLagMemberId,
      { fs with nextLagMemberId := fs.nextLagMemberId + 1,
                lagMembers := fs.lagMembers ++ [⟨fs.nextLagMemberId, lag, port⟩] })
  else none

/-- Modelled from the spec: `lagApi->remove(member)`: the member is dropped; the call
throws (`none`) when no such member exists. -/
def LagApi.removeLagMember (fs : FakeSai) (member : LagMemberSaiId) : Option FakeSai :=
  if fs.lagMembers.any (fun x => decide (x.id = member)) then
    some { fs with lagMembers := fs.lagMembers.filter (fun x => !decide (x.id = member)) }
  else none

/-- Modelled from the spec: `lagApi->getAttribute(lag, PortList{})`: the ids of the members
of `lag`, in creation order; the call throws (`none`) when `lag` does not exist. -/
def LagApi.getPortList (fs : FakeSai) (lag : LagSaiId) : Option (List sai_object_id_t) :=
  if fs.lagManagerExists lag then
    some ((fs.lagMembers.filter (fun x => decide (x.lagId = lag))).map FakeLagMember.id)
  else none

/-- Modelled from the spec: `lagApi->setAttribute(lag, Label(data))`: the label of `lag`
becomes `data`; the call throws (`none`) when `lag` does not exist. -/
def LagApi.setLabel (fs : FakeSai) (lag : LagSaiId) (data : List Char) : Option FakeSai :=
  if fs.lagManagerExists lag then
    some { fs with lags := fs.lags.map (fun l => if l.id = lag then { l with label := data } else l) }
  else none

/-- Modelled from the spec: `lagApi->getAttribute(lag, Label{})`: the label array of
`lag`; the call throws (`none`) when `lag` does not exist. -/
def LagApi.getLabel (fs : FakeSai) (lag : LagSaiId) : Option (List Char) :=
  (fs.lags.find? (fun l => decide (l.id = lag))).map FakeLag.label

/-- The helper `LagApiTest::createLag()`. -/
def LagApiTest.createLag (fs : FakeSai) : LagSaiId × FakeSai :=
  LagApi.createLag fs

/-- The helper `LagApiTest::hasLag(lag)`. -/
def LagApiTest.hasLag (fs : FakeSai) (lag : LagSaiId) : Bool :=
  fs.lagManagerExists lag

/-- The helper `LagApiTest::getMembers(lag)`. -/
def LagApiTest.getMembers (fs : FakeSai) (lag : LagSaiId) : Option (List sai_object_id_t) :=
  LagApi.getPortList fs lag

/-- The helper `LagApiTest::createLagMember(lag, port)`. -/
def LagApiTest.createLagMember (fs : FakeSai) (lag : sai_object_id_t) (port : sai_object_id_t) :
    Option (LagMemberSaiId × FakeSai) :=
  LagApi.createLagMember fs lag port

/-- The helper `LagApiTest::hasLagMember(lagId, lagMemberId)`: the port list is put into a
`std::set`, which is then searched. -/
def LagApiTest.hasLagMember (fs : FakeSai) (lagId : LagSaiId) (lagMemberId : LagMemberSaiId) :
    Option Bool :=
  match LagApiTest.getMembers fs lagId with
  | none => none
  | some members =>
    let membersSet : Finset LagMemberSaiId := members.foldl (fun s id => insert id s) ∅
    some (decide (lagMemberId ∈ membersSet))

/-- The helper `LagApiTest::removeLagMember(member)`. -/
def LagApiTest.removeLagMember (fs : FakeSai) (member : LagMemberSaiId) : Option FakeSai :=
  LagApi.removeLagMember fs member

/-- The array `data` of `LagApiTest::setLabel`: 32 zero characters over which
`std::copy` writes the label from the front. Copying more than 32 characters writes past
the array (undefined behaviour): `none`. -/
def LagApiTest.labelData (label : String) : Option (List Char) :=
  if label.length ≤ 32 then some (label.toList ++ List.replicate (32 - label.length) NUL)
  else none

/-- The helper `LagApiTest::setLabel(lag, label)`. -/
def LagApiTest.setLabel (fs : FakeSai) (lag : LagSaiId) (label : String) : Option FakeSai :=
  match LagApiTest.labelData label with
  | none => none
  | some data => LagApi.setLabel fs lag data

/-- The constructor `std::string(const char*)` applied to `attr.data()`: the characters
before the first NUL. An array without a NUL is read past its end (undefined
behaviour): `none`. -/
def LagApiTest.cString (attr : List Char) : Option String :=
  if NUL ∈ attr then some (String.mk (attr.takeWhile (fun c => !decide (c = NUL)))) else none

/-- The local `value` of `LagApiTest::checkLabel(lag, label)`. -/
def LagApiTest.labelValue (fs : FakeSai) (lag : LagSaiId) : Option String :=
  match LagApi.getLabel fs lag with
  | none => none
  | some attr => LagApiTest.cString attr

/-- The helper `LagApiTest::checkLabel(lag, label)`: whether `EXPECT_EQ(label, value)`
holds. -/
def LagApiTest.checkLabel (fs : FakeSai) (lag : LagSaiId) (label : String) : Option Bool :=
  match LagApiTest.labelValue fs lag with
  | none => none
  | some value => some (decide (label = value))

/-- The fake SAI after the two `createLag()` calls that open `TestApi`: LAGs 1 and 2. -/
def LagApiTest.twoLags : FakeSai :=
  (LagApiTest.createLag (LagApiTest.createLag FakeSai.getInstance).2).2
/-- The test `TEST_F(LagApiTest, TestApi)`: whether every expectation holds. The result
is `none` when a call that changes the fake SAI throws; an expectation whose evaluation
throws counts as failed. -/
def LagApiTest.TestApi (fs : FakeSai) : Option Bool :=
  match LagApiTest.createLag fs with
  | (id0, fs) =>
  match LagApiTest.createLag fs with
  | (id1, fs) =>
  let created := decide (id0 ≠ id1) && LagApiTest.hasLag fs id0 && LagApiTest.hasLag fs id1
  match LagApiTest.createLagMember fs id0 1 with
  | none => none
  | some (mem00, fs) =>
  match LagApiTest.createLagMember fs id0 2 with
  | none => none
  | some (mem01, fs) =>
  match LagApiTest.createLagMember fs id0 3 with
  | none => none
  | some (mem02, fs) =>
  match LagApiTest.createLagMember fs id0 4 with
  | none => none
  | some (mem03, fs) =>
  match LagApiTest.createLagMember fs id1 5 with
  | none => none
  | some (mem10, fs) =>
  match LagApiTest.createLagMember fs id1 6 with
  | none => none
  | some (mem11, fs) =>
  match LagApiTest.createLagMember fs id1 7 with
  | none => none
  | some (mem12, fs) =>
  match LagApiTest.createLagMember fs id1 8 with
  | none => none
  | some (mem13, fs) =>
  let members :=
    LagApiTest.hasLagMember fs id0 mem00 == some true &&
    LagApiTest.hasLagMember fs id0 mem01 == some true &&
    LagApiTest.hasLagMember fs id0 mem02 == some true &&
    LagApiTest.hasLagMember fs id0 mem03 == some true &&
    LagApiTest.hasLagMember fs id1 mem10 == some true &&
    LagApiTest.hasLagMember fs id1 mem11 == some true &&
    LagApiTest.hasLagMember fs id1 mem12 == some true &&
    LagApiTest.hasLagMember fs id1 mem13 == some true
  match LagApiTest.setLabel fs id0 "id0" with
  | none => none
  | some fs =>
  let label0 := LagApiTest.checkLabel fs id0 "id0" == some true
  match LagApiTest.setLabel fs id1 "id1" with
  | none => none
  | some fs =>
  let label1 := LagApiTest.checkLabel fs id1 "id1" == some true
  match LagApiTest.removeLagMember fs mem00 with
  | none => none
  | some fs =>
  match LagApiTest.removeLagMember fs mem10 with
  | none => none
  | some fs =>
  let removed :=
    LagApiTest.hasLagMember fs id0 mem00 == some false &&
    LagApiTest.hasLagMember fs id1 mem10 == some false
  some (created && members && label0 && label1 && removed)

/-- The fake SAI after the first two `createLagMember` calls of `TestApi`: LAG 1 has
members 1 and 2. -/
def LagApiTest.twoMembers : FakeSai :=
  match LagApiTest.createLagMember LagApiTest.twoLags 1 1 with
  | none => LagApiTest.twoLags
  | some (_, fs) =>
    match LagApiTest.createLagMember fs 1 2 with
    | none => fs
    | some (_, fs) => fs

/-! ## Basic facts -/

theorem bcmCheckError_of_ok {rv : Int} (h : BCM_FAILURE rv = false) : bcmCheckError rv = none := by
  simp [bcmCheckError, h]

theorem bcmCheckError_of_failure {rv : Int} (h : BCM_FAILURE rv = true) :
    bcmCheckError rv = some ⟨rv⟩ := by
  simp [bcmCheckError, h]

theorem ne_not_found_of_ok {rv : Int} (h : BCM_FAILURE rv = false) : rv ≠ BCM_E_NOT_FOUND := by
  intro hrv
  subst hrv
  simp [BCM_FAILURE, BCM_E_NOT_FOUND] at h

theorem issuedSince_append (before extra : List SdkCall) :
    issuedSince before (before ++ extra) = extra := by
  simp [issuedSince]

theorem modifyMemberPort_add_ok (hw : BcmSwitchIf) (sdk : BcmSdk σ) (p : PortID) (m : Machine σ)
    (h : BCM_FAILURE (sdk.bcm_trunk_member_add m.sdk m.trunk.bcmTrunkID_ ⟨hw.getBcmGport p⟩).1 = false) :
    modifyMemberPort hw sdk true p m =
      ⟨.returned (),
        (((m.record (sdk.bcm_trunk_member_add m.sdk m.trunk.bcmTrunkID_ ⟨hw.getBcmGport p⟩).2
            (SdkCall.trunk_member_add m.trunk.bcmTrunkID_ ⟨hw.getBcmGport p⟩)).log
          (XLog.addedPort p m.trunk.bcmTrunkID_)).grantMembership p)⟩ := by
  simp [modifyMemberPort, bcmCheckError_of_ok h]

theorem modifyMemberPort_delete_ok (hw : BcmSwitchIf) (sdk : BcmSdk σ) (p : PortID) (m : Machine σ)
    (h : BCM_FAILURE (sdk.bcm_trunk_member_delete m.sdk m.trunk.bcmTrunkID_ ⟨hw.getBcmGport p⟩).1 = false) :
    modifyMemberPort hw sdk false p m =
      ⟨.returned (),
        (((m.record (sdk.bcm_trunk_member_delete m.sdk m.trunk.bcmTrunkID_ ⟨hw.getBcmGport p⟩).2
            (SdkCall.trunk_member_delete m.trunk.bcmTrunkID_ ⟨hw.getBcmGport p⟩)).log
          (XLog.deletedPort p m.trunk.bcmTrunkID_)).revokeMembership p)⟩ := by
  simp [modifyMemberPort, bcmCheckError_of_ok h, ne_not_found_of_ok h]

theorem programForwardingState_ok (hw : BcmSwitchIf) (sdk : BcmSdk σ) (hok : CallsSucceed sdk)
    (oldRange : List (PortID × Forwarding)) :
    ∀ (newRange : List (PortID × Forwarding)) (m : Machine σ),
      (programForwardingState hw sdk oldRange newRange m).completion = .returned () ∧
      (programForwardingState hw sdk oldRange newRange m).machine.calls =
        m.calls ++ newRange.filterMap (memberCallOf hw m.trunk.bcmTrunkID_ oldRange) ∧
      (programForwardingState hw sdk oldRange newRange m).machine.trunk.bcmTrunkID_ =
        m.trunk.bcmTrunkID_ ∧
      (programForwardingState hw sdk oldRange newRange m).machine.granted =
        newRange.foldl (grantStep oldRange) m.granted := by
  intro newRange
  induction newRange with
  | nil => intro m; simp [programForwardingState]
  | cons e rest ih =>
    intro m
    obtain ⟨p, sn⟩ := e
    cases hfind : oldRange.find? (fun val => decide (val.1 = p)) with
    | none =>
      simp [programForwardingState, hfind, memberCallOf, grantStep, fwdStateOf, ih m]
    | some o =>
      obtain ⟨q, so⟩ := o
      have hq : q = p := by
        have := List.find?_some hfind
        simpa using this
      subst hq
      by_cases hne : so = sn
      · simp [programForwardingState, hfind, memberCallOf, grantStep, fwdStateOf, ih m, hne]
      · cases sn with
        | DISABLED =>
          have hd := modifyMemberPort_delete_ok hw sdk q m (hok.2.2.2.2.1 _ _ _)
          obtain ⟨h1, h2, h3, h4⟩ := ih ((((m.record
            (sdk.bcm_trunk_member_delete m.sdk m.trunk.bcmTrunkID_ ⟨hw.getBcmGport q⟩).2
            (SdkCall.trunk_member_delete m.trunk.bcmTrunkID_ ⟨hw.getBcmGport q⟩)).log
            (XLog.deletedPort q m.trunk.bcmTrunkID_)).revokeMembership q))
          simp [programForwardingState, hfind, memberCallOf, grantStep, fwdStateOf, hne, hd,
            h1, h2, h3, h4]
          simp [Machine.record, Machine.log, Machine.revokeMembership, Machine.granted,
            BcmTrunkStats.revokeMembership]
        | ENABLED =>
          have hd := modifyMemberPort_add_ok hw sdk q m (hok.2.2.2.1 _ _ _)
          obtain ⟨h1, h2, h3, h4⟩ := ih ((((m.record
            (sdk.bcm_trunk_member_add m.sdk m.trunk.bcmTrunkID_ ⟨hw.getBcmGport q⟩).2
            (SdkCall.trunk_member_add m.trunk.bcmTrunkID_ ⟨hw.getBcmGport q⟩)).log
            (XLog.addedPort q m.trunk.bcmTrunkID_)).grantMembership q))
          simp [programForwardingState, hfind, memberCallOf, grantStep, fwdStateOf, hne, hd,
            h1, h2, h3, h4]
          simp [Machine.record, Machine.log, Machine.grantMembership, Machine.granted,
            BcmTrunkStats.grantMembership]

theorem program_completion (hw : BcmSwitchIf) (sdk : BcmSdk σ) (oldAggPort newAggPort : AggregatePort)
    (m : Machine σ) :
    (program hw sdk oldAggPort newAggPort m).completion =
      (programForwardingState hw sdk oldAggPort.subportAndFwdState
        newAggPort.subportAndFwdState m).completion := by
  unfold program
  generalize programForwardingState hw sdk oldAggPort.subportAndFwdState
    newAggPort.subportAndFwdState m = out
  obtain ⟨c, m1⟩ := out
  cases c <;> simp
  split <;> rfl

theorem program_calls (hw : BcmSwitchIf) (sdk : BcmSdk σ) (oldAggPort newAggPort : AggregatePort)
    (m : Machine σ) :
    (program hw sdk oldAggPort newAggPort m).machine.calls =
      (programForwardingState hw sdk oldAggPort.subportAndFwdState
        newAggPort.subportAndFwdState m).machine.calls := by
  unfold program
  generalize programForwardingState hw sdk oldAggPort.subportAndFwdState
    newAggPort.subportAndFwdState m = out
  obtain ⟨c, m1⟩ := out
  cases c <;> simp
  split <;> rfl

theorem program_granted (hw : BcmSwitchIf) (sdk : BcmSdk σ) (oldAggPort newAggPort : AggregatePort)
    (m : Machine σ) :
    (program hw sdk oldAggPort newAggPort m).machine.granted =
      (programForwardingState hw sdk oldAggPort.subportAndFwdState
        newAggPort.subportAndFwdState m).machine.granted := by
  unfold program
  generalize programForwardingState hw sdk oldAggPort.subportAndFwdState
    newAggPort.subportAndFwdState m = out
  obtain ⟨c, m1⟩ := out
  cases c <;> simp
  split <;> rfl

theorem fwdStateOf_of_mem {range : List (PortID × Forwarding)} {p : PortID} {s : Forwarding}
    (hnd : (range.map Prod.fst).Nodup) (hmem : (p, s) ∈ range) :
    fwdStateOf range p = some s := by
  induction range with
  | nil => simp at hmem
  | cons e rest ih =>
    obtain ⟨q, t⟩ := e
    simp only [List.map_cons, List.nodup_cons] at hnd
    rcases List.mem_cons.mp hmem with h | h
    · cases h
      simp [fwdStateOf]
    · have hqp : q ≠ p := by
        intro hqp
        subst hqp
        exact hnd.1 (List.mem_map_of_mem Prod.fst h)
      have := ih hnd.2 h
      simp only [fwdStateOf] at this ⊢
      simp [List.find?_cons, hqp, this]

theorem fwdStateOf_eq_none {range : List (PortID × Forwarding)} {p : PortID}
    (h : p ∉ range.map Prod.fst) : fwdStateOf range p = none := by
  simp only [fwdStateOf, Option.map_eq_none', List.find?_eq_none]
  intro e he
  simp only [decide_eq_true_eq]
  intro hp
  exact h (hp ▸ List.mem_map_of_mem Prod.fst he)

theorem memberCallOf_isMemberCallFor {hw : BcmSwitchIf} {tid : bcm_trunk_t}
    {oldRange : List (PortID × Forwarding)} {e : PortID × Forwarding} {c : SdkCall}
    (h : memberCallOf hw tid oldRange e = some c) (g : bcm_gport_t) :
    c.isMemberCallFor g = decide (hw.getBcmGport e.1 = g) := by
  unfold memberCallOf at h
  split at h
  · simp at h
  · split at h
    · simp at h
    · split at h <;> (simp at h; subst h; simp [SdkCall.isMemberCallFor])

theorem memberCallOf_isMemberCall {hw : BcmSwitchIf} {tid : bcm_trunk_t}
    {oldRange : List (PortID × Forwarding)} {e : PortID × Forwarding} {c : SdkCall}
    (h : memberCallOf hw tid oldRange e = some c) : c.isMemberCall = true := by
  unfold memberCallOf at h
  split at h
  · simp at h
  · split at h
    · simp at h
    · split at h <;> (simp at h; subst h; simp [SdkCall.isMemberCall])

theorem memberCallsFor_filterMap_of_not_mem (hw : BcmSwitchIf) (tid : bcm_trunk_t)
    (oldRange : List (PortID × Forwarding)) (hinj : Function.Injective hw.getBcmGport)
    (p : PortID) :
    ∀ (newRange : List (PortID × Forwarding)), p ∉ newRange.map Prod.fst →
      memberCallsFor (hw.getBcmGport p) (newRange.filterMap (memberCallOf hw tid oldRange)) = [] := by
  intro newRange hp
  simp only [memberCallsFor, List.filter_eq_nil_iff, List.mem_filterMap]
  rintro c ⟨e, he, hc⟩
  rw [memberCallOf_isMemberCallFor hc]
  simp only [decide_eq_true_eq]
  intro hg
  exact hp (hinj hg ▸ List.mem_map_of_mem Prod.fst he)

theorem memberCallsFor_filterMap_of_mem (hw : BcmSwitchIf) (tid : bcm_trunk_t)
    (oldRange : List (PortID × Forwarding)) (hinj : Function.Injective hw.getBcmGport)
    (p : PortID) (sn : Forwarding) :
    ∀ (newRange : List (PortID × Forwarding)), (newRange.map Prod.fst).Nodup →
      (p, sn) ∈ newRange →
      memberCallsFor (hw.getBcmGport p) (newRange.filterMap (memberCallOf hw tid oldRange)) =
        (memberCallOf hw tid oldRange (p, sn)).toList := by
  intro newRange
  induction newRange with
  | nil => intro _ h; simp at h
  | cons e rest ih =>
    intro hnd hmem
    simp only [List.map_cons, List.nodup_cons] at hnd
    rcases List.mem_cons.mp hmem with h | h
    · subst h
      have hrest := memberCallsFor_filterMap_of_not_mem hw tid oldRange hinj p rest hnd.1
      cases hc : memberCallOf hw tid oldRange (p, sn) with
      | none => simp [List.filterMap_cons, hc, hrest]
      | some c =>
        have hfor := memberCallOf_isMemberCallFor hc (hw.getBcmGport p)
        simp only [decide_True] at hfor
        simp only [memberCallsFor] at hrest
        simp [List.filterMap_cons, hc, memberCallsFor, List.filter_cons, hfor, hrest]
    · have hne : e.1 ≠ p := by
        intro hep
        exact hnd.1 (hep ▸ List.mem_map_of_mem Prod.fst h)
      have hih := ih hnd.2 h
      cases hc : memberCallOf hw tid oldRange e with
      | none => simp [List.filterMap_cons, hc, hih]
      | some c =>
        have hfor := memberCallOf_isMemberCallFor hc (hw.getBcmGport p)
        have hg : hw.getBcmGport e.1 ≠ hw.getBcmGport p := fun hg => hne (hinj hg)
        simp only [hg, decide_False] at hfor
        simp only [memberCallsFor] at hih
        simp [List.filterMap_cons, hc, memberCallsFor, List.filter_cons, hfor, hih]

theorem okSdk_callsSucceed (tid : bcm_trunk_t) (live : List bcm_trunk_member_t) :
    CallsSucceed (okSdk tid live) := by
  simp [CallsSucceed, okSdk, BCM_FAILURE, BCM_E_NONE]

theorem demoHw_injective : Function.Injective demoHw.getBcmGport := by
  intro a b h
  simpa [demoHw] using h

/-! ## `program`: one member call per forwarding-state transition -/

/-- C1: with distinct port ids in each snapshot, distinct gports per port and a driver
whose calls succeed, `program` returns normally, issues member add/delete calls only,
and for a subport `p` present in both snapshots the member calls it issues for `p` are:
none when the forwarding state is unchanged, exactly one `bcm_trunk_member_add` when the
new state is ENABLED, exactly one `bcm_trunk_member_delete` when it is DISABLED. -/
theorem program_one_member_call_per_transition (hw : BcmSwitchIf) (sdk : BcmSdk σ)
    (oldAggPort newAggPort : AggregatePort) (m : Machine σ)
    (hinj : Function.Injective hw.getBcmGport)
    (hold : (oldAggPort.subportAndFwdState.map Prod.fst).Nodup)
    (hnew : (newAggPort.subportAndFwdState.map Prod.fst).Nodup)
    (hok : CallsSucceed sdk)
    (p : PortID) (so sn : Forwarding)
    (hpo : (p, so) ∈ oldAggPort.subportAndFwdState)
    (hpn : (p, sn) ∈ newAggPort.subportAndFwdState) :
    (program hw sdk oldAggPort newAggPort m).completion = .returned () ∧
    (issuedSince m.calls (program hw sdk oldAggPort newAggPort m).machine.calls).all
      SdkCall.isMemberCall = true ∧
    memberCallsFor (hw.getBcmGport p)
        (issuedSince m.calls (program hw sdk oldAggPort newAggPort m).machine.calls) =
      (if so = sn then []
       else if sn = Forwarding.ENABLED then
         [SdkCall.trunk_member_add m.trunk.bcmTrunkID_ ⟨hw.getBcmGport p⟩]
       else [SdkCall.trunk_member_delete m.trunk.bcmTrunkID_ ⟨hw.getBcmGport p⟩]) := by
  obtain ⟨h1, h2, -, -⟩ := programForwardingState_ok hw sdk hok
    oldAggPort.subportAndFwdState newAggPort.subportAndFwdState m
  rw [program_completion, program_calls, h2, issuedSince_append]
  refine ⟨h1, ?_, ?_⟩
  · simp only [List.all_eq_true, List.mem_filterMap]
    rintro c ⟨e, -, hc⟩
    exact memberCallOf_isMemberCall hc
  · rw [memberCallsFor_filterMap_of_mem hw _ _ hinj p sn _ hnew hpn]
    simp only [memberCallOf, fwdStateOf_of_mem hold hpo]
    by_cases hs : so = sn
    · simp [hs]
    · by_cases he : sn = Forwarding.ENABLED
      · simp [if_neg hs, if_pos he]
      · simp [if_neg hs, if_neg he]

/-- Witness for C1: port 1 goes Enabled to Disabled while port 2 goes Disabled to Enabled. -/
theorem program_one_member_call_per_transition_witness :
    Function.Injective demoHw.getBcmGport ∧
    ((AggregatePort.mk 7 "po1" [(1, Forwarding.ENABLED), (2, Forwarding.DISABLED)]).subportAndFwdState.map
      Prod.fst).Nodup ∧
    ((AggregatePort.mk 7 "po1" [(1, Forwarding.DISABLED), (2, Forwarding.ENABLED)]).subportAndFwdState.map
      Prod.fst).Nodup ∧
    CallsSucceed (okSdk 1 []) ∧
    ((1, Forwarding.ENABLED) ∈
      (AggregatePort.mk 7 "po1" [(1, Forwarding.ENABLED), (2, Forwarding.DISABLED)]).subportAndFwdState) ∧
    ((1, Forwarding.DISABLED) ∈
      (AggregatePort.mk 7 "po1" [(1, Forwarding.DISABLED), (2, Forwarding.ENABLED)]).subportAndFwdState) ∧
    ((program demoHw (okSdk 1 [])
        (AggregatePort.mk 7 "po1" [(1, Forwarding.ENABLED), (2, Forwarding.DISABLED)])
        (AggregatePort.mk 7 "po1" [(1, Forwarding.DISABLED), (2, Forwarding.ENABLED)])
        (Machine.start () ⟨[]⟩)).completion = .returned () ∧
     (issuedSince (Machine.start () ⟨[]⟩).calls (program demoHw (okSdk 1 [])
        (AggregatePort.mk 7 "po1" [(1, Forwarding.ENABLED), (2, Forwarding.DISABLED)])
        (AggregatePort.mk 7 "po1" [(1, Forwarding.DISABLED), (2, Forwarding.ENABLED)])
        (Machine.start () ⟨[]⟩)).machine.calls).all SdkCall.isMemberCall = true ∧
     memberCallsFor (demoHw.getBcmGport 1)
        (issuedSince (Machine.start () ⟨[]⟩).calls (program demoHw (okSdk 1 [])
          (AggregatePort.mk 7 "po1" [(1, Forwarding.ENABLED), (2, Forwarding.DISABLED)])
          (AggregatePort.mk 7 "po1" [(1, Forwarding.DISABLED), (2, Forwarding.ENABLED)])
          (Machine.start () ⟨[]⟩)).machine.calls) =
      (if Forwarding.ENABLED = Forwarding.DISABLED then []
       else if Forwarding.DISABLED = Forwarding.ENABLED then
         [SdkCall.trunk_member_add (Machine.start () ⟨[]⟩).trunk.bcmTrunkID_ ⟨demoHw.getBcmGport 1⟩]
       else [SdkCall.trunk_member_delete (Machine.start () ⟨[]⟩).trunk.bcmTrunkID_
         ⟨demoHw.getBcmGport 1⟩])) :=
  ⟨demoHw_injective, by decide, by decide, okSdk_callsSucceed 1 [], by decide, by decide,
    program_one_member_call_per_transition demoHw (okSdk 1 []) _ _ (Machine.start () ⟨[]⟩)
      demoHw_injective (by decide) (by decide) (okSdk_callsSucceed 1 []) 1
      Forwarding.ENABLED Forwarding.DISABLED (by decide) (by decide)⟩

/-! ## `modifyMemberPort`: removal tolerates NOT_FOUND only -/

/-- C2: `modifyMemberPort(false, memberPort)` issues exactly one
`bcm_trunk_member_delete`; it throws if and only if that call returns a failure code
other than `BCM_E_NOT_FOUND`, and on `BCM_E_NOT_FOUND` it returns normally. -/
theorem modifyMemberPort_remove_throws_iff (hw : BcmSwitchIf) (sdk : BcmSdk σ)
    (memberPort : PortID) (m : Machine σ) :
    ((modifyMemberPort hw sdk false memberPort m).completion.isThrew = true ↔
      (BCM_FAILURE (sdk.bcm_trunk_member_delete m.sdk m.trunk.bcmTrunkID_
          ⟨hw.getBcmGport memberPort⟩).1 = true ∧
        (sdk.bcm_trunk_member_delete m.sdk m.trunk.bcmTrunkID_
          ⟨hw.getBcmGport memberPort⟩).1 ≠ BCM_E_NOT_FOUND)) ∧
    (modifyMemberPort hw sdk false memberPort m).completion =
      (if (sdk.bcm_trunk_member_delete m.sdk m.trunk.bcmTrunkID_
            ⟨hw.getBcmGport memberPort⟩).1 = BCM_E_NOT_FOUND then .returned ()
       else if BCM_FAILURE (sdk.bcm_trunk_member_delete m.sdk m.trunk.bcmTrunkID_
            ⟨hw.getBcmGport memberPort⟩).1 = true then
         .threw ⟨(sdk.bcm_trunk_member_delete m.sdk m.trunk.bcmTrunkID_
            ⟨hw.getBcmGport memberPort⟩).1⟩
       else .returned ()) ∧
    issuedSince m.calls (modifyMemberPort hw sdk false memberPort m).machine.calls =
      [SdkCall.trunk_member_delete m.trunk.bcmTrunkID_ ⟨hw.getBcmGport memberPort⟩] := by
  by_cases hnf : (sdk.bcm_trunk_member_delete m.sdk m.trunk.bcmTrunkID_
      ⟨hw.getBcmGport memberPort⟩).1 = BCM_E_NOT_FOUND
  · simp [modifyMemberPort, hnf, Completion.isThrew, issuedSince, Machine.record, Machine.log]
  · cases hf : BCM_FAILURE (sdk.bcm_trunk_member_delete m.sdk m.trunk.bcmTrunkID_
      ⟨hw.getBcmGport memberPort⟩).1
    · simp [modifyMemberPort, hnf, hf, bcmCheckError, Completion.isThrew, issuedSince,
        Machine.record, Machine.log, Machine.revokeMembership]
    · simp [modifyMemberPort, hnf, hf, bcmCheckError, Completion.isThrew, issuedSince,
        Machine.record]

/-! ## Frame facts for the flood-suppression loops -/

theorem suppressEgressLoop_trunk (hw : BcmSwitchIf) (sdk : BcmSdk σ) (ingressSubport : PortID)
    (ingressPortID : bcm_port_t) :
    ∀ (egress : List PortID) (m : Machine σ),
      (suppressEgressLoop hw sdk ingressSubport ingressPortID egress m).trunk = m.trunk ∧
      (suppressEgressLoop hw sdk ingressSubport ingressPortID egress m).xlog = m.xlog ∧
      (suppressEgressLoop hw sdk ingressSubport ingressPortID egress m).warmBootCache =
        m.warmBootCache := by
  intro egress
  induction egress with
  | nil => intro m; simp [suppressEgressLoop]
  | cons e rest ih =>
    intro m
    by_cases h : ingressSubport = e
    · rw [suppressEgressLoop, if_pos h]
      exact ih m
    · rw [suppressEgressLoop, if_neg h]
      simpa [Machine.record] using ih _

theorem suppressIngressLoop_trunk (hw : BcmSwitchIf) (sdk : BcmSdk σ) (all : List PortID) :
    ∀ (ingress : List PortID) (m : Machine σ),
      (suppressIngressLoop hw sdk all ingress m).trunk = m.trunk ∧
      (suppressIngressLoop hw sdk all ingress m).xlog = m.xlog ∧
      (suppressIngressLoop hw sdk all ingress m).warmBootCache = m.warmBootCache := by
  intro ingress
  induction ingress with
  | nil => intro m; simp [suppressIngressLoop]
  | cons e rest ih =>
    intro m
    simp [suppressIngressLoop, ih, suppressEgressLoop_trunk]

theorem suppressTrunkInternalFlood_trunk (hw : BcmSwitchIf) (sdk : BcmSdk σ)
    (aggPort : AggregatePort) (m : Machine σ) :
    (suppressTrunkInternalFlood hw sdk aggPort m).trunk = m.trunk :=
  (suppressIngressLoop_trunk hw sdk _ _ m).1

/-! ## `program`: the granted set after a successful run -/

theorem mem_wentEnabled {oldRange newRange : List (PortID × Forwarding)} {q : PortID} :
    q ∈ wentEnabled oldRange newRange ↔
      (q, Forwarding.ENABLED) ∈ newRange ∧ fwdStateOf oldRange q = some Forwarding.DISABLED := by
  simp only [wentEnabled, List.mem_toFinset, List.mem_map, List.mem_filter, decide_eq_true_eq]
  constructor
  · rintro ⟨⟨a, s⟩, ⟨hmem, hs, ho⟩, rfl⟩
    simp only at hs ho
    subst hs
    exact ⟨hmem, ho⟩
  · rintro ⟨hmem, ho⟩
    exact ⟨(q, Forwarding.ENABLED), ⟨hmem, rfl, ho⟩, rfl⟩

theorem mem_wentDisabled {oldRange newRange : List (PortID × Forwarding)} {q : PortID} :
    q ∈ wentDisabled oldRange newRange ↔
      (q, Forwarding.DISABLED) ∈ newRange ∧ fwdStateOf oldRange q = some Forwarding.ENABLED := by
  simp only [wentDisabled, List.mem_toFinset, List.mem_map, List.mem_filter, decide_eq_true_eq]
  constructor
  · rintro ⟨⟨a, s⟩, ⟨hmem, hs, ho⟩, rfl⟩
    simp only at hs ho
    subst hs
    exact ⟨hmem, ho⟩
  · rintro ⟨hmem, ho⟩
    exact ⟨(q, Forwarding.DISABLED), ⟨hmem, rfl, ho⟩, rfl⟩

theorem foldl_grantStep (oldRange : List (PortID × Forwarding)) :
    ∀ (newRange : List (PortID × Forwarding)) (S : Finset PortID),
      newRange.foldl (grantStep oldRange) S =
        (S \ wentDisabled oldRange newRange) ∪ wentEnabled oldRange newRange := by
  intro newRange
  induction newRange with
  | nil =>
    intro S
    ext q
    simp [mem_wentEnabled, mem_wentDisabled]
  | cons e rest ih =>
    intro S
    obtain ⟨p, sn⟩ := e
    rw [List.foldl_cons, ih]
    ext q
    simp only [Finset.mem_union, Finset.mem_sdiff, mem_wentEnabled, mem_wentDisabled,
      List.mem_cons, Prod.mk.injEq]
    cases ho : fwdStateOf oldRange p with
    | none =>
      simp only [grantStep, ho]
      by_cases hq : q = p
      · subst hq; simp [ho]
      · simp [hq]
    | some so =>
      by_cases hs : so = sn
      · subst hs
        simp only [grantStep, ho, if_true]
        by_cases hq : q = p
        · subst hq
          cases so <;> simp [ho]
        · simp [hq]
      · by_cases hq : q = p
        · subst hq
          cases so <;> cases sn <;> simp_all [grantStep]
        · cases so <;> cases sn <;> simp_all [grantStep]

theorem init_fresh_enabled_disabled (hw : BcmSwitchIf) (sdk : BcmSdk σ) (hok : CallsSucceed sdk)
    (A B : PortID) (id : AggregatePortID) (name : String) (m0 : Machine σ)
    (hcache : m0.warmBootCache.trunks.find? (fun trunk => decide (id = trunk.1)) = none) :
    (init hw sdk ⟨id, name, [(A, Forwarding.ENABLED), (B, Forwarding.DISABLED)]⟩ m0).completion =
      .returned () ∧
    (init hw sdk ⟨id, name, [(A, Forwarding.ENABLED), (B, Forwarding.DISABLED)]⟩ m0).machine.granted =
      insert A m0.granted ∧
    (init hw sdk ⟨id, name, [(A, Forwarding.ENABLED), (B, Forwarding.DISABLED)]⟩
      m0).machine.trunk.bcmTrunkID_ = (sdk.bcm_trunk_create m0.sdk 0).2.1 := by
  have hc := bcmCheckError_of_ok (hok.1 m0.sdk 0)
  simp only [init, AggregatePort.getID, hcache, hc, AggregatePort.subportAndFwdState,
    AggregatePort.forwardingSubportCount, initFreshLoop]
  simp [bcmCheckError_of_ok (hok.2.2.1 _ _ _ _), Machine.statsSetup, Machine.granted,
    suppressTrunkInternalFlood_trunk, Machine.record, Machine.log, Machine.grantMembership,
    BcmTrunkStats.setup, BcmTrunkStats.grantMembership]

/-- What holds of `program` when every driver call succeeds and subport A is iterated
before subport B: a trunk created fresh by `init` with subports A Enabled, B Disabled has A
granted, and `program` to A Disabled, B Enabled then issues exactly
`bcm_trunk_member_delete` for A followed by `bcm_trunk_member_add` for B on the created
trunk and leaves exactly B granted; and for any two snapshots `program` returns normally
and the granted set afterwards is the previous one minus the ports that went Enabled to
Disabled plus the ports that went Disabled to Enabled. -/
theorem program_granted_after_success (hw : BcmSwitchIf) (sdk : BcmSdk σ)
    (oldAggPort newAggPort : AggregatePort) (m : Machine σ)
    (A B : PortID) (id : AggregatePortID) (name newName : String) (m0 : Machine σ)
    (hok : CallsSucceed sdk) (hAB : A ≠ B) (hfresh : m0.trunk = BcmTrunk.new)
    (hcache : m0.warmBootCache.trunks.find? (fun trunk => decide (id = trunk.1)) = none) :
    ((init hw sdk ⟨id, name, [(A, Forwarding.ENABLED), (B, Forwarding.DISABLED)]⟩ m0).completion =
        .returned () ∧
      (init hw sdk ⟨id, name, [(A, Forwarding.ENABLED), (B, Forwarding.DISABLED)]⟩
        m0).machine.granted = {A} ∧
      (program hw sdk ⟨id, name, [(A, Forwarding.ENABLED), (B, Forwarding.DISABLED)]⟩
        ⟨id, newName, [(A, Forwarding.DISABLED), (B, Forwarding.ENABLED)]⟩
        (init hw sdk ⟨id, name, [(A, Forwarding.ENABLED), (B, Forwarding.DISABLED)]⟩
          m0).machine).completion = .returned () ∧
      issuedSince
        (init hw sdk ⟨id, name, [(A, Forwarding.ENABLED), (B, Forwarding.DISABLED)]⟩ m0).machine.calls
        (program hw sdk ⟨id, name, [(A, Forwarding.ENABLED), (B, Forwarding.DISABLED)]⟩
          ⟨id, newName, [(A, Forwarding.DISABLED), (B, Forwarding.ENABLED)]⟩
          (init hw sdk ⟨id, name, [(A, Forwarding.ENABLED), (B, Forwarding.DISABLED)]⟩
            m0).machine).machine.calls =
        [SdkCall.trunk_member_delete (sdk.bcm_trunk_create m0.sdk 0).2.1 ⟨hw.getBcmGport A⟩,
         SdkCall.trunk_member_add (sdk.bcm_trunk_create m0.sdk 0).2.1 ⟨hw.getBcmGport B⟩] ∧
      (program hw sdk ⟨id, name, [(A, Forwarding.ENABLED), (B, Forwarding.DISABLED)]⟩
        ⟨id, newName, [(A, Forwarding.DISABLED), (B, Forwarding.ENABLED)]⟩
        (init hw sdk ⟨id, name, [(A, Forwarding.ENABLED), (B, Forwarding.DISABLED)]⟩
          m0).machine).machine.granted = {B}) ∧
    ((program hw sdk oldAggPort newAggPort m).completion = .returned () ∧
      (program hw sdk oldAggPort newAggPort m).machine.granted =
        (m.granted \ wentDisabled oldAggPort.subportAndFwdState newAggPort.subportAndFwdState) ∪
          wentEnabled oldAggPort.subportAndFwdState newAggPort.subportAndFwdState) := by
  have hBA : B ≠ A := fun h => hAB h.symm
  constructor
  · obtain ⟨hc, hg, ht⟩ :=
      init_fresh_enabled_disabled hw sdk hok A B id name m0 hcache
    have hempty : m0.granted = ∅ := by simp [Machine.granted, hfresh, BcmTrunk.new]
    rw [hempty] at hg
    obtain ⟨h1, h2, -, h4⟩ := programForwardingState_ok hw sdk hok
      [(A, Forwarding.ENABLED), (B, Forwarding.DISABLED)]
      [(A, Forwarding.DISABLED), (B, Forwarding.ENABLED)]
      (init hw sdk ⟨id, name, [(A, Forwarding.ENABLED), (B, Forwarding.DISABLED)]⟩ m0).machine
    refine ⟨hc, by simpa using hg, ?_, ?_, ?_⟩
    · rw [program_completion]
      exact h1
    · rw [program_calls]
      simp only [AggregatePort.subportAndFwdState]
      rw [h2, issuedSince_append, ht]
      simp [memberCallOf, fwdStateOf, List.find?_cons, hAB, hBA]
    · rw [program_granted]
      simp only [AggregatePort.subportAndFwdState]
      rw [h4, hg]
      simp [grantStep, fwdStateOf, List.find?_cons, hAB, hBA]
  · obtain ⟨h1, -, -, h4⟩ := programForwardingState_ok hw sdk hok
      oldAggPort.subportAndFwdState newAggPort.subportAndFwdState m
    rw [program_completion, program_granted, h4, foldl_grantStep]
    exact ⟨h1, rfl⟩

/-- An instance of `program_granted_after_success`: ports 1 and 2 on aggregate port 7, a
driver that always succeeds. -/
theorem program_granted_after_success_witness :
    CallsSucceed (okSdk 1 []) ∧ (1 : PortID) ≠ 2 ∧
    (Machine.start () ⟨[]⟩).trunk = BcmTrunk.new ∧
    (Machine.start () ⟨[]⟩).warmBootCache.trunks.find? (fun trunk => decide (7 = trunk.1)) = none ∧
    issuedSince
      (init demoHw (okSdk 1 []) ⟨7, "po1", [(1, Forwarding.ENABLED), (2, Forwarding.DISABLED)]⟩
        (Machine.start () ⟨[]⟩)).machine.calls
      (program demoHw (okSdk 1 []) ⟨7, "po1", [(1, Forwarding.ENABLED), (2, Forwarding.DISABLED)]⟩
        ⟨7, "po1", [(1, Forwarding.DISABLED), (2, Forwarding.ENABLED)]⟩
        (init demoHw (okSdk 1 []) ⟨7, "po1", [(1, Forwarding.ENABLED), (2, Forwarding.DISABLED)]⟩
          (Machine.start () ⟨[]⟩)).machine).machine.calls =
      [SdkCall.trunk_member_delete ((okSdk 1 []).bcm_trunk_create (Machine.start () ⟨[]⟩).sdk 0).2.1
          ⟨demoHw.getBcmGport 1⟩,
       SdkCall.trunk_member_add ((okSdk 1 []).bcm_trunk_create (Machine.start () ⟨[]⟩).sdk 0).2.1
          ⟨demoHw.getBcmGport 2⟩] ∧
    (program demoHw (okSdk 1 []) ⟨7, "po1", [(1, Forwarding.ENABLED), (2, Forwarding.DISABLED)]⟩
      ⟨7, "po1", [(1, Forwarding.DISABLED), (2, Forwarding.ENABLED)]⟩
      (init demoHw (okSdk 1 []) ⟨7, "po1", [(1, Forwarding.ENABLED), (2, Forwarding.DISABLED)]⟩
        (Machine.start () ⟨[]⟩)).machine).machine.granted = {2} :=
  ⟨okSdk_callsSucceed 1 [], by decide, rfl, rfl,
    (program_granted_after_success demoHw (okSdk 1 [])
      ⟨7, "po1", [(1, Forwarding.ENABLED), (2, Forwarding.DISABLED)]⟩
      ⟨7, "po1", [(1, Forwarding.DISABLED), (2, Forwarding.ENABLED)]⟩ (Machine.start () ⟨[]⟩)
      1 2 7 "po1" "po1" (Machine.start () ⟨[]⟩) (okSdk_callsSucceed 1 []) (by decide) rfl rfl).1.2.2.2.1,
    (program_granted_after_success demoHw (okSdk 1 [])
      ⟨7, "po1", [(1, Forwarding.ENABLED), (2, Forwarding.DISABLED)]⟩
      ⟨7, "po1", [(1, Forwarding.DISABLED), (2, Forwarding.ENABLED)]⟩ (Machine.start () ⟨[]⟩)
      1 2 7 "po1" "po1" (Machine.start () ⟨[]⟩) (okSdk_callsSucceed 1 []) (by decide) rfl rfl).1.2.2.2.2⟩

/-! ## `program`: subports present in only one snapshot -/

theorem modifyMemberPort_frame (hw : BcmSwitchIf) (sdk : BcmSdk σ) (added : Bool) (q : PortID)
    (m : Machine σ) :
    ∃ c : SdkCall,
      (modifyMemberPort hw sdk added q m).machine.calls = m.calls ++ [c] ∧
      (∀ g, c.isMemberCallFor g = decide (hw.getBcmGport q = g)) ∧
      (∀ p, p ≠ q → (p ∈ (modifyMemberPort hw sdk added q m).machine.granted ↔ p ∈ m.granted)) := by
  cases added with
  | true =>
    refine ⟨SdkCall.trunk_member_add m.trunk.bcmTrunkID_ ⟨hw.getBcmGport q⟩, ?_, ?_, ?_⟩
    · simp only [modifyMemberPort, if_true]
      split <;> simp [Machine.record, Machine.log, Machine.grantMembership]
    · intro g; simp [SdkCall.isMemberCallFor]
    · intro p hp
      simp only [modifyMemberPort, if_true]
      split <;> simp [Machine.record, Machine.log, Machine.grantMembership, Machine.granted,
        BcmTrunkStats.grantMembership, hp]
  | false =>
    refine ⟨SdkCall.trunk_member_delete m.trunk.bcmTrunkID_ ⟨hw.getBcmGport q⟩, ?_, ?_, ?_⟩
    · simp only [modifyMemberPort, Bool.false_eq_true, if_false]
      split
      · simp [Machine.record, Machine.log]
      · split <;> simp [Machine.record, Machine.log, Machine.revokeMembership]
    · intro g; simp [SdkCall.isMemberCallFor]
    · intro p hp
      simp only [modifyMemberPort, Bool.false_eq_true, if_false]
      split
      · simp [Machine.record, Machine.log, Machine.granted]
      · split <;> simp [Machine.record, Machine.log, Machine.revokeMembership, Machine.granted,
          BcmTrunkStats.revokeMembership, hp]

theorem programForwardingState_frame (hw : BcmSwitchIf) (sdk : BcmSdk σ)
    (hinj : Function.Injective hw.getBcmGport) (oldRange : List (PortID × Forwarding))
    (p : PortID) :
    ∀ (newRange : List (PortID × Forwarding)) (m : Machine σ),
      (p ∈ newRange.map Prod.fst → fwdStateOf oldRange p = none) →
      ∃ extra : List SdkCall,
        (programForwardingState hw sdk oldRange newRange m).machine.calls = m.calls ++ extra ∧
        memberCallsFor (hw.getBcmGport p) extra = [] ∧
        (p ∈ (programForwardingState hw sdk oldRange newRange m).machine.granted ↔
          p ∈ m.granted) := by
  intro newRange
  induction newRange with
  | nil => intro m _; exact ⟨[], by simp [programForwardingState, memberCallsFor]⟩
  | cons e rest ih =>
    intro m hp
    obtain ⟨q, sn⟩ := e
    have hrest : p ∈ rest.map Prod.fst → fwdStateOf oldRange p = none := fun h =>
      hp (by simp only [List.map_cons, List.mem_cons]; exact Or.inr h)
    cases hfind : oldRange.find? (fun val => decide (val.1 = q)) with
    | none =>
      simp only [programForwardingState, hfind]
      exact ih m hrest
    | some o =>
      obtain ⟨q', so⟩ := o
      have hq : q' = q := by
        have := List.find?_some hfind
        simpa using this
      subst hq
      have hpq : p ≠ q' := by
        intro hpq
        subst hpq
        have := hp (by simp)
        simp [fwdStateOf, hfind] at this
      by_cases hne : so = sn
      · simp only [programForwardingState, hfind, ne_eq, not_true_eq_false, if_false, hne]
        exact ih m hrest
      · obtain ⟨c, hc1, hc2, hc3⟩ := modifyMemberPort_frame hw sdk
          (decide (sn = Forwarding.ENABLED)) q' m
        have hcp : c.isMemberCallFor (hw.getBcmGport p) = false := by
          rw [hc2]
          simp only [decide_eq_false_iff_not]
          exact fun hg => hpq (hinj hg).symm
        simp only [programForwardingState, hfind, ne_eq, not_true_eq_false, if_false, hne,
          not_false_eq_true, if_true]
        generalize modifyMemberPort hw sdk (decide (sn = Forwarding.ENABLED)) q' m = out at hc1 hc3
        obtain ⟨comp, m1⟩ := out
        simp only at hc1 hc3
        cases comp with
        | returned u =>
          obtain ⟨extra, he1, he2, he3⟩ := ih m1 hrest
          refine ⟨c :: extra, ?_, ?_, ?_⟩
          · simp only [he1, hc1, List.append_assoc, List.singleton_append]
          · simp only [memberCallsFor, List.filter_cons, hcp] at he2 ⊢
            simpa using he2
          · simp only [he3]
            exact hc3 p hpq
        | threw err =>
          exact ⟨[c], hc1, by simp [memberCallsFor, List.filter_cons, hcp], hc3 p hpq⟩
        | checkFailed =>
          exact ⟨[c], hc1, by simp [memberCallsFor, List.filter_cons, hcp], hc3 p hpq⟩
        | outOfBounds i n =>
          exact ⟨[c], hc1, by simp [memberCallsFor, List.filter_cons, hcp], hc3 p hpq⟩

/-- C4: whatever the driver answers, for a subport `p` that appears in only one of the
two snapshots `program` issues no member add or delete call naming `p` (gports being
distinct per port) and leaves `p` granted exactly when it was granted before. -/
theorem program_ignores_subport_in_one_snapshot (hw : BcmSwitchIf) (sdk : BcmSdk σ)
    (oldAggPort newAggPort : AggregatePort) (m : Machine σ)
    (hinj : Function.Injective hw.getBcmGport) (p : PortID)
    (honly : (p ∈ newAggPort.subportAndFwdState.map Prod.fst ∧
        p ∉ oldAggPort.subportAndFwdState.map Prod.fst) ∨
      (p ∈ oldAggPort.subportAndFwdState.map Prod.fst ∧
        p ∉ newAggPort.subportAndFwdState.map Prod.fst)) :
    memberCallsFor (hw.getBcmGport p)
        (issuedSince m.calls (program hw sdk oldAggPort newAggPort m).machine.calls) = [] ∧
    (p ∈ (program hw sdk oldAggPort newAggPort m).machine.granted ↔ p ∈ m.granted) := by
  have hcond : p ∈ newAggPort.subportAndFwdState.map Prod.fst →
      fwdStateOf oldAggPort.subportAndFwdState p = none := by
    intro hin
    rcases honly with h | h
    · exact fwdStateOf_eq_none h.2
    · exact absurd hin h.2
  obtain ⟨extra, h1, h2, h3⟩ := programForwardingState_frame hw sdk hinj
    oldAggPort.subportAndFwdState p newAggPort.subportAndFwdState m hcond
  rw [program_calls, program_granted, h1, issuedSince_append]
  exact ⟨h2, h3⟩

/-- Witness for C4: port 2 is only in the new snapshot (Enabled there); the simulated
driver is asked nothing about it and it stays not granted. -/
theorem program_ignores_subport_in_one_snapshot_witness :
    Function.Injective demoHw.getBcmGport ∧
    (((2 : PortID) ∈ (AggregatePort.mk 7 "po1"
          [(1, Forwarding.DISABLED), (2, Forwarding.ENABLED)]).subportAndFwdState.map Prod.fst ∧
        (2 : PortID) ∉ (AggregatePort.mk 7 "po1"
          [(1, Forwarding.ENABLED)]).subportAndFwdState.map Prod.fst) ∨
      ((2 : PortID) ∈ (AggregatePort.mk 7 "po1"
          [(1, Forwarding.ENABLED)]).subportAndFwdState.map Prod.fst ∧
        (2 : PortID) ∉ (AggregatePort.mk 7 "po1"
          [(1, Forwarding.DISABLED), (2, Forwarding.ENABLED)]).subportAndFwdState.map Prod.fst)) ∧
    (memberCallsFor (demoHw.getBcmGport 2)
        (issuedSince (Machine.start SimSdk.empty ⟨[]⟩).calls
          (program demoHw simSdk ⟨7, "po1", [(1, Forwarding.ENABLED)]⟩
            ⟨7, "po1", [(1, Forwarding.DISABLED), (2, Forwarding.ENABLED)]⟩
            (Machine.start SimSdk.empty ⟨[]⟩)).machine.calls) = [] ∧
      ((2 : PortID) ∈ (program demoHw simSdk ⟨7, "po1", [(1, Forwarding.ENABLED)]⟩
            ⟨7, "po1", [(1, Forwarding.DISABLED), (2, Forwarding.ENABLED)]⟩
            (Machine.start SimSdk.empty ⟨[]⟩)).machine.granted ↔
        (2 : PortID) ∈ (Machine.start SimSdk.empty ⟨[]⟩).granted)) :=
  ⟨demoHw_injective, Or.inl (by decide),
    program_ignores_subport_in_one_snapshot demoHw simSdk ⟨7, "po1", [(1, Forwarding.ENABLED)]⟩
      ⟨7, "po1", [(1, Forwarding.DISABLED), (2, Forwarding.ENABLED)]⟩
      (Machine.start SimSdk.empty ⟨[]⟩) demoHw_injective 2 (Or.inl (by decide))⟩

/-! ## The emergency shrink path -/

theorem shrinkTrunkGroupHwNotLocked_gport_failure (sdk : BcmSdk σ) (trunk : bcm_trunk_t)
    (toDisable : bcm_port_t) (m : Machine σ)
    (h : BCM_FAILURE (sdk.bcm_port_gport_get m.sdk toDisable).1 = true) :
    shrinkTrunkGroupHwNotLocked sdk trunk toDisable m =
      ⟨.threw ⟨(sdk.bcm_port_gport_get m.sdk toDisable).1⟩,
        m.record (sdk.bcm_port_gport_get m.sdk toDisable).2.2 (SdkCall.port_gport_get toDisable)⟩ := by
  simp [shrinkTrunkGroupHwNotLocked, bcmCheckError_of_failure h]

theorem shrinkTrunkGroupHwNotLocked_gport_ok (sdk : BcmSdk σ) (trunk : bcm_trunk_t)
    (toDisable : bcm_port_t) (m : Machine σ)
    (h : BCM_FAILURE (sdk.bcm_port_gport_get m.sdk toDisable).1 = false) :
    (shrinkTrunkGroupHwNotLocked sdk trunk toDisable m).completion =
      (if (sdk.bcm_trunk_member_delete (sdk.bcm_port_gport_get m.sdk toDisable).2.2 trunk
            ⟨(sdk.bcm_port_gport_get m.sdk toDisable).2.1⟩).1 = BCM_E_NOT_FOUND then .returned ()
       else if BCM_FAILURE (sdk.bcm_trunk_member_delete
            (sdk.bcm_port_gport_get m.sdk toDisable).2.2 trunk
            ⟨(sdk.bcm_port_gport_get m.sdk toDisable).2.1⟩).1 = true then
         .threw ⟨(sdk.bcm_trunk_member_delete (sdk.bcm_port_gport_get m.sdk toDisable).2.2 trunk
            ⟨(sdk.bcm_port_gport_get m.sdk toDisable).2.1⟩).1⟩
       else .returned ()) ∧
    (shrinkTrunkGroupHwNotLocked sdk trunk toDisable m).machine.calls =
      m.calls ++ [SdkCall.port_gport_get toDisable,
        SdkCall.trunk_member_delete trunk ⟨(sdk.bcm_port_gport_get m.sdk toDisable).2.1⟩] ∧
    (shrinkTrunkGroupHwNotLocked sdk trunk toDisable m).machine.sdk =
      (sdk.bcm_trunk_member_delete (sdk.bcm_port_gport_get m.sdk toDisable).2.2 trunk
        ⟨(sdk.bcm_port_gport_get m.sdk toDisable).2.1⟩).2 ∧
    (shrinkTrunkGroupHwNotLocked sdk trunk toDisable m).machine.trunk = m.trunk := by
  simp only [shrinkTrunkGroupHwNotLocked, bcmCheckError_of_ok h]
  by_cases hnf : (sdk.bcm_trunk_member_delete (sdk.bcm_port_gport_get m.sdk toDisable).2.2 trunk
      ⟨(sdk.bcm_port_gport_get m.sdk toDisable).2.1⟩).1 = BCM_E_NOT_FOUND
  · simp [hnf, Machine.record, bcm_trunk_member_t_init]
  · cases hf : BCM_FAILURE (sdk.bcm_trunk_member_delete
        (sdk.bcm_port_gport_get m.sdk toDisable).2.2 trunk
        ⟨(sdk.bcm_port_gport_get m.sdk toDisable).2.1⟩).1
    · simp [hnf, hf, bcmCheckError, Machine.record, Machine.log, bcm_trunk_member_t_init]
    · simp [hnf, hf, bcmCheckError, Machine.record, bcm_trunk_member_t_init]

/-- C5: `shrinkTrunkGroupHwNotLocked` throws when the port-to-gport lookup fails, and then
issues no member delete; when the lookup succeeds it issues exactly one
`bcm_trunk_member_delete` and returns normally if that returns success or
`BCM_E_NOT_FOUND`, and throws for every other failure code. -/
theorem shrinkTrunkGroupHwNotLocked_completion (sdk : BcmSdk σ) (trunk : bcm_trunk_t)
    (toDisable : bcm_port_t) (m : Machine σ) :
    (shrinkTrunkGroupHwNotLocked sdk trunk toDisable m).completion =
      (if BCM_FAILURE (sdk.bcm_port_gport_get m.sdk toDisable).1 = true then
         .threw ⟨(sdk.bcm_port_gport_get m.sdk toDisable).1⟩
       else if (sdk.bcm_trunk_member_delete (sdk.bcm_port_gport_get m.sdk toDisable).2.2 trunk
            ⟨(sdk.bcm_port_gport_get m.sdk toDisable).2.1⟩).1 = BCM_E_NOT_FOUND then .returned ()
       else if BCM_FAILURE (sdk.bcm_trunk_member_delete
            (sdk.bcm_port_gport_get m.sdk toDisable).2.2 trunk
            ⟨(sdk.bcm_port_gport_get m.sdk toDisable).2.1⟩).1 = true then
         .threw ⟨(sdk.bcm_trunk_member_delete (sdk.bcm_port_gport_get m.sdk toDisable).2.2 trunk
            ⟨(sdk.bcm_port_gport_get m.sdk toDisable).2.1⟩).1⟩
       else .returned ()) ∧
    issuedSince m.calls (shrinkTrunkGroupHwNotLocked sdk trunk toDisable m).machine.calls =
      (if BCM_FAILURE (sdk.bcm_port_gport_get m.sdk toDisable).1 = true then
         [SdkCall.port_gport_get toDisable]
       else [SdkCall.port_gport_get toDisable,
         SdkCall.trunk_member_delete trunk ⟨(sdk.bcm_port_gport_get m.sdk toDisable).2.1⟩]) := by
  cases h : BCM_FAILURE (sdk.bcm_port_gport_get m.sdk toDisable).1
  · obtain ⟨h1, h2, -, -⟩ := shrinkTrunkGroupHwNotLocked_gport_ok sdk trunk toDisable m h
    rw [h1, h2, issuedSince_append]
    simp
  · rw [shrinkTrunkGroupHwNotLocked_gport_failure sdk trunk toDisable m h]
    simp [issuedSince, Machine.record]

/-! ## Emergency shrink and control-plane remove of the same member -/

theorem simSdk_tracksMembers : TracksMembers simSdk SimSdk.members := by
  refine ⟨?_, ?_, ?_⟩
  · intro s t mem h
    simp [simSdk, h]
  · intro s t mem h
    simp [simSdk, h, SimSdk.setMembers, BCM_FAILURE, BCM_E_NONE]
  · intro s port
    simp only [simSdk]
    split <;> rfl

theorem modifyMemberPort_delete_spec (hw : BcmSwitchIf) (sdk : BcmSdk σ) (p : PortID)
    (m : Machine σ) :
    (modifyMemberPort hw sdk false p m).completion =
      (if (sdk.bcm_trunk_member_delete m.sdk m.trunk.bcmTrunkID_ ⟨hw.getBcmGport p⟩).1 =
          BCM_E_NOT_FOUND then .returned ()
       else if BCM_FAILURE (sdk.bcm_trunk_member_delete m.sdk m.trunk.bcmTrunkID_
          ⟨hw.getBcmGport p⟩).1 = true then
         .threw ⟨(sdk.bcm_trunk_member_delete m.sdk m.trunk.bcmTrunkID_ ⟨hw.getBcmGport p⟩).1⟩
       else .returned ()) ∧
    (modifyMemberPort hw sdk false p m).machine.sdk =
      (sdk.bcm_trunk_member_delete m.sdk m.trunk.bcmTrunkID_ ⟨hw.getBcmGport p⟩).2 ∧
    (modifyMemberPort hw sdk false p m).machine.trunk.bcmTrunkID_ = m.trunk.bcmTrunkID_ := by
  by_cases hnf : (sdk.bcm_trunk_member_delete m.sdk m.trunk.bcmTrunkID_
      ⟨hw.getBcmGport p⟩).1 = BCM_E_NOT_FOUND
  · simp [modifyMemberPort, hnf, Machine.record, Machine.log]
  · cases hf : BCM_FAILURE (sdk.bcm_trunk_member_delete m.sdk m.trunk.bcmTrunkID_
      ⟨hw.getBcmGport p⟩).1
    · simp [modifyMemberPort, hnf, hf, bcmCheckError, Machine.record, Machine.log,
        Machine.revokeMembership]
    · simp [modifyMemberPort, hnf, hf, bcmCheckError, Machine.record]

theorem not_mem_filter_ne (l : List bcm_gport_t) (g : bcm_gport_t) :
    g ∉ l.filter (fun x => decide (x ≠ g)) := by
  simp [List.mem_filter]

/-- C6: over a driver that keeps member lists and answers `BCM_E_NOT_FOUND` when asked to
delete an absent member, for a member `p` present in the trunk: the emergency shrink
followed by the control-plane remove of `p`, and the control-plane remove followed by
the emergency shrink, both return normally at each step and both leave the hardware
lists as they were except that `p` is gone from the trunk. -/
theorem shrink_and_remove_in_either_order (hw : BcmSwitchIf) (sdk : BcmSdk σ)
    (live : σ → bcm_trunk_t → List bcm_gport_t) (m : Machine σ) (p : PortID)
    (toDisable : bcm_port_t)
    (hdrv : TracksMembers sdk live)
    (hport : ∀ s, BCM_FAILURE (sdk.bcm_port_gport_get s toDisable).1 = false ∧
      (sdk.bcm_port_gport_get s toDisable).2.1 = hw.getBcmGport p)
    (hpresent : hw.getBcmGport p ∈ live m.sdk m.trunk.bcmTrunkID_) :
    ((shrinkTrunkGroupHwNotLocked sdk m.trunk.bcmTrunkID_ toDisable m).completion = .returned () ∧
      (modifyMemberPort hw sdk false p
        (shrinkTrunkGroupHwNotLocked sdk m.trunk.bcmTrunkID_ toDisable m).machine).completion =
        .returned () ∧
      live (modifyMemberPort hw sdk false p
        (shrinkTrunkGroupHwNotLocked sdk m.trunk.bcmTrunkID_ toDisable m).machine).machine.sdk =
        fun t => if t = m.trunk.bcmTrunkID_ then
          (live m.sdk m.trunk.bcmTrunkID_).filter (fun g => decide (g ≠ hw.getBcmGport p))
          else live m.sdk t) ∧
    ((modifyMemberPort hw sdk false p m).completion = .returned () ∧
      (shrinkTrunkGroupHwNotLocked sdk m.trunk.bcmTrunkID_ toDisable
        (modifyMemberPort hw sdk false p m).machine).completion = .returned () ∧
      live (shrinkTrunkGroupHwNotLocked sdk m.trunk.bcmTrunkID_ toDisable
        (modifyMemberPort hw sdk false p m).machine).machine.sdk =
        fun t => if t = m.trunk.bcmTrunkID_ then
          (live m.sdk m.trunk.bcmTrunkID_).filter (fun g => decide (g ≠ hw.getBcmGport p))
          else live m.sdk t) ∧
    hw.getBcmGport p ∉
      (live m.sdk m.trunk.bcmTrunkID_).filter (fun g => decide (g ≠ hw.getBcmGport p)) := by
  obtain ⟨habsent, hpres, hlookup⟩ := hdrv
  refine ⟨?_, ?_, not_mem_filter_ne _ _⟩
  · -- the emergency shrink runs first
    obtain ⟨hgok, hg⟩ := hport m.sdk
    obtain ⟨hs1, -, hs3, hs4⟩ :=
      shrinkTrunkGroupHwNotLocked_gport_ok sdk m.trunk.bcmTrunkID_ toDisable m hgok
    rw [hg] at hs1 hs3
    have hin : (bcm_trunk_member_t.mk (hw.getBcmGport p)).gport ∈
        live (sdk.bcm_port_gport_get m.sdk toDisable).2.2 m.trunk.bcmTrunkID_ := by
      rw [hlookup]; exact hpresent
    obtain ⟨hdok, hdlive⟩ := hpres _ _ _ hin
    rw [hlookup] at hdlive
    have hc1 : (shrinkTrunkGroupHwNotLocked sdk m.trunk.bcmTrunkID_ toDisable m).completion =
        .returned () := by
      rw [hs1, if_neg (ne_not_found_of_ok hdok), hdok]
      simp
    obtain ⟨hm1, hm2, -⟩ := modifyMemberPort_delete_spec hw sdk p
      (shrinkTrunkGroupHwNotLocked sdk m.trunk.bcmTrunkID_ toDisable m).machine
    rw [hs3, hs4] at hm1 hm2
    have hout : (bcm_trunk_member_t.mk (hw.getBcmGport p)).gport ∉
        live (sdk.bcm_trunk_member_delete (sdk.bcm_port_gport_get m.sdk toDisable).2.2
          m.trunk.bcmTrunkID_ ⟨hw.getBcmGport p⟩).2 m.trunk.bcmTrunkID_ := by
      rw [hdlive]
      simp
    obtain ⟨hnf, hnlive⟩ := habsent _ _ _ hout
    refine ⟨hc1, ?_, ?_⟩
    · rw [hm1, if_pos hnf]
    · rw [hm2, hnlive, hdlive]
  · -- the control-plane remove runs first
    obtain ⟨hm1, hm2, hm3⟩ := modifyMemberPort_delete_spec hw sdk p m
    have hin : (bcm_trunk_member_t.mk (hw.getBcmGport p)).gport ∈
        live m.sdk m.trunk.bcmTrunkID_ := hpresent
    obtain ⟨hdok, hdlive⟩ := hpres _ _ _ hin
    have hc1 : (modifyMemberPort hw sdk false p m).completion = .returned () := by
      rw [hm1, if_neg (ne_not_found_of_ok hdok), hdok]
      simp
    obtain ⟨hgok, hg⟩ := hport (modifyMemberPort hw sdk false p m).machine.sdk
    obtain ⟨hs1, -, hs3, -⟩ := shrinkTrunkGroupHwNotLocked_gport_ok sdk m.trunk.bcmTrunkID_
      toDisable (modifyMemberPort hw sdk false p m).machine hgok
    rw [hg] at hs1 hs3
    have hout : (bcm_trunk_member_t.mk (hw.getBcmGport p)).gport ∉
        live (sdk.bcm_port_gport_get (modifyMemberPort hw sdk false p m).machine.sdk
          toDisable).2.2 m.trunk.bcmTrunkID_ := by
      rw [hlookup, hm2, hdlive]
      simp
    obtain ⟨hnf, hnlive⟩ := habsent _ _ _ hout
    refine ⟨hc1, ?_, ?_⟩
    · rw [hs1, if_pos hnf]
    · rw [hs3, hnlive, hlookup, hm2, hdlive]

theorem simSdk_gport_get (s : SimSdk) :
    BCM_FAILURE (simSdk.bcm_port_gport_get s 1).1 = false ∧
      (simSdk.bcm_port_gport_get s 1).2.1 = demoHw.getBcmGport 1 := by
  simp [simSdk, demoHw, BCM_FAILURE, BCM_E_NONE]

/-- Witness for C6: trunk 5 holds gports 1001 and 1002; port 1 (gport 1001) is removed by
both paths; afterwards trunk 5 holds 1002 only. -/
theorem shrink_and_remove_in_either_order_witness :
    TracksMembers simSdk SimSdk.members ∧
    (∀ s, BCM_FAILURE (simSdk.bcm_port_gport_get s 1).1 = false ∧
      (simSdk.bcm_port_gport_get s 1).2.1 = demoHw.getBcmGport 1) ∧
    demoHw.getBcmGport 1 ∈ SimSdk.members (Machine.onTrunk5 [1001, 1002] {1, 2}).sdk
      (Machine.onTrunk5 [1001, 1002] {1, 2}).trunk.bcmTrunkID_ ∧
    (modifyMemberPort demoHw simSdk false 1
        (shrinkTrunkGroupHwNotLocked simSdk (Machine.onTrunk5 [1001, 1002] {1, 2}).trunk.bcmTrunkID_
          1 (Machine.onTrunk5 [1001, 1002] {1, 2})).machine).completion = .returned () ∧
    (shrinkTrunkGroupHwNotLocked simSdk (Machine.onTrunk5 [1001, 1002] {1, 2}).trunk.bcmTrunkID_ 1
        (modifyMemberPort demoHw simSdk false 1
          (Machine.onTrunk5 [1001, 1002] {1, 2})).machine).completion = .returned () :=
  ⟨simSdk_tracksMembers, simSdk_gport_get, by decide,
    (shrink_and_remove_in_either_order demoHw simSdk SimSdk.members
      (Machine.onTrunk5 [1001, 1002] {1, 2}) 1 1 simSdk_tracksMembers simSdk_gport_get
      (by decide)).1.2.1,
    (shrink_and_remove_in_either_order demoHw simSdk SimSdk.members
      (Machine.onTrunk5 [1001, 1002] {1, 2}) 1 1 simSdk_tracksMembers simSdk_gport_get
      (by decide)).2.1.2.1⟩

/-! ## Frame facts for the loops of `init` -/

theorem initWarmBootLoop_frame (hw : BcmSwitchIf) (members : List bcm_trunk_member_t) :
    ∀ (subs : List (PortID × Forwarding)) (m : Machine σ),
      (initWarmBootLoop hw members subs m).sdk = m.sdk ∧
      (initWarmBootLoop hw members subs m).calls = m.calls ∧
      (initWarmBootLoop hw members subs m).warmBootCache = m.warmBootCache ∧
      (initWarmBootLoop hw members subs m).trunk.bcmTrunkID_ = m.trunk.bcmTrunkID_ := by
  intro subs
  induction subs with
  | nil => intro m; simp [initWarmBootLoop]
  | cons e rest ih =>
    intro m
    obtain ⟨q, s⟩ := e
    simp only [initWarmBootLoop]
    split
    · exact ih m
    · split
      · simpa [Machine.log] using ih (m.log (XLog.foundDisabledMemberPort q))
      · simpa [Machine.grantMembership] using ih (m.grantMembership q)

theorem initWarmBootLoop_granted (hw : BcmSwitchIf) (members : List bcm_trunk_member_t)
    (p : PortID) :
    ∀ (subs : List (PortID × Forwarding)) (m : Machine σ),
      (p ∈ (initWarmBootLoop hw members subs m).granted ↔
        p ∈ m.granted ∨ ((p, Forwarding.ENABLED) ∈ subs ∧
          ⟨hw.getBcmGport p⟩ ∈ members)) := by
  intro subs
  induction subs with
  | nil => intro m; simp [initWarmBootLoop]
  | cons e rest ih =>
    intro m
    obtain ⟨q, s⟩ := e
    simp only [initWarmBootLoop]
    split
    · rename_i hs
      rw [ih m]
      simp [hs]
    · rename_i hs
      have hs' : s = Forwarding.ENABLED := by cases s <;> simp_all
      subst hs'
      split
      · rename_i hnone
        rw [ih]
        simp only [List.all_eq_true, Bool.not_eq_true', decide_eq_false_iff_not] at hnone
        have hq : (bcm_trunk_member_t.mk (hw.getBcmGport q)) ∉ members := fun h => hnone _ h rfl
        simp only [Machine.log, Machine.granted, List.mem_cons, Prod.mk.injEq, and_true]
        constructor
        · rintro (h | h)
          · exact Or.inl h
          · exact Or.inr ⟨Or.inr h.1, h.2⟩
        · rintro (h | ⟨h | h, hm⟩)
          · exact Or.inl h
          · subst h; exact absurd hm hq
          · exact Or.inr ⟨h, hm⟩
      · rename_i hsome
        rw [ih]
        simp only [List.all_eq_true, Bool.not_eq_true', decide_eq_false_iff_not, not_forall,
          not_not] at hsome
        obtain ⟨mem, hmem, hg⟩ := hsome
        have hq : (bcm_trunk_member_t.mk (hw.getBcmGport q)) ∈ members := by
          cases mem
          simp only at hg
          subst hg
          exact hmem
        simp only [Machine.grantMembership, Machine.granted, BcmTrunkStats.grantMembership,
          Finset.mem_insert, List.mem_cons, Prod.mk.injEq, and_true]
        constructor
        · rintro ((h | h) | h)
          · subst h; exact Or.inr ⟨Or.inl rfl, hq⟩
          · exact Or.inl h
          · exact Or.inr ⟨Or.inr h.1, h.2⟩
        · rintro (h | ⟨h | h, hm⟩)
          · exact Or.inl (Or.inr h)
          · exact Or.inl (Or.inl h)
          · exact Or.inr ⟨h, hm⟩

theorem initFreshLoop_frame (hw : BcmSwitchIf) :
    ∀ (subs : List (PortID × Forwarding)) (index : Nat) (members : List bcm_trunk_member_t)
      (m : Machine σ),
      (initFreshLoop hw index subs members m).machine.sdk = m.sdk ∧
      (initFreshLoop hw index subs members m).machine.calls = m.calls ∧
      (initFreshLoop hw index subs members m).machine.warmBootCache = m.warmBootCache ∧
      (initFreshLoop hw index subs members m).machine.trunk.bcmTrunkID_ = m.trunk.bcmTrunkID_ := by
  intro subs
  induction subs with
  | nil => intro index members m; simp [initFreshLoop]
  | cons e rest ih =>
    intro index members m
    obtain ⟨q, s⟩ := e
    simp only [initFreshLoop]
    split
    · exact ih _ _ m
    · split
      · simpa [Machine.grantMembership] using ih (index + 1)
          (members.set index { bcm_trunk_member_t_init with gport := hw.getBcmGport q })
          (m.grantMembership q)
      · simp

theorem suppressEgressLoop_calls (hw : BcmSwitchIf) (sdk : BcmSdk σ) (i : PortID) :
    ∀ (egress : List PortID) (m : Machine σ),
      (suppressEgressLoop hw sdk i (hw.getBcmPortId i) egress m).calls =
        m.calls ++ (egress.filter (fun e => decide (i ≠ e))).map (fun e =>
          SdkCall.port_flood_block_set (hw.getBcmPortId i) (hw.getBcmPortId e) trafficToBlock) := by
  intro egress
  induction egress with
  | nil => intro m; simp [suppressEgressLoop]
  | cons e rest ih =>
    intro m
    by_cases h : i = e
    · rw [suppressEgressLoop, if_pos h, ih]
      simp [List.filter_cons, h]
    · rw [suppressEgressLoop, if_neg h]
      simp only []
      rw [ih]
      simp [List.filter_cons, h, Machine.record]

theorem suppressIngressLoop_calls (hw : BcmSwitchIf) (sdk : BcmSdk σ) (all : List PortID) :
    ∀ (ingress : List PortID) (m : Machine σ),
      (suppressIngressLoop hw sdk all ingress m).calls = m.calls ++ floodCalls hw all ingress := by
  intro ingress
  induction ingress with
  | nil => intro m; simp [suppressIngressLoop, floodCalls]
  | cons i rest ih =>
    intro m
    rw [suppressIngressLoop, ih, suppressEgressLoop_calls]
    simp [floodCalls, List.flatMap_cons]

theorem suppressTrunkInternalFlood_calls (hw : BcmSwitchIf) (sdk : BcmSdk σ)
    (aggPort : AggregatePort) (m : Machine σ) :
    (suppressTrunkInternalFlood hw sdk aggPort m).calls =
      m.calls ++ floodCalls hw aggPort.sortedSubports aggPort.sortedSubports :=
  suppressIngressLoop_calls hw sdk _ _ m

/-! ## `init`: the two branches -/

theorem init_warm (hw : BcmSwitchIf) (sdk : BcmSdk σ) (aggPort : AggregatePort) (m : Machine σ)
    (foundTrunk : AggregatePortID × bcm_trunk_t)
    (hfind : m.warmBootCache.trunks.find? (fun trunk => decide (aggPort.getID = trunk.1)) =
      some foundTrunk) :
    (init hw sdk aggPort m).completion =
      (if BCM_FAILURE (sdk.bcm_trunk_get m.sdk foundTrunk.2 aggPort.forwardingSubportCount).1 = true
        then .threw ⟨(sdk.bcm_trunk_get m.sdk foundTrunk.2 aggPort.forwardingSubportCount).1⟩
        else .returned ()) ∧
    (init hw sdk aggPort m).machine.calls =
      m.calls ++ [SdkCall.trunk_get foundTrunk.2 aggPort.forwardingSubportCount] ∧
    (init hw sdk aggPort m).machine.trunk.bcmTrunkID_ = foundTrunk.2 ∧
    (init hw sdk aggPort m).machine.sdk =
      (sdk.bcm_trunk_get m.sdk foundTrunk.2 aggPort.forwardingSubportCount).2.2.2 ∧
    (BCM_FAILURE (sdk.bcm_trunk_get m.sdk foundTrunk.2 aggPort.forwardingSubportCount).1 = false →
      ∀ p, (p ∈ (init hw sdk aggPort m).machine.granted ↔
        p ∈ m.granted ∨ ((p, Forwarding.ENABLED) ∈ aggPort.subportAndFwdState ∧
          ⟨hw.getBcmGport p⟩ ∈ receiveMembers aggPort.forwardingSubportCount
            (sdk.bcm_trunk_get m.sdk foundTrunk.2 aggPort.forwardingSubportCount).2.1))) := by
  cases hf : BCM_FAILURE (sdk.bcm_trunk_get m.sdk foundTrunk.2 aggPort.forwardingSubportCount).1
  · simp only [init, hfind, bcmCheckError_of_ok hf]
    refine ⟨by simp, ?_, ?_, ?_, ?_⟩
    · simp [Machine.statsSetup, (initWarmBootLoop_frame hw _ _ _).2.1, Machine.log, Machine.record]
    · simp [Machine.statsSetup, (initWarmBootLoop_frame hw _ _ _).2.2.2, Machine.log,
        Machine.record]
    · simp [Machine.statsSetup, (initWarmBootLoop_frame hw _ _ _).1, Machine.log, Machine.record]
    · intro _ p
      have := initWarmBootLoop_granted hw (receiveMembers aggPort.forwardingSubportCount
        (sdk.bcm_trunk_get m.sdk foundTrunk.2 aggPort.forwardingSubportCount).2.1) p
        aggPort.subportAndFwdState (({ m with trunk := { m.trunk with bcmTrunkID_ := foundTrunk.2 } } :
          Machine σ).record
            (sdk.bcm_trunk_get m.sdk foundTrunk.2 aggPort.forwardingSubportCount).2.2.2
            (SdkCall.trunk_get foundTrunk.2 aggPort.forwardingSubportCount) |>.log
              (XLog.foundMembersInHw
                (sdk.bcm_trunk_get m.sdk foundTrunk.2 aggPort.forwardingSubportCount).2.2.1
                aggPort.getID))
      simpa [Machine.statsSetup, Machine.granted, BcmTrunkStats.setup, Machine.log,
        Machine.record] using this
  · simp [init, hfind, bcmCheckError_of_failure hf, Machine.record]

theorem floodCalls_isFreshTail (hw : BcmSwitchIf) (tid : bcm_trunk_t) (all ingress : List PortID) :
    ∀ c ∈ floodCalls hw all ingress, c.isFreshTail tid = true := by
  intro c hc
  simp only [floodCalls, List.mem_flatMap, List.mem_map] at hc
  obtain ⟨i, -, e, -, rfl⟩ := hc
  rfl

theorem init_fresh (hw : BcmSwitchIf) (sdk : BcmSdk σ) (aggPort : AggregatePort) (m : Machine σ)
    (hfind : m.warmBootCache.trunks.find? (fun trunk => decide (aggPort.getID = trunk.1)) = none) :
    (init hw sdk aggPort m).machine.trunk.bcmTrunkID_ = (sdk.bcm_trunk_create m.sdk 0).2.1 ∧
    ∃ extra : List SdkCall,
      (init hw sdk aggPort m).machine.calls = m.calls ++ SdkCall.trunk_create 0 :: extra ∧
      ∀ c ∈ extra, c.isFreshTail (sdk.bcm_trunk_create m.sdk 0).2.1 = true := by
  simp only [init, hfind]
  cases hc : bcmCheckError (sdk.bcm_trunk_create m.sdk 0).1 with
  | some e => exact ⟨by simp, [], by simp [Machine.record], by simp⟩
  | none =>
    simp only []
    obtain ⟨-, hcalls, -, htid⟩ := initFreshLoop_frame hw aggPort.subportAndFwdState 0
      (List.replicate aggPort.forwardingSubportCount bcm_trunk_member_t_init)
      (({ (m.record (sdk.bcm_trunk_create m.sdk 0).2.2 (SdkCall.trunk_create 0)) with
          trunk := { m.trunk with bcmTrunkID_ := (sdk.bcm_trunk_create m.sdk 0).2.1 } } :
        Machine σ).log (XLog.createdTrunk (sdk.bcm_trunk_create m.sdk 0).2.1 aggPort.getID))
    generalize initFreshLoop hw 0 aggPort.subportAndFwdState
      (List.replicate aggPort.forwardingSubportCount bcm_trunk_member_t_init)
      (({ (m.record (sdk.bcm_trunk_create m.sdk 0).2.2 (SdkCall.trunk_create 0)) with
          trunk := { m.trunk with bcmTrunkID_ := (sdk.bcm_trunk_create m.sdk 0).2.1 } } :
        Machine σ).log (XLog.createdTrunk (sdk.bcm_trunk_create m.sdk 0).2.1 aggPort.getID)) = out
      at hcalls htid
    obtain ⟨comp, m2⟩ := out
    simp only [Machine.log, Machine.record] at hcalls htid
    cases comp with
    | returned members =>
      simp only []
      cases hs : bcmCheckError (sdk.bcm_trunk_set m2.sdk (sdk.bcm_trunk_create m.sdk 0).2.1
          freshTrunkInfo members).1 with
      | some e =>
        refine ⟨by simpa [Machine.record] using htid,
          [SdkCall.trunk_set (sdk.bcm_trunk_create m.sdk 0).2.1 freshTrunkInfo members], ?_, ?_⟩
        · simp [Machine.record, hcalls]
        · simp [SdkCall.isFreshTail]
      | none =>
        refine ⟨?_, SdkCall.trunk_set (sdk.bcm_trunk_create m.sdk 0).2.1 freshTrunkInfo members ::
          floodCalls hw aggPort.sortedSubports aggPort.sortedSubports, ?_, ?_⟩
        · simpa [Machine.statsSetup, suppressTrunkInternalFlood_trunk, Machine.record] using htid
        · simp [Machine.statsSetup, suppressTrunkInternalFlood_calls, Machine.record, hcalls]
        · intro c hc
          rcases List.mem_cons.mp hc with h | h
          · subst h; simp [SdkCall.isFreshTail]
          · exact floodCalls_isFreshTail hw _ _ _ c h
    | threw e => exact ⟨htid, [], by simp [hcalls], by simp⟩
    | checkFailed => exact ⟨htid, [], by simp [hcalls], by simp⟩
    | outOfBounds i n => exact ⟨htid, [], by simp [hcalls], by simp⟩

/-- C7: `init` binds the `BcmTrunk` to exactly one hardware trunk. When the warm-boot cache
lookup finds a trunk keyed by the aggregate port's id, `bcmTrunkID_` becomes the cached
trunk id and the only SDK call issued is one `bcm_trunk_get` on it (no `bcm_trunk_create`,
no `bcm_trunk_set`). When the cache has no such key, exactly one `bcm_trunk_create` is
issued, `bcmTrunkID_` becomes the id it hands back, and every later call that names a
trunk names that one. -/
theorem init_one_trunk_per_aggregate_port (hw : BcmSwitchIf) (sdk : BcmSdk σ)
    (aggPort : AggregatePort) (m : Machine σ) :
    match m.warmBootCache.trunks.find? (fun trunk => decide (aggPort.getID = trunk.1)) with
    | some foundTrunk =>
      foundTrunk ∈ m.warmBootCache.trunks ∧ foundTrunk.1 = aggPort.getID ∧
      (init hw sdk aggPort m).machine.trunk.bcmTrunkID_ = foundTrunk.2 ∧
      issuedSince m.calls (init hw sdk aggPort m).machine.calls =
        [SdkCall.trunk_get foundTrunk.2 aggPort.forwardingSubportCount]
    | none =>
      aggPort.getID ∉ m.warmBootCache.trunks.map Prod.fst ∧
      (init hw sdk aggPort m).machine.trunk.bcmTrunkID_ = (sdk.bcm_trunk_create m.sdk 0).2.1 ∧
      (issuedSince m.calls (init hw sdk aggPort m).machine.calls).filter SdkCall.isTrunkCreate =
        [SdkCall.trunk_create 0] ∧
      ∀ c ∈ issuedSince m.calls (init hw sdk aggPort m).machine.calls,
        c.trunkOf = none ∨ c.trunkOf = some (sdk.bcm_trunk_create m.sdk 0).2.1 := by
  cases hfind : m.warmBootCache.trunks.find? (fun trunk => decide (aggPort.getID = trunk.1)) with
  | some foundTrunk =>
    obtain ⟨-, hcalls, htid, -, -⟩ := init_warm hw sdk aggPort m foundTrunk hfind
    refine ⟨List.mem_of_find?_eq_some hfind, ?_, htid, ?_⟩
    · have := List.find?_some hfind
      simp only [decide_eq_true_eq] at this
      exact this.symm
    · rw [hcalls, issuedSince_append]
  | none =>
    obtain ⟨htid, extra, hcalls, hextra⟩ := init_fresh hw sdk aggPort m hfind
    simp only []
    rw [hcalls, issuedSince_append]
    refine ⟨?_, htid, ?_, ?_⟩
    · rw [List.find?_eq_none] at hfind
      simp only [List.mem_map, not_exists, not_and]
      intro t ht hkey
      have := hfind t ht
      simp only [decide_eq_true_eq] at this
      exact this hkey.symm
    · have hnone : extra.filter SdkCall.isTrunkCreate = [] := by
        rw [List.filter_eq_nil_iff]
        intro c hc
        have := hextra c hc
        cases c <;> simp_all [SdkCall.isFreshTail, SdkCall.isTrunkCreate]
      simp [List.filter_cons, SdkCall.isTrunkCreate, hnone]
    · intro c hc
      rcases List.mem_cons.mp hc with h | h
      · subst h; exact Or.inl rfl
      · have := hextra c h
        cases c <;> simp_all [SdkCall.isFreshTail, SdkCall.trunkOf]

/-! ## `init`, fresh branch: the member array -/

/-- C8 (defect in the code): aggregate port 7 with subport 1 Disabled and subport 2
Enabled, no warm-boot match. The member array has `forwardingSubportCount() = 1` slot
but the Enabled subport sits at `it.index = 1`, so `init` indexes the array out of
bounds; up to that point only `bcm_trunk_create` was called, and no `bcm_trunk_set`
carrying the gport of subport 2 is issued. -/
theorem init_fresh_disabled_before_enabled :
    (AggregatePort.mk 7 "po1"
      [(1, Forwarding.DISABLED), (2, Forwarding.ENABLED)]).forwardingSubportCount = 1 ∧
    (init demoHw simSdk ⟨7, "po1", [(1, Forwarding.DISABLED), (2, Forwarding.ENABLED)]⟩
      (Machine.start SimSdk.empty ⟨[]⟩)).completion = .outOfBounds 1 1 ∧
    (init demoHw simSdk ⟨7, "po1", [(1, Forwarding.DISABLED), (2, Forwarding.ENABLED)]⟩
      (Machine.start SimSdk.empty ⟨[]⟩)).machine.calls = [SdkCall.trunk_create 0] := by
  decide

/-! ## `init`, warm-boot branch -/

/-- C9 (defect in the code): aggregate port 7 with subport 1 Enabled and subport 2
Disabled is adopted from trunk 5, whose live member list holds the gports of subport 2
and subport 1, in that order. The buffer handed to `bcm_trunk_get` has
`forwardingSubportCount() = 1` slot, so only gport 1002 is seen: subport 1 is Enabled and
its gport is in the live list, yet it is logged as a disabled member and not granted. -/
theorem init_warm_boot_truncates_live_members :
    demoHw.getBcmGport 1 ∈ (Machine.warmStart 5 [1002, 1001]).sdk.members 5 ∧
    (init demoHw simSdk ⟨7, "po1", [(1, Forwarding.ENABLED), (2, Forwarding.DISABLED)]⟩
      (Machine.warmStart 5 [1002, 1001])).completion = .returned () ∧
    (init demoHw simSdk ⟨7, "po1", [(1, Forwarding.ENABLED), (2, Forwarding.DISABLED)]⟩
      (Machine.warmStart 5 [1002, 1001])).machine.calls = [SdkCall.trunk_get 5 1] ∧
    (1 : PortID) ∉ (init demoHw simSdk
      ⟨7, "po1", [(1, Forwarding.ENABLED), (2, Forwarding.DISABLED)]⟩
      (Machine.warmStart 5 [1002, 1001])).machine.granted ∧
    (init demoHw simSdk ⟨7, "po1", [(1, Forwarding.ENABLED), (2, Forwarding.DISABLED)]⟩
      (Machine.warmStart 5 [1002, 1001])).machine.xlog =
      [XLog.foundMembersInHw 1 7, XLog.foundDisabledMemberPort 1] := by
  decide

/-- C10 (counterexample): trunk 5 matches aggregate port 7 and holds the gport of subport 1
only; the software intent has subports 1 and 2 Enabled. `init` adopts trunk 5 with one
`bcm_trunk_get` and returns, but it issues no `bcm_trunk_member_add` for subport 2 (so
not exactly one), and it logs subport 2 as a member not found in hardware. -/
theorem init_warm_boot_issues_no_member_add :
    (init demoHw simSdk ⟨7, "po1", [(1, Forwarding.ENABLED), (2, Forwarding.ENABLED)]⟩
      (Machine.warmStart 5 [1001])).completion = .returned () ∧
    (init demoHw simSdk ⟨7, "po1", [(1, Forwarding.ENABLED), (2, Forwarding.ENABLED)]⟩
      (Machine.warmStart 5 [1001])).machine.trunk.bcmTrunkID_ = 5 ∧
    ((init demoHw simSdk ⟨7, "po1", [(1, Forwarding.ENABLED), (2, Forwarding.ENABLED)]⟩
      (Machine.warmStart 5 [1001])).machine.calls.filter
        (SdkCall.isMemberAddFor (demoHw.getBcmGport 2))).length ≠ 1 ∧
    XLog.foundDisabledMemberPort 2 ∈
      (init demoHw simSdk ⟨7, "po1", [(1, Forwarding.ENABLED), (2, Forwarding.ENABLED)]⟩
        (Machine.warmStart 5 [1001])).machine.xlog := by
  decide

/-- C10 (as amended): when the warm-boot cache maps the aggregate port to trunk `tid`,
`bcm_trunk_get` succeeds and reports the gport of subport A only, and the software intent
is A Enabled, B Enabled (B with a non-zero gport other than that of A), `init` on a new
`BcmTrunk` returns normally, adopts `tid`, issues `bcm_trunk_get` and no other SDK call
(no create, no member add), grants membership to A only and logs B as a member not found
in hardware. -/
theorem init_warm_boot_adopts_and_logs_missing_member (hw : BcmSwitchIf) (sdk : BcmSdk σ)
    (A B : PortID) (id : AggregatePortID) (name : String) (tid : bcm_trunk_t) (m : Machine σ)
    (hfresh : m.trunk = BcmTrunk.new)
    (hcache : m.warmBootCache.trunks.find? (fun trunk => decide (id = trunk.1)) = some (id, tid))
    (hget : BCM_FAILURE (sdk.bcm_trunk_get m.sdk tid 2).1 = false)
    (hlive : (sdk.bcm_trunk_get m.sdk tid 2).2.1 = [⟨hw.getBcmGport A⟩])
    (hBA : hw.getBcmGport B ≠ hw.getBcmGport A) (hB0 : hw.getBcmGport B ≠ 0) :
    (init hw sdk ⟨id, name, [(A, Forwarding.ENABLED), (B, Forwarding.ENABLED)]⟩ m).completion =
      .returned () ∧
    (init hw sdk ⟨id, name, [(A, Forwarding.ENABLED), (B, Forwarding.ENABLED)]⟩
      m).machine.trunk.bcmTrunkID_ = tid ∧
    issuedSince m.calls
      (init hw sdk ⟨id, name, [(A, Forwarding.ENABLED), (B, Forwarding.ENABLED)]⟩ m).machine.calls =
      [SdkCall.trunk_get tid 2] ∧
    (init hw sdk ⟨id, name, [(A, Forwarding.ENABLED), (B, Forwarding.ENABLED)]⟩ m).machine.granted =
      {A} ∧
    (init hw sdk ⟨id, name, [(A, Forwarding.ENABLED), (B, Forwarding.ENABLED)]⟩ m).machine.xlog =
      m.xlog ++ [XLog.foundMembersInHw (sdk.bcm_trunk_get m.sdk tid 2).2.2.1 id,
        XLog.foundDisabledMemberPort B] := by
  have hcount : (AggregatePort.mk id name
      [(A, Forwarding.ENABLED), (B, Forwarding.ENABLED)]).forwardingSubportCount = 2 := by
    simp [AggregatePort.forwardingSubportCount]
  have hcache' : m.warmBootCache.trunks.find? (fun trunk => decide
      ((AggregatePort.mk id name [(A, Forwarding.ENABLED), (B, Forwarding.ENABLED)]).getID =
        trunk.1)) = some (id, tid) := hcache
  simp only [init, hcache', hcount, bcmCheckError_of_ok hget, hlive, receiveMembers,
    AggregatePort.subportAndFwdState, initWarmBootLoop]
  have hAB : ¬ hw.getBcmGport A = hw.getBcmGport B := fun h => hBA h.symm
  have h0B : ¬ (0 : bcm_gport_t) = hw.getBcmGport B := fun h => hB0 h.symm
  simp [hAB, h0B, bcm_trunk_member_t_init, Machine.statsSetup, Machine.log, Machine.record,
    Machine.grantMembership, Machine.granted, BcmTrunkStats.grantMembership, BcmTrunkStats.setup,
    hfresh, BcmTrunk.new, issuedSince, AggregatePort.getID]

theorem simSdk_get_ok (s : SimSdk) (tid : bcm_trunk_t) (n : Nat) :
    BCM_FAILURE (simSdk.bcm_trunk_get s tid n).1 = false := by
  simp [simSdk, BCM_FAILURE, BCM_E_NONE]

/-- Witness for C10 as amended: the scenario of the counterexample. -/
theorem init_warm_boot_adopts_and_logs_missing_member_witness :
    (Machine.warmStart 5 [1001]).trunk = BcmTrunk.new ∧
    (Machine.warmStart 5 [1001]).warmBootCache.trunks.find?
      (fun trunk => decide (7 = trunk.1)) = some (7, 5) ∧
    BCM_FAILURE (simSdk.bcm_trunk_get (Machine.warmStart 5 [1001]).sdk 5 2).1 = false ∧
    (simSdk.bcm_trunk_get (Machine.warmStart 5 [1001]).sdk 5 2).2.1 = [⟨demoHw.getBcmGport 1⟩] ∧
    demoHw.getBcmGport 2 ≠ demoHw.getBcmGport 1 ∧ demoHw.getBcmGport 2 ≠ 0 ∧
    issuedSince (Machine.warmStart 5 [1001]).calls
      (init demoHw simSdk ⟨7, "po1", [(1, Forwarding.ENABLED), (2, Forwarding.ENABLED)]⟩
        (Machine.warmStart 5 [1001])).machine.calls = [SdkCall.trunk_get 5 2] ∧
    (init demoHw simSdk ⟨7, "po1", [(1, Forwarding.ENABLED), (2, Forwarding.ENABLED)]⟩
      (Machine.warmStart 5 [1001])).machine.granted = {1} :=
  ⟨rfl, by decide, simSdk_get_ok _ _ _, by decide, by decide, by decide,
    (init_warm_boot_adopts_and_logs_missing_member demoHw simSdk 1 2 7 "po1" 5
      (Machine.warmStart 5 [1001]) rfl (by decide) (simSdk_get_ok _ _ _) (by decide)
      (by decide) (by decide)).2.2.1,
    (init_warm_boot_adopts_and_logs_missing_member demoHw simSdk 1 2 7 "po1" 5
      (Machine.warmStart 5 [1001]) rfl (by decide) (simSdk_get_ok _ _ _) (by decide)
      (by decide) (by decide)).2.2.2.1⟩

/-! ## `init`, warm-boot branch: an Enabled member missing from hardware -/

theorem mem_receiveMembers {n : Nat} {written : List bcm_trunk_member_t} {g : bcm_gport_t}
    (h : (⟨g⟩ : bcm_trunk_member_t) ∈ receiveMembers n written) :
    g ∈ written.map bcm_trunk_member_t.gport ∨ g = 0 := by
  simp only [receiveMembers, List.mem_append] at h
  rcases h with h | h
  · exact Or.inl (List.mem_map.mpr ⟨⟨g⟩, List.mem_of_mem_take h, rfl⟩)
  · have := List.eq_of_mem_replicate h
    simp only [bcm_trunk_member_t_init, bcm_trunk_member_t.mk.injEq] at this
    exact Or.inr this

theorem initWarmBootLoop_xlog_mono (hw : BcmSwitchIf) (members : List bcm_trunk_member_t)
    (x : XLog) :
    ∀ (subs : List (PortID × Forwarding)) (m : Machine σ),
      x ∈ m.xlog → x ∈ (initWarmBootLoop hw members subs m).xlog := by
  intro subs
  induction subs with
  | nil => intro m h; simpa [initWarmBootLoop] using h
  | cons e rest ih =>
    intro m h
    obtain ⟨q, s⟩ := e
    simp only [initWarmBootLoop]
    split
    · exact ih m h
    · split
      · exact ih _ (by simp [Machine.log, h])
      · exact ih _ (by simpa [Machine.grantMembership] using h)

theorem initWarmBootLoop_logs_missing (hw : BcmSwitchIf) (members : List bcm_trunk_member_t)
    (p : PortID) (hmiss : (⟨hw.getBcmGport p⟩ : bcm_trunk_member_t) ∉ members) :
    ∀ (subs : List (PortID × Forwarding)) (m : Machine σ),
      (p, Forwarding.ENABLED) ∈ subs →
      XLog.foundDisabledMemberPort p ∈ (initWarmBootLoop hw members subs m).xlog := by
  intro subs
  induction subs with
  | nil => intro m h; simp at h
  | cons e rest ih =>
    intro m h
    obtain ⟨q, s⟩ := e
    rcases List.mem_cons.mp h with h | h
    · cases h
      have hnone : (members.all (fun mem => !decide (mem.gport = hw.getBcmGport p))) = true := by
        simp only [List.all_eq_true, Bool.not_eq_true', decide_eq_false_iff_not]
        intro mem hmem hg
        apply hmiss
        cases mem
        simp only at hg
        subst hg
        exact hmem
      simp only [initWarmBootLoop, reduceCtorEq, if_false, hnone, if_true]
      exact initWarmBootLoop_xlog_mono hw members _ rest _ (by simp [Machine.log])
    · simp only [initWarmBootLoop]
      split
      · exact ih m h
      · split
        · exact ih _ h
        · exact ih _ h

theorem init_warm_adoption (hw : BcmSwitchIf) (sdk : BcmSdk σ) (aggPort : AggregatePort)
    (m : Machine σ) (foundTrunk : AggregatePortID × bcm_trunk_t)
    (hfind : m.warmBootCache.trunks.find? (fun trunk => decide (aggPort.getID = trunk.1)) =
      some foundTrunk)
    (hget : BCM_FAILURE (sdk.bcm_trunk_get m.sdk foundTrunk.2
      aggPort.forwardingSubportCount).1 = false) :
    (init hw sdk aggPort m).machine.trunk.trunkStats_.aggregatePortID = some aggPort.getID ∧
    (init hw sdk aggPort m).machine.trunk.trunkStats_.trunkName = aggPort.getName ∧
    (init hw sdk aggPort m).machine.warmBootCache = hw.programmed m.warmBootCache foundTrunk ∧
    (∀ p, (p, Forwarding.ENABLED) ∈ aggPort.subportAndFwdState →
      (⟨hw.getBcmGport p⟩ : bcm_trunk_member_t) ∉ receiveMembers aggPort.forwardingSubportCount
        (sdk.bcm_trunk_get m.sdk foundTrunk.2 aggPort.forwardingSubportCount).2.1 →
      XLog.foundDisabledMemberPort p ∈ (init hw sdk aggPort m).machine.xlog) := by
  simp only [init, hfind, bcmCheckError_of_ok hget]
  refine ⟨by simp [Machine.statsSetup, BcmTrunkStats.setup],
    by simp [Machine.statsSetup, BcmTrunkStats.setup], ?_, ?_⟩
  · simp [Machine.statsSetup, (initWarmBootLoop_frame hw _ _ _).2.2.1, Machine.log,
      Machine.record]
  · intro p hen hmiss
    simpa [Machine.statsSetup] using
      initWarmBootLoop_logs_missing hw _ p hmiss aggPort.subportAndFwdState _ hen

/-- C11: on the warm-boot branch, when `bcm_trunk_get` succeeds and a software-Enabled
subport `p` (with a non-zero gport) is not in the member list the driver reports, `init`
returns normally, leaves `p` granted exactly when it was before (not granted on a new
`BcmTrunk`), issues `bcm_trunk_get` and no other SDK call (no member add, delete or set),
logs `p` as a member not found, sets up the stats with the aggregate port's id and name
and hands the cache entry to `programmed`. -/
theorem init_warm_boot_enabled_member_missing (hw : BcmSwitchIf) (sdk : BcmSdk σ)
    (aggPort : AggregatePort) (m : Machine σ) (foundTrunk : AggregatePortID × bcm_trunk_t)
    (p : PortID)
    (hfind : m.warmBootCache.trunks.find? (fun trunk => decide (aggPort.getID = trunk.1)) =
      some foundTrunk)
    (hget : BCM_FAILURE (sdk.bcm_trunk_get m.sdk foundTrunk.2
      aggPort.forwardingSubportCount).1 = false)
    (hen : (p, Forwarding.ENABLED) ∈ aggPort.subportAndFwdState)
    (hmiss : hw.getBcmGport p ∉ (sdk.bcm_trunk_get m.sdk foundTrunk.2
      aggPort.forwardingSubportCount).2.1.map bcm_trunk_member_t.gport)
    (hnz : hw.getBcmGport p ≠ 0) :
    (init hw sdk aggPort m).completion = .returned () ∧
    (p ∈ (init hw sdk aggPort m).machine.granted ↔ p ∈ m.granted) ∧
    issuedSince m.calls (init hw sdk aggPort m).machine.calls =
      [SdkCall.trunk_get foundTrunk.2 aggPort.forwardingSubportCount] ∧
    XLog.foundDisabledMemberPort p ∈ (init hw sdk aggPort m).machine.xlog ∧
    (init hw sdk aggPort m).machine.trunk.trunkStats_.aggregatePortID = some aggPort.getID ∧
    (init hw sdk aggPort m).machine.trunk.trunkStats_.trunkName = aggPort.getName ∧
    (init hw sdk aggPort m).machine.warmBootCache = hw.programmed m.warmBootCache foundTrunk := by
  have hbuf : (⟨hw.getBcmGport p⟩ : bcm_trunk_member_t) ∉
      receiveMembers aggPort.forwardingSubportCount
        (sdk.bcm_trunk_get m.sdk foundTrunk.2 aggPort.forwardingSubportCount).2.1 := by
    intro h
    rcases mem_receiveMembers h with h | h
    · exact hmiss h
    · exact hnz h
  obtain ⟨hc, hcalls, -, -, hgr⟩ := init_warm hw sdk aggPort m foundTrunk hfind
  obtain ⟨hid, hname, hcache, hlog⟩ := init_warm_adoption hw sdk aggPort m foundTrunk hfind hget
  refine ⟨?_, ?_, ?_, hlog p hen hbuf, hid, hname, hcache⟩
  · rw [hc, hget]; simp
  · rw [hgr hget p]
    constructor
    · rintro (h | ⟨-, h⟩)
      · exact h
      · exact absurd h hbuf
    · exact Or.inl
  · rw [hcalls, issuedSince_append]

/-- Witness for C11: trunk 5 holds gport 1001 only; subports 1 and 2 are Enabled, and
subport 2 (gport 1002) is the one missing from hardware. -/
theorem init_warm_boot_enabled_member_missing_witness :
    (Machine.warmStart 5 [1001]).warmBootCache.trunks.find?
      (fun trunk => decide ((AggregatePort.mk 7 "po1"
        [(1, Forwarding.ENABLED), (2, Forwarding.ENABLED)]).getID = trunk.1)) = some (7, 5) ∧
    BCM_FAILURE (simSdk.bcm_trunk_get (Machine.warmStart 5 [1001]).sdk 5
      (AggregatePort.mk 7 "po1"
        [(1, Forwarding.ENABLED), (2, Forwarding.ENABLED)]).forwardingSubportCount).1 = false ∧
    ((2 : PortID), Forwarding.ENABLED) ∈ (AggregatePort.mk 7 "po1"
      [(1, Forwarding.ENABLED), (2, Forwarding.ENABLED)]).subportAndFwdState ∧
    demoHw.getBcmGport 2 ∉ (simSdk.bcm_trunk_get (Machine.warmStart 5 [1001]).sdk 5
      (AggregatePort.mk 7 "po1"
        [(1, Forwarding.ENABLED), (2, Forwarding.ENABLED)]).forwardingSubportCount).2.1.map
        bcm_trunk_member_t.gport ∧
    demoHw.getBcmGport 2 ≠ 0 ∧
    (init demoHw simSdk ⟨7, "po1", [(1, Forwarding.ENABLED), (2, Forwarding.ENABLED)]⟩
      (Machine.warmStart 5 [1001])).completion = .returned () ∧
    ((2 : PortID) ∈ (init demoHw simSdk
        ⟨7, "po1", [(1, Forwarding.ENABLED), (2, Forwarding.ENABLED)]⟩
        (Machine.warmStart 5 [1001])).machine.granted ↔
      (2 : PortID) ∈ (Machine.warmStart 5 [1001]).granted) :=
  ⟨by decide, simSdk_get_ok _ _ _, by decide, by decide, by decide,
    (init_warm_boot_enabled_member_missing demoHw simSdk
      ⟨7, "po1", [(1, Forwarding.ENABLED), (2, Forwarding.ENABLED)]⟩ (Machine.warmStart 5 [1001])
      (7, 5) 2 (by decide) (simSdk_get_ok _ _ _) (by decide) (by decide) (by decide)).1,
    (init_warm_boot_enabled_member_missing demoHw simSdk
      ⟨7, "po1", [(1, Forwarding.ENABLED), (2, Forwarding.ENABLED)]⟩ (Machine.warmStart 5 [1001])
      (7, 5) 2 (by decide) (simSdk_get_ok _ _ _) (by decide) (by decide) (by decide)).2.1⟩

/-! ## Bookkeeping after the emergency shrink won the race -/

/-- C12 (defect in the code): trunk 5 holds gports 1001 and 1002 and ports 1 and 2 are
granted. The emergency shrink removes port 1 from hardware; the control plane then runs
`program` with port 1 going Enabled to Disabled. The member delete answers
`BCM_E_NOT_FOUND`, `modifyMemberPort` returns before `revokeMembership`, and after
`program` has returned normally port 1 is absent from hardware but still granted. -/
theorem program_after_shrink_keeps_member_granted :
    (shrinkTrunkGroupHwNotLocked simSdk 5 1
      (Machine.onTrunk5 [1001, 1002] {1, 2})).completion = .returned () ∧
    (program demoHw simSdk ⟨7, "po1", [(1, Forwarding.ENABLED), (2, Forwarding.ENABLED)]⟩
      ⟨7, "po1", [(1, Forwarding.DISABLED), (2, Forwarding.ENABLED)]⟩
      (shrinkTrunkGroupHwNotLocked simSdk 5 1
        (Machine.onTrunk5 [1001, 1002] {1, 2})).machine).completion = .returned () ∧
    (program demoHw simSdk ⟨7, "po1", [(1, Forwarding.ENABLED), (2, Forwarding.ENABLED)]⟩
      ⟨7, "po1", [(1, Forwarding.DISABLED), (2, Forwarding.ENABLED)]⟩
      (shrinkTrunkGroupHwNotLocked simSdk 5 1
        (Machine.onTrunk5 [1001, 1002] {1, 2})).machine).machine.sdk.members 5 = [1002] ∧
    XLog.alreadyDeletedPort 1 5 ∈
      (program demoHw simSdk ⟨7, "po1", [(1, Forwarding.ENABLED), (2, Forwarding.ENABLED)]⟩
        ⟨7, "po1", [(1, Forwarding.DISABLED), (2, Forwarding.ENABLED)]⟩
        (shrinkTrunkGroupHwNotLocked simSdk 5 1
          (Machine.onTrunk5 [1001, 1002] {1, 2})).machine).machine.xlog ∧
    (1 : PortID) ∈
      (program demoHw simSdk ⟨7, "po1", [(1, Forwarding.ENABLED), (2, Forwarding.ENABLED)]⟩
        ⟨7, "po1", [(1, Forwarding.DISABLED), (2, Forwarding.ENABLED)]⟩
        (shrinkTrunkGroupHwNotLocked simSdk 5 1
          (Machine.onTrunk5 [1001, 1002] {1, 2})).machine).machine.granted := by
  decide

/-! ## `modifyMemberPort`: adding a member -/

/-- C13: `modifyMemberPort(true, memberPort)` issues exactly one `bcm_trunk_member_add`;
it throws if and only if that call returns a failure code; when it throws the `BcmTrunk`
object (trunk id and membership bookkeeping) is exactly as before the call, and when it
returns the member has been granted. -/
theorem modifyMemberPort_add_throws_iff (hw : BcmSwitchIf) (sdk : BcmSdk σ)
    (memberPort : PortID) (m : Machine σ) :
    ((modifyMemberPort hw sdk true memberPort m).completion.isThrew = true ↔
      BCM_FAILURE (sdk.bcm_trunk_member_add m.sdk m.trunk.bcmTrunkID_
        ⟨hw.getBcmGport memberPort⟩).1 = true) ∧
    (modifyMemberPort hw sdk true memberPort m).completion =
      (if BCM_FAILURE (sdk.bcm_trunk_member_add m.sdk m.trunk.bcmTrunkID_
          ⟨hw.getBcmGport memberPort⟩).1 = true then
        .threw ⟨(sdk.bcm_trunk_member_add m.sdk m.trunk.bcmTrunkID_
          ⟨hw.getBcmGport memberPort⟩).1⟩
       else .returned ()) ∧
    (modifyMemberPort hw sdk true memberPort m).machine.trunk =
      (if BCM_FAILURE (sdk.bcm_trunk_member_add m.sdk m.trunk.bcmTrunkID_
          ⟨hw.getBcmGport memberPort⟩).1 = true then m.trunk
       else { m.trunk with trunkStats_ := m.trunk.trunkStats_.grantMembership memberPort }) ∧
    issuedSince m.calls (modifyMemberPort hw sdk true memberPort m).machine.calls =
      [SdkCall.trunk_member_add m.trunk.bcmTrunkID_ ⟨hw.getBcmGport memberPort⟩] := by
  cases hf : BCM_FAILURE (sdk.bcm_trunk_member_add m.sdk m.trunk.bcmTrunkID_
      ⟨hw.getBcmGport memberPort⟩).1
  · simp [modifyMemberPort, hf, bcmCheckError, Completion.isThrew, issuedSince,
      Machine.record, Machine.log, Machine.grantMembership]
  · simp [modifyMemberPort, hf, bcmCheckError, Completion.isThrew, issuedSince,
      Machine.record]

/-! ## `init`, fresh branch: failures of the flood-block calls -/

/-- C14 (defect in the code): fresh creation for aggregate port 7 with subports 1 and 2
Enabled, on a driver whose `bcm_port_flood_block_set` answers `BCM_E_FAIL` (a failure
code other than not-found). `init` issues both flood-block calls, discards their return
codes and returns normally. -/
theorem init_fresh_ignores_flood_block_failure :
    BCM_FAILURE ((floodFailSdk 1).bcm_port_flood_block_set () 1 2 trafficToBlock).1 = true ∧
    ((floodFailSdk 1).bcm_port_flood_block_set () 1 2 trafficToBlock).1 ≠ BCM_E_NOT_FOUND ∧
    ((floodFailSdk 1).bcm_port_flood_block_set () 1 2 trafficToBlock).1 ≠ BCM_E_EXISTS ∧
    (init demoHw (floodFailSdk 1) ⟨7, "po1", [(1, Forwarding.ENABLED), (2, Forwarding.ENABLED)]⟩
      (Machine.start () ⟨[]⟩)).machine.calls =
      [SdkCall.trunk_create 0,
       SdkCall.trunk_set 1 freshTrunkInfo [⟨1001⟩, ⟨1002⟩],
       SdkCall.port_flood_block_set 1 2 trafficToBlock,
       SdkCall.port_flood_block_set 2 1 trafficToBlock] ∧
    (init demoHw (floodFailSdk 1) ⟨7, "po1", [(1, Forwarding.ENABLED), (2, Forwarding.ENABLED)]⟩
      (Machine.start () ⟨[]⟩)).completion = .returned () := by
  decide

/-! ## Flood suppression between the subports of a trunk -/

theorem mem_floodCalls {hw : BcmSwitchIf} {all ingress : List PortID} {c : SdkCall} :
    c ∈ floodCalls hw all ingress ↔
      ∃ i ∈ ingress, ∃ e ∈ all, i ≠ e ∧
        c = SdkCall.port_flood_block_set (hw.getBcmPortId i) (hw.getBcmPortId e) trafficToBlock := by
  simp only [floodCalls, List.mem_flatMap, List.mem_map, List.mem_filter, decide_eq_true_eq]
  constructor
  · rintro ⟨i, hi, e, ⟨he, hne⟩, rfl⟩
    exact ⟨i, hi, e, he, hne, rfl⟩
  · rintro ⟨i, hi, e, he, hne, rfl⟩
    exact ⟨i, hi, e, ⟨he, hne⟩, rfl⟩

theorem floodCalls_nodup (hw : BcmSwitchIf) (hinj : Function.Injective hw.getBcmPortId)
    (all ingress : List PortID) (hall : all.Nodup) (hing : ingress.Nodup) :
    (floodCalls hw all ingress).Nodup := by
  rw [floodCalls, List.nodup_flatMap]
  constructor
  · intro i _
    refine List.Nodup.map ?_ (List.Nodup.filter _ hall)
    intro a b hab
    simp only [SdkCall.port_flood_block_set.injEq, true_and, and_true] at hab
    exact hinj hab
  · refine List.Nodup.pairwise_of_forall_ne hing ?_
    intro a _ b _ hab c hca hcb
    simp only [List.mem_map] at hca hcb
    obtain ⟨e1, -, rfl⟩ := hca
    obtain ⟨e2, -, h⟩ := hcb
    simp only [SdkCall.port_flood_block_set.injEq, and_true] at h
    exact hab (hinj h.1).symm

theorem length_filter_ne_of_nodup (i : PortID) :
    ∀ (all : List PortID), all.Nodup → i ∈ all →
      (all.filter (fun e => decide (i ≠ e))).length + 1 = all.length := by
  intro all
  induction all with
  | nil => intro _ h; simp at h
  | cons a rest ih =>
    intro hnd hmem
    simp only [List.nodup_cons] at hnd
    by_cases hia : i = a
    · subst hia
      have hself : rest.filter (fun e => decide (i ≠ e)) = rest := by
        rw [List.filter_eq_self]
        intro e he
        simp only [ne_eq, decide_not, Bool.not_eq_true', decide_eq_false_iff_not]
        exact fun h => hnd.1 (h ▸ he)
      rw [List.filter_cons, hself]
      simp
    · have hin : i ∈ rest := by
        rcases List.mem_cons.mp hmem with h | h
        · exact absurd h hia
        · exact h
      have := ih hnd.2 hin
      simp only [ne_eq] at this
      rw [List.filter_cons]
      simp only [ne_eq, hia, not_false_eq_true, decide_True, if_true, List.length_cons]
      omega

theorem floodCalls_length (hw : BcmSwitchIf) (all : List PortID) (hall : all.Nodup) :
    ∀ (ingress : List PortID), (∀ i ∈ ingress, i ∈ all) →
      (floodCalls hw all ingress).length = ingress.length * (all.length - 1) := by
  intro ingress
  induction ingress with
  | nil => intro _; simp [floodCalls]
  | cons i rest ih =>
    intro hsub
    have hi := length_filter_ne_of_nodup i all hall (hsub i (by simp))
    have hrest := ih (fun j hj => hsub j (by simp [hj]))
    simp only [floodCalls, List.flatMap_cons, List.length_append, List.length_map,
      List.length_cons] at hrest ⊢
    rw [hrest, Nat.succ_mul]
    omega

theorem init_fresh_returned (hw : BcmSwitchIf) (sdk : BcmSdk σ) (aggPort : AggregatePort)
    (m : Machine σ)
    (hfind : m.warmBootCache.trunks.find? (fun trunk => decide (aggPort.getID = trunk.1)) = none)
    (hret : (init hw sdk aggPort m).completion = .returned ()) :
    ∃ members : List bcm_trunk_member_t,
      (init hw sdk aggPort m).machine.calls =
        m.calls ++ SdkCall.trunk_create 0 ::
          SdkCall.trunk_set (sdk.bcm_trunk_create m.sdk 0).2.1 freshTrunkInfo members ::
          floodCalls hw aggPort.sortedSubports aggPort.sortedSubports := by
  simp only [init, hfind] at hret ⊢
  cases hc : bcmCheckError (sdk.bcm_trunk_create m.sdk 0).1 with
  | some e => simp [hc] at hret
  | none =>
    simp only [hc] at hret ⊢
    obtain ⟨-, hcalls, -, -⟩ := initFreshLoop_frame hw aggPort.subportAndFwdState 0
      (List.replicate aggPort.forwardingSubportCount bcm_trunk_member_t_init)
      (({ (m.record (sdk.bcm_trunk_create m.sdk 0).2.2 (SdkCall.trunk_create 0)) with
          trunk := { m.trunk with bcmTrunkID_ := (sdk.bcm_trunk_create m.sdk 0).2.1 } } :
        Machine σ).log (XLog.createdTrunk (sdk.bcm_trunk_create m.sdk 0).2.1 aggPort.getID))
    generalize initFreshLoop hw 0 aggPort.subportAndFwdState
      (List.replicate aggPort.forwardingSubportCount bcm_trunk_member_t_init)
      (({ (m.record (sdk.bcm_trunk_create m.sdk 0).2.2 (SdkCall.trunk_create 0)) with
          trunk := { m.trunk with bcmTrunkID_ := (sdk.bcm_trunk_create m.sdk 0).2.1 } } :
        Machine σ).log (XLog.createdTrunk (sdk.bcm_trunk_create m.sdk 0).2.1 aggPort.getID)) = out
      at hcalls hret
    obtain ⟨comp, m2⟩ := out
    simp only [Machine.log, Machine.record] at hcalls
    cases comp with
    | returned members =>
      simp only [] at hret ⊢
      cases hs : bcmCheckError (sdk.bcm_trunk_set m2.sdk (sdk.bcm_trunk_create m.sdk 0).2.1
          freshTrunkInfo members).1 with
      | some e => simp [hs] at hret
      | none =>
        refine ⟨members, ?_⟩
        simp [Machine.statsSetup, suppressTrunkInternalFlood_calls, Machine.record, hcalls]
    | threw e => simp at hret
    | checkFailed => simp at hret
    | outOfBounds i n => simp at hret

theorem filter_isFloodBlock_floodCalls (hw : BcmSwitchIf) (all ingress : List PortID) :
    (floodCalls hw all ingress).filter SdkCall.isFloodBlock = floodCalls hw all ingress := by
  rw [List.filter_eq_self]
  intro c hc
  obtain ⟨i, -, e, -, -, rfl⟩ := mem_floodCalls.mp hc
  rfl

theorem demoHw_portId_injective : Function.Injective demoHw.getBcmPortId := by
  intro a b h
  simpa [demoHw] using h

/-- C15: for an aggregate port with distinct subports and distinct BCM port ids,
`suppressTrunkInternalFlood` issues, for subports `i` and `e` of the aggregate port,
exactly one `bcm_port_flood_block_set(i, e)` when `i` and `e` differ and none when they
are the same, `n * (n - 1)` calls in all, every one of them with the flag word
`trafficToBlock`, which has the broadcast, unknown-unicast and unknown-multicast bits set.
A fresh `init` that returns normally contains the flood-block calls of exactly one such
run, and a warm-boot `init` contains none. -/
theorem suppressTrunkInternalFlood_one_call_per_ordered_pair (hw : BcmSwitchIf)
    (sdk : BcmSdk σ) (aggPort : AggregatePort) (m mFresh mWarm : Machine σ)
    (foundTrunk : AggregatePortID × bcm_trunk_t)
    (hnd : aggPort.sortedSubports.Nodup)
    (hinj : Function.Injective hw.getBcmPortId)
    (hfresh : mFresh.warmBootCache.trunks.find?
      (fun trunk => decide (aggPort.getID = trunk.1)) = none)
    (hret : (init hw sdk aggPort mFresh).completion = .returned ())
    (hwarm : mWarm.warmBootCache.trunks.find?
      (fun trunk => decide (aggPort.getID = trunk.1)) = some foundTrunk) :
    (∀ i ∈ aggPort.sortedSubports, ∀ e ∈ aggPort.sortedSubports,
      (issuedSince m.calls (suppressTrunkInternalFlood hw sdk aggPort m).calls).count
          (SdkCall.port_flood_block_set (hw.getBcmPortId i) (hw.getBcmPortId e) trafficToBlock) =
        if i = e then 0 else 1) ∧
    (issuedSince m.calls (suppressTrunkInternalFlood hw sdk aggPort m).calls).length =
      aggPort.sortedSubports.length * (aggPort.sortedSubports.length - 1) ∧
    (∀ c ∈ issuedSince m.calls (suppressTrunkInternalFlood hw sdk aggPort m).calls,
      ∃ i e, c = SdkCall.port_flood_block_set i e trafficToBlock) ∧
    (trafficToBlock &&& BCM_PORT_FLOOD_BLOCK_BCAST = BCM_PORT_FLOOD_BLOCK_BCAST ∧
      trafficToBlock &&& BCM_PORT_FLOOD_BLOCK_UNKNOWN_UCAST = BCM_PORT_FLOOD_BLOCK_UNKNOWN_UCAST ∧
      trafficToBlock &&& BCM_PORT_FLOOD_BLOCK_UNKNOWN_MCAST =
        BCM_PORT_FLOOD_BLOCK_UNKNOWN_MCAST) ∧
    (issuedSince mFresh.calls (init hw sdk aggPort mFresh).machine.calls).filter
        SdkCall.isFloodBlock =
      issuedSince m.calls (suppressTrunkInternalFlood hw sdk aggPort m).calls ∧
    (issuedSince mWarm.calls (init hw sdk aggPort mWarm).machine.calls).filter
        SdkCall.isFloodBlock = [] := by
  rw [suppressTrunkInternalFlood_calls, issuedSince_append]
  refine ⟨?_, ?_, ?_, by decide, ?_, ?_⟩
  · intro i hi e he
    by_cases hie : i = e
    · rw [if_pos hie]
      apply List.count_eq_zero_of_not_mem
      intro hmem
      obtain ⟨i', -, e', -, hne, hc⟩ := mem_floodCalls.mp hmem
      simp only [SdkCall.port_flood_block_set.injEq, and_true] at hc
      exact hne ((hinj hc.1).symm.trans (hie.trans (hinj hc.2)))
    · rw [if_neg hie]
      exact List.count_eq_one_of_mem (floodCalls_nodup hw hinj _ _ hnd hnd)
        (mem_floodCalls.mpr ⟨i, hi, e, he, hie, rfl⟩)
  · exact floodCalls_length hw _ hnd _ (fun _ h => h)
  · intro c hc
    obtain ⟨i, -, e, -, -, rfl⟩ := mem_floodCalls.mp hc
    exact ⟨_, _, rfl⟩
  · obtain ⟨members, hcalls⟩ := init_fresh_returned hw sdk aggPort mFresh hfresh hret
    rw [hcalls, issuedSince_append]
    simp [List.filter_cons, SdkCall.isFloodBlock, filter_isFloodBlock_floodCalls]
  · obtain ⟨-, hcalls, -, -, -⟩ := init_warm hw sdk aggPort mWarm foundTrunk hwarm
    rw [hcalls, issuedSince_append]
    simp [List.filter_cons, SdkCall.isFloodBlock]

/-- Witness for C15: aggregate port 7 with subports 1 and 2, both Enabled: the calls are
(1, 2) and (2, 1). -/
theorem suppressTrunkInternalFlood_one_call_per_ordered_pair_witness :
    (AggregatePort.mk 7 "po1"
      [(1, Forwarding.ENABLED), (2, Forwarding.ENABLED)]).sortedSubports.Nodup ∧
    Function.Injective demoHw.getBcmPortId ∧
    (Machine.start () ⟨[]⟩).warmBootCache.trunks.find? (fun trunk => decide
      ((AggregatePort.mk 7 "po1" [(1, Forwarding.ENABLED), (2, Forwarding.ENABLED)]).getID =
        trunk.1)) = none ∧
    (init demoHw (okSdk 1 []) ⟨7, "po1", [(1, Forwarding.ENABLED), (2, Forwarding.ENABLED)]⟩
      (Machine.start () ⟨[]⟩)).completion = .returned () ∧
    (Machine.start () ⟨[(7, 5)]⟩).warmBootCache.trunks.find? (fun trunk => decide
      ((AggregatePort.mk 7 "po1" [(1, Forwarding.ENABLED), (2, Forwarding.ENABLED)]).getID =
        trunk.1)) = some (7, 5) ∧
    (issuedSince (Machine.start () ⟨[]⟩).calls
      (suppressTrunkInternalFlood demoHw (okSdk 1 [])
        ⟨7, "po1", [(1, Forwarding.ENABLED), (2, Forwarding.ENABLED)]⟩
        (Machine.start () ⟨[]⟩)).calls).length =
      (AggregatePort.mk 7 "po1"
        [(1, Forwarding.ENABLED), (2, Forwarding.ENABLED)]).sortedSubports.length *
      ((AggregatePort.mk 7 "po1"
        [(1, Forwarding.ENABLED), (2, Forwarding.ENABLED)]).sortedSubports.length - 1) ∧
    (issuedSince (Machine.start () ⟨[(7, 5)]⟩).calls
      (init demoHw (okSdk 1 []) ⟨7, "po1", [(1, Forwarding.ENABLED), (2, Forwarding.ENABLED)]⟩
        (Machine.start () ⟨[(7, 5)]⟩)).machine.calls).filter SdkCall.isFloodBlock = [] :=
  ⟨by decide, demoHw_portId_injective, by decide, by decide, by decide,
    (suppressTrunkInternalFlood_one_call_per_ordered_pair demoHw (okSdk 1 [])
      ⟨7, "po1", [(1, Forwarding.ENABLED), (2, Forwarding.ENABLED)]⟩ (Machine.start () ⟨[]⟩)
      (Machine.start () ⟨[]⟩) (Machine.start () ⟨[(7, 5)]⟩) (7, 5) (by decide)
      demoHw_portId_injective (by decide) (by decide) (by decide)).2.1,
    (suppressTrunkInternalFlood_one_call_per_ordered_pair demoHw (okSdk 1 [])
      ⟨7, "po1", [(1, Forwarding.ENABLED), (2, Forwarding.ENABLED)]⟩ (Machine.start () ⟨[]⟩)
      (Machine.start () ⟨[]⟩) (Machine.start () ⟨[(7, 5)]⟩) (7, 5) (by decide)
      demoHw_portId_injective (by decide) (by decide) (by decide)).2.2.2.2.2⟩

/-! ## The next-hop subscriber of a next-hop-group member -/

/-- C16: `createObject(added)` aborts on its `CHECK` whenever not all published objects
are alive, and then makes no store call; when they are alive and `added` holds the
published next hop, it returns after exactly one `setObject`, whose key is
`(nexthopGroupId_, adapter key of the next hop)` and whose create attributes are
`(nexthopGroupId_, adapter key of the next hop, weight_)`, and it holds that object. -/
theorem createObject_check_then_one_setObject (s : SaiNextHopSubscriberForNextHopGroupMember)
    (added : PublisherObjects) :
    (s.createObject added).completion =
      (if s.allPublishedObjectsAlive = false then SubscriberCompletion.checkFailed
       else match added with
         | none => SubscriberCompletion.nullDereference
         | some _ => SubscriberCompletion.returned) ∧
    (s.createObject added).subscriber.storeCalls =
      s.storeCalls ++
        (if s.allPublishedObjectsAlive = false then []
         else match added with
           | none => []
           | some nexthop =>
             [StoreCall.setObject ⟨s.nexthopGroupId_, nexthop.adapterKey⟩
               ⟨s.nexthopGroupId_, nexthop.adapterKey, s.weight_⟩]) ∧
    (s.createObject added).subscriber.object_ =
      (if s.allPublishedObjectsAlive = false then s.object_
       else match added with
         | none => s.object_
         | some nexthop =>
           some (⟨s.nexthopGroupId_, nexthop.adapterKey⟩,
             ⟨s.nexthopGroupId_, nexthop.adapterKey, s.weight_⟩)) := by
  cases halive : s.allPublishedObjectsAlive
  · simp [SaiNextHopSubscriberForNextHopGroupMember.createObject, halive]
  · cases added with
    | none => simp [SaiNextHopSubscriberForNextHopGroupMember.createObject, halive]
    | some nexthop =>
      simp [SaiNextHopSubscriberForNextHopGroupMember.createObject, halive,
        SaiNextHopSubscriberForNextHopGroupMember.setObject]

theorem deliver_spec (s : SaiNextHopSubscriberForNextHopGroupMember) (t : DependencyTransition) :
    (s.deliver t).completion = .returned ∧
    (s.deliver t).subscriber.storeCalls =
      s.storeCalls ++ [t.storeCall s.nexthopGroupId_ s.weight_] ∧
    (s.deliver t).subscriber.nexthopGroupId_ = s.nexthopGroupId_ ∧
    (s.deliver t).subscriber.weight_ = s.weight_ ∧
    ((s.deliver t).subscriber.object_.isSome = t.isResolved) := by
  cases t with
  | resolved nexthop =>
    simp [SaiNextHopSubscriberForNextHopGroupMember.deliver,
      SaiNextHopSubscriberForNextHopGroupMember.createObject,
      SaiNextHopSubscriberForNextHopGroupMember.allPublishedObjectsAlive,
      SaiNextHopSubscriberForNextHopGroupMember.setObject, DependencyTransition.storeCall,
      DependencyTransition.isResolved]
  | unresolved index =>
    simp [SaiNextHopSubscriberForNextHopGroupMember.deliver,
      SaiNextHopSubscriberForNextHopGroupMember.removeObject,
      SaiNextHopSubscriberForNextHopGroupMember.resetObject, DependencyTransition.storeCall,
      DependencyTransition.isResolved]

theorem deliverAll_spec :
    ∀ (transitions : List DependencyTransition) (s : SaiNextHopSubscriberForNextHopGroupMember),
      (s.deliverAll transitions).completion = .returned ∧
      (s.deliverAll transitions).subscriber.storeCalls =
        s.storeCalls ++ transitions.map (DependencyTransition.storeCall s.nexthopGroupId_ s.weight_) := by
  intro transitions
  induction transitions with
  | nil => intro s; simp [SaiNextHopSubscriberForNextHopGroupMember.deliverAll]
  | cons t rest ih =>
    intro s
    obtain ⟨hc, hcalls, hg, hw, -⟩ := deliver_spec s t
    rw [SaiNextHopSubscriberForNextHopGroupMember.deliverAll]
    generalize s.deliver t = out at hc hcalls hg hw
    obtain ⟨c, s1⟩ := out
    simp only at hc hcalls hg hw
    subst hc
    simp only []
    obtain ⟨h1, h2⟩ := ih s1
    rw [h1, h2, hcalls, hg, hw]
    simp

theorem filter_isSetObject_map (groupId : NextHopGroupSaiId) (weight : Option NextHopWeight) :
    ∀ (transitions : List DependencyTransition),
      ((transitions.map (DependencyTransition.storeCall groupId weight)).filter
          StoreCall.isSetObject).length =
        (transitions.filter DependencyTransition.isResolved).length ∧
      ((transitions.map (DependencyTransition.storeCall groupId weight)).filter
          StoreCall.isResetObject).length =
        (transitions.filter (fun t => !t.isResolved)).length := by
  intro transitions
  induction transitions with
  | nil => simp
  | cons t rest ih =>
    cases t <;>
      simp [List.filter_cons, DependencyTransition.storeCall, StoreCall.isSetObject,
        StoreCall.isResetObject, DependencyTransition.isResolved, ih.1, ih.2]

/-- C17: for every sequence of transitions delivered to one subscriber (alternating or
not), every callback returns, the store calls made are, in order, one `setObject` per
Resolved transition and one `resetObject` per Unresolved transition, so the number of
`setObject` calls equals the number of Resolved transitions and the number of
`resetObject` calls equals the number of Unresolved transitions; and `removeObject`
makes one `resetObject` and leaves no object held, whatever index and objects it is
given. -/
theorem deliverAll_one_store_call_per_transition
    (s : SaiNextHopSubscriberForNextHopGroupMember) (transitions : List DependencyTransition)
    (index : Nat) (removed : PublisherObjects) :
    (s.deliverAll transitions).completion = .returned ∧
    (s.deliverAll transitions).subscriber.storeCalls.drop s.storeCalls.length =
      transitions.map (DependencyTransition.storeCall s.nexthopGroupId_ s.weight_) ∧
    (((s.deliverAll transitions).subscriber.storeCalls.drop s.storeCalls.length).filter
        StoreCall.isSetObject).length =
      (transitions.filter DependencyTransition.isResolved).length ∧
    (((s.deliverAll transitions).subscriber.storeCalls.drop s.storeCalls.length).filter
        StoreCall.isResetObject).length =
      (transitions.filter (fun t => !t.isResolved)).length ∧
    (s.removeObject index removed).completion = .returned ∧
    (s.removeObject index removed).subscriber.object_ = none ∧
    (s.removeObject index removed).subscriber.storeCalls =
      s.storeCalls ++ [StoreCall.resetObject] := by
  obtain ⟨h1, h2⟩ := deliverAll_spec transitions s
  obtain ⟨h3, h4⟩ := filter_isSetObject_map s.nexthopGroupId_ s.weight_ transitions
  rw [h2, List.drop_left]
  exact ⟨h1, rfl, h3, h4, rfl, rfl, rfl⟩

/-! ## The facade over the two next-hop flavors -/

/-- C18: `isAlive()` of the facade is true exactly when the pointer held by
`nexthopSubscriber_` is non-null and the `isAlive()` of the subscriber it points to is
true; the result depends neither on `neighborSubscriber_` nor on the `isAlive()` of the
flavor that is not held. -/
theorem SubscriberForNextHopGroupMember_isAlive_iff
    {NeighborIp NeighborMpls NextHopIp NextHopMpls : Type}
    (ipIsAlive ipIsAlive' : NextHopIp → Bool) (mplsIsAlive mplsIsAlive' : NextHopMpls → Bool)
    (neighbor neighbor' : FlavorVariant NeighborIp NeighborMpls)
    (ipArg : Option NextHopIp) (mplsArg : Option NextHopMpls) :
    ((SubscriberForNextHopGroupMember.mk neighbor (FlavorVariant.ip ipArg)).isAlive
        ipIsAlive mplsIsAlive = true ↔ ∃ sub, ipArg = some sub ∧ ipIsAlive sub = true) ∧
    ((SubscriberForNextHopGroupMember.mk neighbor (FlavorVariant.mpls mplsArg)).isAlive
        ipIsAlive mplsIsAlive = true ↔ ∃ sub, mplsArg = some sub ∧ mplsIsAlive sub = true) ∧
    (SubscriberForNextHopGroupMember.mk neighbor (FlavorVariant.ip ipArg)).isAlive
        ipIsAlive mplsIsAlive =
      (SubscriberForNextHopGroupMember.mk neighbor' (FlavorVariant.ip ipArg)).isAlive
        ipIsAlive mplsIsAlive' ∧
    (SubscriberForNextHopGroupMember.mk neighbor (FlavorVariant.mpls mplsArg)).isAlive
        ipIsAlive mplsIsAlive =
      (SubscriberForNextHopGroupMember.mk neighbor' (FlavorVariant.mpls mplsArg)).isAlive
        ipIsAlive' mplsIsAlive := by
  refine ⟨?_, ?_, rfl, rfl⟩
  · cases ipArg <;> simp [SubscriberForNextHopGroupMember.isAlive]
  · cases mplsArg <;> simp [SubscriberForNextHopGroupMember.isAlive]

/-! ## Reference counting in the shared object registry -/

theorem Registry.lookup_some {r : Registry} {x : LogicalIdentity} {e : RegistryEntry}
    (h : r.lookup x = some e) : e.identity = x ∧ e ∈ r.entries := by
  refine ⟨?_, List.mem_of_find?_eq_some h⟩
  have := List.find?_some h
  simpa using this

theorem Registry.lookup_none {r : Registry} {x : LogicalIdentity} (h : r.lookup x = none) :
    x ∉ r.entries.map RegistryEntry.identity := by
  simp only [Registry.lookup, List.find?_eq_none, decide_eq_true_eq] at h
  simp only [List.mem_map, not_exists, not_and]
  exact fun e he => h e he

theorem Registry.refs_map_update (l : List RegistryEntry) (x y : LogicalIdentity)
    (g : Nat → Nat) :
    (match (l.map (fun e' => if e'.identity = x then { e' with refcount := g e'.refcount }
        else e')).find? (fun e => decide (e.identity = y)) with
      | some e => e.refcount
      | none => 0) =
    (match l.find? (fun e => decide (e.identity = y)) with
      | some e => if y = x then g e.refcount else e.refcount
      | none => 0) := by
  have hcomp : ((fun e : RegistryEntry => decide (e.identity = y)) ∘
      (fun e' : RegistryEntry => if e'.identity = x then { e' with refcount := g e'.refcount }
        else e')) = fun e => decide (e.identity = y) := by
    funext a
    simp only [Function.comp]
    split <;> rfl
  rw [List.find?_map, hcomp]
  cases hf : l.find? (fun e => decide (e.identity = y)) with
  | none => simp
  | some e =>
    have hey : e.identity = y := by
      have := List.find?_some hf
      simpa using this
    by_cases hyx : y = x
    · have hex : e.identity = x := hey.trans hyx
      simp [hex, hyx]
    · have hex : ¬ e.identity = x := fun h => hyx (hey.symm.trans h)
      simp [hex, hyx]

theorem Registry.acquire_spec (driverCreate : LogicalIdentity → Option HardwareHandle)
    (hcreate : ∀ y, (driverCreate y).isSome = true) (r : Registry) (hwf : r.Wf)
    (x : LogicalIdentity) :
    (r.acquire driverCreate x).2.Wf ∧
    (∀ y, (r.acquire driverCreate x).2.refs y = if y = x then r.refs x + 1 else r.refs y) ∧
    (r.acquire driverCreate x).2.driverEvents =
      r.driverEvents ++ (if r.refs x = 0 then [DriverEvent.create x] else []) := by
  cases hl : r.lookup x with
  | some e =>
    obtain ⟨hid, hmem⟩ := Registry.lookup_some hl
    have hpos : 1 ≤ e.refcount := hwf.2 e hmem
    refine ⟨⟨?_, ?_⟩, ?_, ?_⟩
    · have : (r.acquire driverCreate x).2.entries.map RegistryEntry.identity =
          r.entries.map RegistryEntry.identity := by
        simp only [Registry.acquire, hl, List.map_map]
        apply List.map_congr_left
        intro a _
        simp only [Function.comp]
        split <;> rfl
      rw [this]
      exact hwf.1
    · intro e' he'
      simp only [Registry.acquire, hl, List.mem_map] at he'
      obtain ⟨a, ha, rfl⟩ := he'
      have := hwf.2 a ha
      split
      · simp
      · exact this
    · intro y
      simp only [Registry.acquire, hl]
      simp only [Registry.refs, Registry.lookup]
      rw [Registry.refs_map_update r.entries x y (fun n => n + 1)]
      by_cases hyx : y = x
      · subst hyx
        simp only [Registry.lookup] at hl
        simp [hl]
      · simp only [hyx, if_false]
    · have hne : r.refs x ≠ 0 := by
        simp only [Registry.refs, hl]
        omega
      simp [Registry.acquire, hl, hne]
  | none =>
    have hnot := Registry.lookup_none hl
    obtain ⟨h, hh⟩ := Option.isSome_iff_exists.mp (hcreate x)
    refine ⟨⟨?_, ?_⟩, ?_, ?_⟩
    · simp only [Registry.acquire, hl, hh, List.map_append, List.map_cons, List.map_nil]
      rw [List.nodup_append]
      refine ⟨hwf.1, by simp, ?_⟩
      intro a ha hb
      simp only [List.mem_singleton] at hb
      exact hnot (hb ▸ ha)
    · intro e' he'
      simp only [Registry.acquire, hl, hh, List.mem_append, List.mem_singleton] at he'
      rcases he' with he' | he'
      · exact hwf.2 e' he'
      · subst he'; simp
    · intro y
      simp only [Registry.acquire, hl, hh]
      simp only [Registry.refs, Registry.lookup, List.find?_append]
      simp only [Registry.lookup] at hl
      by_cases hyx : y = x
      · subst hyx
        simp [hl]
      · have hxy : ¬ x = y := fun h => hyx h.symm
        cases hy : r.entries.find? (fun e => decide (e.identity = y)) <;>
          simp [hy, hyx, hxy, List.find?_cons]
    · have hz : r.refs x = 0 := by simp [Registry.refs, hl]
      simp [Registry.acquire, hl, hh, hz]

theorem Registry.release_spec (r : Registry) (hwf : r.Wf) (x : LogicalIdentity) :
    (r.release x).Wf ∧
    (∀ y, (r.release x).refs y = if y = x then r.refs x - 1 else r.refs y) ∧
    (∀ z, createsOf z (r.release x).driverEvents = createsOf z r.driverEvents) ∧
    (∀ z, deletesOf z (r.release x).driverEvents =
      deletesOf z r.driverEvents + (if z = x ∧ r.refs x = 1 then 1 else 0)) := by
  cases hl : r.lookup x with
  | none =>
    have hz : r.refs x = 0 := by simp [Registry.refs, hl]
    refine ⟨by simpa [Registry.release, hl] using hwf, ?_, by simp [Registry.release, hl], ?_⟩
    · intro y
      by_cases hyx : y = x
      · subst hyx; simp [Registry.release, hl, hz]
      · simp [Registry.release, hl, hyx]
    · intro z
      simp [Registry.release, hl, hz]
  | some e =>
    obtain ⟨hid, hmem⟩ := Registry.lookup_some hl
    have hpos : 1 ≤ e.refcount := hwf.2 e hmem
    have hrefs : r.refs x = e.refcount := by simp [Registry.refs, hl]
    by_cases hlast : e.refcount ≤ 1
    · have hone : e.refcount = 1 := by omega
      refine ⟨⟨?_, ?_⟩, ?_, ?_, ?_⟩
      · simp only [Registry.release, hl, hlast, if_true]
        exact List.Nodup.sublist (List.Sublist.map _ (List.filter_sublist _)) hwf.1
      · intro e' he'
        simp only [Registry.release, hl, hlast, if_true, List.mem_filter] at he'
        exact hwf.2 e' he'.1
      · intro y
        simp only [Registry.release, hl, hlast, if_true]
        simp only [Registry.refs, Registry.lookup, List.find?_filter]
        by_cases hyx : y = x
        · subst hyx
          have hnone : r.entries.find? (fun a => decide (decide (a.identity ≠ y) = true ∧
              decide (a.identity = y) = true)) = none := by
            rw [List.find?_eq_none]
            intro a _
            simp
          rw [hnone]
          simp only [Registry.lookup] at hl
          simp [hl, hone]
        · have hsame : (fun a : RegistryEntry => decide (decide (a.identity ≠ x) = true ∧
              decide (a.identity = y) = true)) = (fun a => decide (a.identity = y)) := by
            funext a
            by_cases hay : a.identity = y
            · simp [hay, hyx]
            · simp [hay]
          rw [hsame]
          simp [hyx]
      · intro z
        simp [Registry.release, hl, hlast, createsOf, List.filter_append]
      · intro z
        by_cases hzx : z = x
        · subst hzx
          simp [Registry.release, hl, hlast, deletesOf, List.filter_append, hrefs, hone]
        · have hxz : ¬ x = z := fun h => hzx h.symm
          simp [Registry.release, hl, hlast, deletesOf, List.filter_append, hzx, hxz]
    · have hne : r.refs x ≠ 1 := by omega
      refine ⟨⟨?_, ?_⟩, ?_, ?_, ?_⟩
      · have : (r.release x).entries.map RegistryEntry.identity =
            r.entries.map RegistryEntry.identity := by
          simp only [Registry.release, hl, hlast, if_false, List.map_map]
          apply List.map_congr_left
          intro a _
          simp only [Function.comp]
          split <;> rfl
        rw [this]
        exact hwf.1
      · intro e' he'
        simp only [Registry.release, hl, hlast, if_false, List.mem_map] at he'
        obtain ⟨a, ha, rfl⟩ := he'
        have hapos := hwf.2 a ha
        by_cases hax : a.identity = x
        · have hae : a = e := by
            have hnd := hwf.1
            have h1 : a.identity = e.identity := hax.trans hid.symm
            exact List.inj_on_of_nodup_map hnd ha hmem h1
          subst hae
          simp [hax]
          omega
        · simp [hax, hapos]
      · intro y
        simp only [Registry.release, hl, hlast, if_false]
        simp only [Registry.refs, Registry.lookup]
        rw [Registry.refs_map_update r.entries x y (fun n => n - 1)]
        by_cases hyx : y = x
        · subst hyx
          simp only [Registry.lookup] at hl
          simp [hl]
        · simp only [hyx, if_false]
      · intro z
        simp [Registry.release, hl, hlast]
      · intro z
        simp [Registry.release, hl, hlast, hne]

theorem createsOf_append (x : LogicalIdentity) (a b : List DriverEvent) :
    createsOf x (a ++ b) = createsOf x a + createsOf x b := by
  simp [createsOf, List.filter_append]

theorem deletesOf_append (x : LogicalIdentity) (a b : List DriverEvent) :
    deletesOf x (a ++ b) = deletesOf x a + deletesOf x b := by
  simp [deletesOf, List.filter_append]

theorem Registry.step_spec (driverCreate : LogicalIdentity → Option HardwareHandle)
    (hcreate : ∀ y, (driverCreate y).isSome = true) (r : Registry) (hwf : r.Wf)
    (x : LogicalIdentity) (op : RegistryOp) :
    (r.step driverCreate op).Wf ∧
    (r.step driverCreate op).refs x = op.countAfter x (r.refs x) ∧
    createsOf x (r.step driverCreate op).driverEvents =
      createsOf x r.driverEvents + (if op = RegistryOp.acquire x ∧ r.refs x = 0 then 1 else 0) ∧
    deletesOf x (r.step driverCreate op).driverEvents =
      deletesOf x r.driverEvents + (if op = RegistryOp.release x ∧ r.refs x = 1 then 1 else 0) := by
  cases op with
  | acquire y =>
    obtain ⟨h1, h2, h3⟩ := Registry.acquire_spec driverCreate hcreate r hwf y
    refine ⟨h1, ?_, ?_, ?_⟩
    · simp only [Registry.step, h2 x, RegistryOp.countAfter]
      by_cases hxy : x = y
      · subst hxy; simp
      · have hyx : ¬ y = x := fun h => hxy h.symm
        simp [hxy, hyx]
    · simp only [Registry.step, h3, createsOf_append]
      by_cases hyx : y = x
      · subst hyx
        by_cases hz : r.refs y = 0 <;> simp [hz, createsOf]
      · by_cases hz : r.refs y = 0 <;> simp [hz, createsOf, hyx]
    · simp only [Registry.step, h3, deletesOf_append]
      by_cases hz : r.refs y = 0 <;> simp [hz, deletesOf]
  | release y =>
    obtain ⟨h1, h2, h3, h4⟩ := Registry.release_spec r hwf y
    refine ⟨h1, ?_, ?_, ?_⟩
    · simp only [Registry.step, h2 x, RegistryOp.countAfter]
      by_cases hxy : x = y
      · subst hxy; simp
      · have hyx : ¬ y = x := fun h => hxy h.symm
        simp [hxy, hyx]
    · simp [Registry.step, h3 x]
    · simp only [Registry.step, h4 x]
      by_cases hxy : x = y
      · subst hxy; simp
      · have hyx : ¬ y = x := fun h => hxy h.symm
        simp [hxy, hyx]

theorem Registry.run_spec (driverCreate : LogicalIdentity → Option HardwareHandle)
    (hcreate : ∀ y, (driverCreate y).isSome = true) (x : LogicalIdentity) :
    ∀ (ops : List RegistryOp) (r : Registry), r.Wf →
      (r.run driverCreate ops).Wf ∧
      (r.run driverCreate ops).refs x = ops.foldl (fun k op => op.countAfter x k) (r.refs x) ∧
      createsOf x (r.run driverCreate ops).driverEvents =
        createsOf x r.driverEvents + rises x (r.refs x) ops ∧
      deletesOf x (r.run driverCreate ops).driverEvents =
        deletesOf x r.driverEvents + falls x (r.refs x) ops := by
  intro ops
  induction ops with
  | nil => intro r hwf; simp [Registry.run, rises, falls, hwf]
  | cons op rest ih =>
    intro r hwf
    obtain ⟨s1, s2, s3, s4⟩ := Registry.step_spec driverCreate hcreate r hwf x op
    obtain ⟨i1, i2, i3, i4⟩ := ih (r.step driverCreate op) s1
    simp only [Registry.run, List.foldl_cons] at i1 i2 i3 i4 ⊢
    refine ⟨i1, ?_, ?_, ?_⟩
    · rw [i2, s2]
    · rw [i3, s2, s3, rises]; omega
    · rw [i4, s2, s4, falls]; omega

theorem rises_falls_filter (x : LogicalIdentity) :
    ∀ (ops : List RegistryOp) (k : Nat),
      rises x k ops = rises x k (ops.filter (fun o => decide (o.identity = x))) ∧
      falls x k ops = falls x k (ops.filter (fun o => decide (o.identity = x))) := by
  intro ops
  induction ops with
  | nil => intro k; simp
  | cons op rest ih =>
    intro k
    by_cases hop : op.identity = x
    · simp only [List.filter_cons, hop, decide_True, if_true, rises, falls]
      rw [(ih _).1, (ih _).2]
      exact ⟨rfl, rfl⟩
    · have hk : op.countAfter x k = k := by
        cases op <;> simp_all [RegistryOp.countAfter, RegistryOp.identity]
      have h1 : ¬ op = RegistryOp.acquire x := by
        intro h; subst h; exact hop rfl
      have h2 : ¬ op = RegistryOp.release x := by
        intro h; subst h; exact hop rfl
      simp only [List.filter_cons, hop, decide_False, rises, falls, hk, h1, h2, false_and,
        if_false, Nat.zero_add]
      exact ih k

theorem rises_falls_append (x : LogicalIdentity) :
    ∀ (a b : List RegistryOp) (k : Nat),
      rises x k (a ++ b) =
        rises x k a + rises x (a.foldl (fun k op => op.countAfter x k) k) b ∧
      falls x k (a ++ b) =
        falls x k a + falls x (a.foldl (fun k op => op.countAfter x k) k) b := by
  intro a
  induction a with
  | nil => intro b k; simp [rises, falls]
  | cons op rest ih =>
    intro b k
    have e1 : rises x k (op :: rest ++ b) =
        (if op = RegistryOp.acquire x ∧ k = 0 then 1 else 0) +
          rises x (op.countAfter x k) (rest ++ b) := rfl
    have e2 : falls x k (op :: rest ++ b) =
        (if op = RegistryOp.release x ∧ k = 1 then 1 else 0) +
          falls x (op.countAfter x k) (rest ++ b) := rfl
    have e3 : rises x k (op :: rest) =
        (if op = RegistryOp.acquire x ∧ k = 0 then 1 else 0) +
          rises x (op.countAfter x k) rest := rfl
    have e4 : falls x k (op :: rest) =
        (if op = RegistryOp.release x ∧ k = 1 then 1 else 0) +
          falls x (op.countAfter x k) rest := rfl
    rw [e1, e2, e3, e4, (ih b _).1, (ih b _).2, List.foldl_cons]
    constructor <;> omega

theorem replicate_acquire_spec (x : LogicalIdentity) :
    ∀ (n k : Nat),
      rises x k (List.replicate n (RegistryOp.acquire x)) = (if k = 0 ∧ 0 < n then 1 else 0) ∧
      falls x k (List.replicate n (RegistryOp.acquire x)) = 0 ∧
      (List.replicate n (RegistryOp.acquire x)).foldl (fun k op => op.countAfter x k) k =
        k + n := by
  intro n
  induction n with
  | zero => intro k; simp [rises, falls]
  | succ n ih =>
    intro k
    obtain ⟨h1, h2, h3⟩ := ih (k + 1)
    have hc : (RegistryOp.acquire x).countAfter x k = k + 1 := by simp [RegistryOp.countAfter]
    have e1 : rises x k (List.replicate (n + 1) (RegistryOp.acquire x)) =
        (if RegistryOp.acquire x = RegistryOp.acquire x ∧ k = 0 then 1 else 0) +
          rises x ((RegistryOp.acquire x).countAfter x k)
            (List.replicate n (RegistryOp.acquire x)) := rfl
    have e2 : falls x k (List.replicate (n + 1) (RegistryOp.acquire x)) =
        (if RegistryOp.acquire x = RegistryOp.release x ∧ k = 1 then 1 else 0) +
          falls x ((RegistryOp.acquire x).countAfter x k)
            (List.replicate n (RegistryOp.acquire x)) := rfl
    have e3 : (List.replicate (n + 1) (RegistryOp.acquire x)).foldl
        (fun k op => op.countAfter x k) k =
        (List.replicate n (RegistryOp.acquire x)).foldl (fun k op => op.countAfter x k)
          ((RegistryOp.acquire x).countAfter x k) := rfl
    rw [e1, e2, e3, hc, h1, h2, h3]
    refine ⟨?_, by simp, by omega⟩
    by_cases hk : k = 0 <;> simp [hk]

theorem replicate_release_spec (x : LogicalIdentity) :
    ∀ (n k : Nat),
      rises x k (List.replicate n (RegistryOp.release x)) = 0 ∧
      falls x k (List.replicate n (RegistryOp.release x)) = (if 1 ≤ k ∧ k ≤ n then 1 else 0) ∧
      (List.replicate n (RegistryOp.release x)).foldl (fun k op => op.countAfter x k) k =
        k - n := by
  intro n
  induction n with
  | zero =>
    intro k
    simp only [List.replicate_zero, rises, falls, List.foldl_nil, Nat.sub_zero, true_and,
      and_true]
    split <;> omega
  | succ n ih =>
    intro k
    obtain ⟨h1, h2, h3⟩ := ih (k - 1)
    have hc : (RegistryOp.release x).countAfter x k = k - 1 := by simp [RegistryOp.countAfter]
    have e1 : rises x k (List.replicate (n + 1) (RegistryOp.release x)) =
        (if RegistryOp.release x = RegistryOp.acquire x ∧ k = 0 then 1 else 0) +
          rises x ((RegistryOp.release x).countAfter x k)
            (List.replicate n (RegistryOp.release x)) := rfl
    have e2 : falls x k (List.replicate (n + 1) (RegistryOp.release x)) =
        (if RegistryOp.release x = RegistryOp.release x ∧ k = 1 then 1 else 0) +
          falls x ((RegistryOp.release x).countAfter x k)
            (List.replicate n (RegistryOp.release x)) := rfl
    have e3 : (List.replicate (n + 1) (RegistryOp.release x)).foldl
        (fun k op => op.countAfter x k) k =
        (List.replicate n (RegistryOp.release x)).foldl (fun k op => op.countAfter x k)
          ((RegistryOp.release x).countAfter x k) := rfl
    rw [e1, e2, e3, hc, h1, h2, h3]
    refine ⟨by simp, ?_, by omega⟩
    by_cases hk1 : k = 1
    · subst hk1; simp
    · have hne : ¬ (RegistryOp.release x = RegistryOp.release x ∧ k = 1) := fun h => hk1 h.2
      rw [if_neg hne]
      by_cases hc : 1 ≤ k - 1 ∧ k - 1 ≤ n
      · rw [if_pos hc, if_pos (by omega)]
      · rw [if_neg hc, if_neg (by omega)]

theorem Registry.entriesOf_le_one (r : Registry) (hwf : r.Wf) (x : LogicalIdentity) :
    r.entriesOf x ≤ 1 ∧ (r.refs x = 0 → r.entriesOf x = 0) := by
  obtain ⟨hnd, hpos⟩ := hwf
  constructor
  · simp only [Registry.entriesOf]
    generalize r.entries = l at hnd
    induction l with
    | nil => simp
    | cons a rest ih =>
      simp only [List.map_cons, List.nodup_cons] at hnd
      by_cases hax : a.identity = x
      · have hnil : rest.filter (fun e => decide (e.identity = x)) = [] := by
          rw [List.filter_eq_nil_iff]
          intro e he
          simp only [decide_eq_true_eq]
          intro hex
          exact hnd.1 (List.mem_map.mpr ⟨e, he, hex.trans hax.symm⟩)
        simp [List.filter_cons, hax, hnil]
      · simpa [List.filter_cons, hax] using ih hnd.2
  · intro hz
    cases hl : r.lookup x with
    | some e =>
      have := hpos e (Registry.lookup_some hl).2
      simp only [Registry.refs, hl] at hz
      omega
    | none =>
      simp only [Registry.entriesOf, List.length_eq_zero, List.filter_eq_nil_iff]
      simp only [Registry.lookup, List.find?_eq_none] at hl
      exact hl

theorem Registry.empty_wf : Registry.empty.Wf := by
  simp [Registry.Wf, Registry.empty]

theorem foldl_countAfter_filter (x : LogicalIdentity) :
    ∀ (ops : List RegistryOp) (k : Nat),
      ops.foldl (fun k op => op.countAfter x k) k =
        (ops.filter (fun o => decide (o.identity = x))).foldl (fun k op => op.countAfter x k) k := by
  intro ops
  induction ops with
  | nil => intro k; rfl
  | cons op rest ih =>
    intro k
    by_cases hop : op.identity = x
    · simp only [List.filter_cons, hop, decide_True, if_true, List.foldl_cons]
      exact ih _
    · have hk : op.countAfter x k = k := by
        cases op <;> simp_all [RegistryOp.countAfter, RegistryOp.identity]
      simp only [List.filter_cons, hop, decide_False, List.foldl_cons, hk]
      exact ih k

/-- C19 (counterexample): two acquisitions and two releases of identity 1, each release
after its acquisition, in the order acquire, release, acquire, release. The first release
brings the reference count to zero, so the object is deleted and then created again: two
driver creates and two driver deletes, not one of each. -/
theorem registry_release_to_zero_recreates :
    createsOf 1 (Registry.empty.run (fun x => some (x + 100))
      [RegistryOp.acquire 1, RegistryOp.release 1, RegistryOp.acquire 1,
        RegistryOp.release 1]).driverEvents = 2 ∧
    deletesOf 1 (Registry.empty.run (fun x => some (x + 100))
      [RegistryOp.acquire 1, RegistryOp.release 1, RegistryOp.acquire 1,
        RegistryOp.release 1]).driverEvents = 2 := by
  decide

/-- The case in which every acquisition of `x` comes before every release of `x`: on a
driver whose creates succeed, starting from the empty registry, if the operations on `x`
are `n ≥ 1` acquisitions all followed by `n` releases, interleaved in any way with
operations on other identities, then exactly one driver create and exactly one driver
delete are issued for `x` and `x` has no entry at the end; and after any number `k` of the
operations there is at most one registry entry for `x`. -/
theorem registry_one_create_one_delete (driverCreate : LogicalIdentity → Option HardwareHandle)
    (x : LogicalIdentity) (n : Nat) (ops : List RegistryOp) (k : Nat)
    (hcreate : ∀ y, (driverCreate y).isSome = true) (hn : 1 ≤ n)
    (hops : ops.filter (fun o => decide (o.identity = x)) =
      List.replicate n (RegistryOp.acquire x) ++ List.replicate n (RegistryOp.release x)) :
    createsOf x (Registry.empty.run driverCreate ops).driverEvents = 1 ∧
    deletesOf x (Registry.empty.run driverCreate ops).driverEvents = 1 ∧
    (Registry.empty.run driverCreate ops).entriesOf x = 0 ∧
    (Registry.empty.run driverCreate (ops.take k)).entriesOf x ≤ 1 := by
  obtain ⟨hwf, hrefs, hcr, hdel⟩ :=
    Registry.run_spec driverCreate hcreate x ops Registry.empty Registry.empty_wf
  have hzero : Registry.empty.refs x = 0 := by simp [Registry.refs, Registry.lookup, Registry.empty]
  have hnil : createsOf x Registry.empty.driverEvents = 0 ∧
      deletesOf x Registry.empty.driverEvents = 0 := by
    simp [createsOf, deletesOf, Registry.empty]
  obtain ⟨a1, a2, a3⟩ := replicate_acquire_spec x n 0
  obtain ⟨r1, r2, r3⟩ := replicate_release_spec x n (0 + n)
  refine ⟨?_, ?_, ?_, ?_⟩
  · rw [hcr, hzero, hnil.1, (rises_falls_filter x ops 0).1, hops,
      (rises_falls_append x _ _ 0).1, a1, a3, r1]
    simp only [true_and, Nat.zero_add, Nat.add_zero]
    rw [if_pos (by omega)]
  · rw [hdel, hzero, hnil.2, (rises_falls_filter x ops 0).2, hops,
      (rises_falls_append x _ _ 0).2, a2, a3, r2]
    simp only [Nat.zero_add]
    rw [if_pos (by omega)]
  · apply (Registry.entriesOf_le_one _ hwf x).2
    rw [hrefs, hzero, foldl_countAfter_filter, hops, List.foldl_append, a3, r3]
    omega
  · exact (Registry.entriesOf_le_one _
      (Registry.run_spec driverCreate hcreate x (ops.take k) Registry.empty
        Registry.empty_wf).1 x).1

/-- An instance of `registry_one_create_one_delete`: two holders of identity 1 and one
holder of identity 2, all acquiring before any of them releases. -/
theorem registry_one_create_one_delete_witness :
    (∀ y : LogicalIdentity, ((fun x : LogicalIdentity => some (x + 100)) y).isSome = true) ∧
    1 ≤ 2 ∧
    [RegistryOp.acquire 1, RegistryOp.acquire 2, RegistryOp.acquire 1, RegistryOp.release 1,
      RegistryOp.release 2, RegistryOp.release 1].filter (fun o => decide (o.identity = 1)) =
      List.replicate 2 (RegistryOp.acquire 1) ++ List.replicate 2 (RegistryOp.release 1) ∧
    createsOf 1 (Registry.empty.run (fun x => some (x + 100))
      [RegistryOp.acquire 1, RegistryOp.acquire 2, RegistryOp.acquire 1, RegistryOp.release 1,
        RegistryOp.release 2, RegistryOp.release 1]).driverEvents = 1 ∧
    deletesOf 1 (Registry.empty.run (fun x => some (x + 100))
      [RegistryOp.acquire 1, RegistryOp.acquire 2, RegistryOp.acquire 1, RegistryOp.release 1,
        RegistryOp.release 2, RegistryOp.release 1]).driverEvents = 1 :=
  ⟨fun _ => rfl, by decide, by decide,
    (registry_one_create_one_delete (fun x => some (x + 100)) 1 2
      [RegistryOp.acquire 1, RegistryOp.acquire 2, RegistryOp.acquire 1, RegistryOp.release 1,
        RegistryOp.release 2, RegistryOp.release 1] 3 (fun _ => rfl) (by decide) (by decide)).1,
    (registry_one_create_one_delete (fun x => some (x + 100)) 1 2
      [RegistryOp.acquire 1, RegistryOp.acquire 2, RegistryOp.acquire 1, RegistryOp.release 1,
        RegistryOp.release 2, RegistryOp.release 1] 3 (fun _ => rfl) (by decide) (by decide)).2.1⟩

/-! ## `RouteUpdateWrapper::program`: one backend per invocation -/

/-- C20: one invocation of `program()` invokes exactly one backend, once, with the
accumulated batches: `programStandAloneRib` when the wrapper was constructed with
`isStandaloneRibEnabled = true` and `programLegacyRib` otherwise; the other backend is
not invoked. -/
theorem program_invokes_exactly_one_backend {β : Type} (backends : RibBackends β)
    (s : RouteProgrammer β) :
    (RouteUpdateWrapper.program backends s).2.invoked.drop s.invoked.length =
      [if s.wrapper.isStandaloneRibEnabled_ = true then
         BackendCall.programStandAloneRib s.wrapper.ribRoutesToAddDel_
       else BackendCall.programLegacyRib s.wrapper.ribRoutesToAddDel_] ∧
    (RouteUpdateWrapper.program backends s).2.wrapper.isStandaloneRibEnabled_ =
      s.wrapper.isStandaloneRibEnabled_ := by
  cases hflag : s.wrapper.isStandaloneRibEnabled_
  · cases hr : (backends.programLegacyRib s.wrapper.ribRoutesToAddDel_ s.backend).1 <;>
      simp [RouteUpdateWrapper.program, hflag, hr]
  · cases hr : (backends.programStandAloneRib s.wrapper.ribRoutesToAddDel_ s.backend).1 <;>
      simp [RouteUpdateWrapper.program, hflag, hr]

/-! ## `RouteUpdateWrapper::program`: the accumulator after a flush -/

theorem RouteUpdateWrapper.program_spec {β : Type} (backends : RibBackends β)
    (s : RouteProgrammer β) :
    (RouteUpdateWrapper.program backends s).2.wrapper.ribRoutesToAddDel_ =
      (if (RouteUpdateWrapper.program backends s).1 = true then []
       else s.wrapper.ribRoutesToAddDel_) ∧
    (RouteUpdateWrapper.program backends s).2.wrapper.isStandaloneRibEnabled_ =
      s.wrapper.isStandaloneRibEnabled_ ∧
    ∃ call : BackendCall,
      (RouteUpdateWrapper.program backends s).2.invoked = s.invoked ++ [call] ∧
      call.batches = s.wrapper.ribRoutesToAddDel_ := by
  cases hflag : s.wrapper.isStandaloneRibEnabled_
  · cases hr : (backends.programLegacyRib s.wrapper.ribRoutesToAddDel_ s.backend).1 <;>
      simp [RouteUpdateWrapper.program, hflag, hr, BackendCall.batches]
  · cases hr : (backends.programStandAloneRib s.wrapper.ribRoutesToAddDel_ s.backend).1 <;>
      simp [RouteUpdateWrapper.program, hflag, hr, BackendCall.batches]

/-- C21: for the accumulator built by any sequence of `addRoute` and `delRoute` calls, and
any backends: after `program()` the accumulator is empty when it returned and exactly
what it was when it threw; and the one backend invocation made by a second `program()`
right after a first one that returned is given empty batches, so nothing queued before is
delivered again. -/
theorem program_clears_accumulator_on_success {β : Type} (backends : RibBackends β)
    (isStandaloneRibEnabled : Bool) (updates : List RouteUpdate) (backend : β)
    (invoked : List BackendCall) :
    (RouteUpdateWrapper.program backends
      ⟨(RouteUpdateWrapper.new isStandaloneRibEnabled).applyAll updates, backend,
        invoked⟩).2.wrapper.ribRoutesToAddDel_ =
      (if (RouteUpdateWrapper.program backends
          ⟨(RouteUpdateWrapper.new isStandaloneRibEnabled).applyAll updates, backend,
            invoked⟩).1 = true then []
       else ((RouteUpdateWrapper.new isStandaloneRibEnabled).applyAll
          updates).ribRoutesToAddDel_) ∧
    ((RouteUpdateWrapper.program backends
      (RouteUpdateWrapper.program backends
        ⟨(RouteUpdateWrapper.new isStandaloneRibEnabled).applyAll updates, backend,
          invoked⟩).2).2.invoked.drop
        (RouteUpdateWrapper.program backends
          ⟨(RouteUpdateWrapper.new isStandaloneRibEnabled).applyAll updates, backend,
            invoked⟩).2.invoked.length).map BackendCall.batches =
      [if (RouteUpdateWrapper.program backends
          ⟨(RouteUpdateWrapper.new isStandaloneRibEnabled).applyAll updates, backend,
            invoked⟩).1 = true then []
       else ((RouteUpdateWrapper.new isStandaloneRibEnabled).applyAll
          updates).ribRoutesToAddDel_] := by
  obtain ⟨h1, -, -⟩ := RouteUpdateWrapper.program_spec backends
    ⟨(RouteUpdateWrapper.new isStandaloneRibEnabled).applyAll updates, backend, invoked⟩
  obtain ⟨-, -, call, h2, h3⟩ := RouteUpdateWrapper.program_spec backends
    (RouteUpdateWrapper.program backends
      ⟨(RouteUpdateWrapper.new isStandaloneRibEnabled).applyAll updates, backend, invoked⟩).2
  refine ⟨h1, ?_⟩
  rw [h2, List.drop_left, List.map_singleton, h3, h1]

/-! ## `findTrunk` -/

/-- C23: `findTrunk` makes one `bcm_trunk_find`; it returns no value exactly when that
call returns `BCM_E_NOT_FOUND`, throws for every other failure code, and otherwise
returns the trunk id the driver reported. -/
theorem findTrunk_result (sdk : BcmSdk σ) (modid : bcm_module_t) (port : bcm_port_t)
    (m : Machine σ) :
    (findTrunk sdk modid port m).completion =
      (if (sdk.bcm_trunk_find m.sdk modid port).1 = BCM_E_NOT_FOUND then .returned none
       else if BCM_FAILURE (sdk.bcm_trunk_find m.sdk modid port).1 = true then
         .threw ⟨(sdk.bcm_trunk_find m.sdk modid port).1⟩
       else .returned (some (sdk.bcm_trunk_find m.sdk modid port).2.1)) ∧
    ((findTrunk sdk modid port m).completion = .returned none ↔
      (sdk.bcm_trunk_find m.sdk modid port).1 = BCM_E_NOT_FOUND) ∧
    issuedSince m.calls (findTrunk sdk modid port m).machine.calls =
      [SdkCall.trunk_find modid port] := by
  by_cases hnf : (sdk.bcm_trunk_find m.sdk modid port).1 = BCM_E_NOT_FOUND
  · simp [findTrunk, hnf, issuedSince, Machine.record]
  · cases hf : BCM_FAILURE (sdk.bcm_trunk_find m.sdk modid port).1 <;>
      simp [findTrunk, hnf, hf, bcmCheckError, issuedSince, Machine.record]

/-! ## `init`, fresh branch: bounds of the member array -/

/-- C26 (defect in the code): aggregate port 7 with subports 1 Enabled, 2 Disabled and
3 Enabled, no warm-boot match. The member array has `forwardingSubportCount() = 2`
elements; subport 1 is stored at index 0, but subport 3 is stored at `it.index = 2`, which
is not smaller than 2: `init` indexes the array out of bounds. -/
theorem init_fresh_index_not_below_count :
    (AggregatePort.mk 7 "po1" [(1, Forwarding.ENABLED), (2, Forwarding.DISABLED),
      (3, Forwarding.ENABLED)]).forwardingSubportCount = 2 ∧
    (init demoHw simSdk ⟨7, "po1", [(1, Forwarding.ENABLED), (2, Forwarding.DISABLED),
      (3, Forwarding.ENABLED)]⟩ (Machine.start SimSdk.empty ⟨[]⟩)).completion =
      .outOfBounds 2 2 ∧
    ¬ (2 < (AggregatePort.mk 7 "po1" [(1, Forwarding.ENABLED), (2, Forwarding.DISABLED),
      (3, Forwarding.ENABLED)]).forwardingSubportCount) := by
  decide

/-! ## `init`, warm-boot branch: running it twice -/

theorem BcmTrunk.eq_of_fields (a b : BcmTrunk) (h1 : a.bcmTrunkID_ = b.bcmTrunkID_)
    (h2 : a.trunkStats_.aggregatePortID = b.trunkStats_.aggregatePortID)
    (h3 : a.trunkStats_.trunkName = b.trunkStats_.trunkName)
    (h4 : a.trunkStats_.memberPortIDs = b.trunkStats_.memberPortIDs) : a = b := by
  obtain ⟨i, ⟨a1, n1, s1⟩⟩ := a
  obtain ⟨j, ⟨a2, n2, s2⟩⟩ := b
  simp_all

/-- The second of two `init` runs when the warm-boot cache still holds the entry: if the
first run finds the aggregate port in the cache and its `bcm_trunk_get` succeeds, the
cache after the first run still holds that entry and the driver reports the same return
code and member list again, then the second run returns, leaves the `BcmTrunk` object as
the first run left it and issues one `bcm_trunk_get` and nothing else. -/
theorem init_warm_twice_of_retained (hw : BcmSwitchIf) (sdk : BcmSdk σ)
    (aggPort : AggregatePort) (m : Machine σ) (foundTrunk : AggregatePortID × bcm_trunk_t)
    (hfind : m.warmBootCache.trunks.find? (fun trunk => decide (aggPort.getID = trunk.1)) =
      some foundTrunk)
    (hget : BCM_FAILURE (sdk.bcm_trunk_get m.sdk foundTrunk.2
      aggPort.forwardingSubportCount).1 = false)
    (hsame : (init hw sdk aggPort m).machine.warmBootCache.trunks.find?
      (fun trunk => decide (aggPort.getID = trunk.1)) = some foundTrunk)
    (hrv : (sdk.bcm_trunk_get (init hw sdk aggPort m).machine.sdk foundTrunk.2
        aggPort.forwardingSubportCount).1 =
      (sdk.bcm_trunk_get m.sdk foundTrunk.2 aggPort.forwardingSubportCount).1)
    (hlive : (sdk.bcm_trunk_get (init hw sdk aggPort m).machine.sdk foundTrunk.2
        aggPort.forwardingSubportCount).2.1 =
      (sdk.bcm_trunk_get m.sdk foundTrunk.2 aggPort.forwardingSubportCount).2.1) :
    (init hw sdk aggPort m).completion = .returned () ∧
    (init hw sdk aggPort (init hw sdk aggPort m).machine).completion = .returned () ∧
    (init hw sdk aggPort (init hw sdk aggPort m).machine).machine.trunk =
      (init hw sdk aggPort m).machine.trunk ∧
    (init hw sdk aggPort (init hw sdk aggPort m).machine).machine.trunk.bcmTrunkID_ =
      foundTrunk.2 ∧
    (init hw sdk aggPort (init hw sdk aggPort m).machine).machine.granted =
      (init hw sdk aggPort m).machine.granted ∧
    issuedSince (init hw sdk aggPort m).machine.calls
      (init hw sdk aggPort (init hw sdk aggPort m).machine).machine.calls =
        [SdkCall.trunk_get foundTrunk.2 aggPort.forwardingSubportCount] ∧
    (∀ c ∈ issuedSince (init hw sdk aggPort m).machine.calls
        (init hw sdk aggPort (init hw sdk aggPort m).machine).machine.calls,
      c.isTrunkCreate = false ∧ c.isTrunkSet = false) := by
  have hget2 : BCM_FAILURE (sdk.bcm_trunk_get (init hw sdk aggPort m).machine.sdk foundTrunk.2
      aggPort.forwardingSubportCount).1 = false := by rw [hrv]; exact hget
  obtain ⟨hc1, -, hid1, -, hg1⟩ := init_warm hw sdk aggPort m foundTrunk hfind
  obtain ⟨hc2, hcalls2, hid2, -, hg2⟩ :=
    init_warm hw sdk aggPort (init hw sdk aggPort m).machine foundTrunk hsame
  obtain ⟨ha1, hn1, -, -⟩ := init_warm_adoption hw sdk aggPort m foundTrunk hfind hget
  obtain ⟨ha2, hn2, -, -⟩ :=
    init_warm_adoption hw sdk aggPort (init hw sdk aggPort m).machine foundTrunk hsame hget2
  have hgranted : (init hw sdk aggPort (init hw sdk aggPort m).machine).machine.granted =
      (init hw sdk aggPort m).machine.granted := by
    ext p
    rw [hg2 hget2 p, hlive]
    constructor
    · rintro (h | h)
      · exact h
      · exact (hg1 hget p).mpr (Or.inr h)
    · exact Or.inl
  have hissued : issuedSince (init hw sdk aggPort m).machine.calls
      (init hw sdk aggPort (init hw sdk aggPort m).machine).machine.calls =
        [SdkCall.trunk_get foundTrunk.2 aggPort.forwardingSubportCount] := by
    rw [hcalls2, issuedSince_append]
  refine ⟨?_, ?_, ?_, hid2, hgranted, hissued, ?_⟩
  · rw [hc1]; simp [hget]
  · rw [hc2]; simp [hget2]
  · exact BcmTrunk.eq_of_fields _ _ (hid2.trans hid1.symm) (ha2.trans ha1.symm)
      (hn2.trans hn1.symm) hgranted
  · intro c hc
    rw [hissued] at hc
    rw [List.mem_singleton.mp hc]
    exact ⟨rfl, rfl⟩

/-! ## The LAG API exercised by `LagApiTest.cpp` -/

theorem LagApiTest.TestApi_passes : LagApiTest.TestApi FakeSai.getInstance = some true := by
  decide

theorem mem_foldl_insert (x : LagMemberSaiId) (members : List sai_object_id_t) :
    ∀ s : Finset LagMemberSaiId,
      x ∈ members.foldl (fun s id => insert id s) s ↔ x ∈ s ∨ x ∈ members := by
  induction members with
  | nil => intro s; simp
  | cons a rest ih =>
    intro s
    rw [List.foldl_cons, ih (insert a s)]
    simp only [Finset.mem_insert, List.mem_cons]
    tauto

theorem LagApiTest.hasLagMember_eq (fs : FakeSai) (lag : LagSaiId) (x : LagMemberSaiId) :
    LagApiTest.hasLagMember fs lag x =
      if fs.lagManagerExists lag = true then
        some (decide (∃ y ∈ fs.lagMembers, y.lagId = lag ∧ y.id = x))
      else none := by
  unfold LagApiTest.hasLagMember LagApiTest.getMembers LagApi.getPortList
  by_cases h : fs.lagManagerExists lag = true
  · simp only [if_pos h]
    congr 1
    apply decide_eq_decide.mpr
    rw [mem_foldl_insert]
    simp [List.mem_map, List.mem_filter, and_assoc]
  · simp only [if_neg h]

theorem LagApi.getLabel_setLabel (lag : LagSaiId) (data : List Char) (lags : List FakeLag)
    (h : lags.any (fun l => decide (l.id = lag)) = true) :
    ((lags.map (fun l => if l.id = lag then { l with label := data } else l)).find?
      (fun l => decide (l.id = lag))).map FakeLag.label = some data := by
  induction lags with
  | nil => simp at h
  | cons a rest ih =>
    by_cases ha : a.id = lag
    · simp [List.find?_cons, ha]
    · have hrest : rest.any (fun l => decide (l.id = lag)) = true := by
        simpa [List.any_cons, ha] using h
      simpa [List.find?_cons, ha] using ih hrest

theorem LagApi.getLabel_setLabel_other (lag other : LagSaiId) (data : List Char)
    (hne : other ≠ lag) (lags : List FakeLag) :
    ((lags.map (fun l => if l.id = lag then { l with label := data } else l)).find?
      (fun l => decide (l.id = other))).map FakeLag.label =
    (lags.find? (fun l => decide (l.id = other))).map FakeLag.label := by
  induction lags with
  | nil => rfl
  | cons a rest ih =>
    by_cases ha : a.id = lag
    · have hao : ¬ a.id = other := fun h => hne (h.symm.trans ha)
      have hlo : ¬ lag = other := fun h => hne h.symm
      simpa [List.find?_cons, ha, hao, hlo] using ih
    · by_cases hao : a.id = other
      · subst hao
        simp [List.find?_cons, ha]
      · simpa [List.find?_cons, ha, hao] using ih

theorem takeWhile_before_NUL (l rest : List Char) (h : NUL ∉ l) :
    (l ++ NUL :: rest).takeWhile (fun c => !decide (c = NUL)) = l := by
  induction l with
  | nil => simp [List.takeWhile]
  | cons a l ih =>
    have ha : ¬ a = NUL := fun e => h (by simp [e])
    have hl : NUL ∉ l := fun e => h (List.mem_cons_of_mem _ e)
    simp [List.takeWhile_cons, ha, ih hl]

theorem LagApiTest.cString_labelData (label : String) (hlen : label.length < 32)
    (hnul : NUL ∉ label.toList) :
    LagApiTest.labelData label =
      some (label.toList ++ List.replicate (32 - label.length) NUL) ∧
    LagApiTest.cString (label.toList ++ List.replicate (32 - label.length) NUL) =
      some label := by
  obtain ⟨k, hk⟩ : ∃ k, 32 - label.length = k + 1 := ⟨31 - label.length, by omega⟩
  refine ⟨by simp [LagApiTest.labelData, Nat.le_of_lt hlen], ?_⟩
  rw [hk, List.replicate_succ]
  have hmem : NUL ∈ label.toList ++ NUL :: List.replicate k NUL := by simp
  rw [LagApiTest.cString, if_pos hmem, takeWhile_before_NUL _ _ hnul]
  rfl

/-- C24: the LAG API as the test uses it, from any state of the fake SAI. Two successive
`createLag()` calls return distinct ids and both LAGs exist afterwards. Creating a member
for an existing LAG succeeds; the new member is in that LAG's port list, the members that
were in it stay, and the port list of every other LAG is unchanged. Removing a member that
is in a LAG's port list succeeds; afterwards it is not in that port list, and every other
member id is in a port list exactly when it was before. -/
theorem lag_api_create_member_remove (fs : FakeSai) :
    ((LagApiTest.createLag fs).1 ≠ (LagApiTest.createLag (LagApiTest.createLag fs).2).1 ∧
      LagApiTest.hasLag (LagApiTest.createLag (LagApiTest.createLag fs).2).2
        (LagApiTest.createLag fs).1 = true ∧
      LagApiTest.hasLag (LagApiTest.createLag (LagApiTest.createLag fs).2).2
        (LagApiTest.createLag (LagApiTest.createLag fs).2).1 = true) ∧
    (∀ lag port, LagApiTest.hasLag fs lag = true →
      ∃ mem fs', LagApiTest.createLagMember fs lag port = some (mem, fs') ∧
        LagApiTest.hasLagMember fs' lag mem = some true ∧
        (∀ x, LagApiTest.hasLagMember fs lag x = some true →
          LagApiTest.hasLagMember fs' lag x = some true) ∧
        (∀ other, other ≠ lag →
          LagApiTest.getMembers fs' other = LagApiTest.getMembers fs other)) ∧
    (∀ lag mem, LagApiTest.hasLagMember fs lag mem = some true →
      ∃ fs', LagApiTest.removeLagMember fs mem = some fs' ∧
        LagApiTest.hasLagMember fs' lag mem = some false ∧
        (∀ lag2 x, x ≠ mem →
          LagApiTest.hasLagMember fs' lag2 x = LagApiTest.hasLagMember fs lag2 x)) := by
  refine ⟨⟨?_, ?_, ?_⟩, ?_, ?_⟩
  · simp [LagApiTest.createLag, LagApi.createLag]
  · simp [LagApiTest.createLag, LagApi.createLag, LagApiTest.hasLag, FakeSai.lagManagerExists]
  · simp [LagApiTest.createLag, LagApi.createLag, LagApiTest.hasLag, FakeSai.lagManagerExists]
  · intro lag port hlag
    have hex : fs.lagManagerExists lag = true := hlag
    refine ⟨fs.nextLagMemberId,
      { fs with nextLagMemberId := fs.nextLagMemberId + 1,
                lagMembers := fs.lagMembers ++ [⟨fs.nextLagMemberId, lag, port⟩] }, ?_, ?_, ?_, ?_⟩
    · simp [LagApiTest.createLagMember, LagApi.createLagMember, hex]
    · rw [LagApiTest.hasLagMember_eq]
      have hex2 : FakeSai.lagManagerExists
          { fs with nextLagMemberId := fs.nextLagMemberId + 1,
                    lagMembers := fs.lagMembers ++ [⟨fs.nextLagMemberId, lag, port⟩] } lag = true := hex
      simp only [hex2, if_true, Option.some.injEq, decide_eq_true_eq]
      exact ⟨⟨fs.nextLagMemberId, lag, port⟩, by simp, rfl, rfl⟩
    · intro x hx
      rw [LagApiTest.hasLagMember_eq] at hx ⊢
      have hex2 : FakeSai.lagManagerExists
          { fs with nextLagMemberId := fs.nextLagMemberId + 1,
                    lagMembers := fs.lagMembers ++ [⟨fs.nextLagMemberId, lag, port⟩] } lag = true := hex
      simp only [hex, hex2, if_true, Option.some.injEq, decide_eq_true_eq] at hx ⊢
      obtain ⟨y, hy, h1, h2⟩ := hx
      exact ⟨y, List.mem_append_left _ hy, h1, h2⟩
    · intro other hne
      have hne2 : ¬ lag = other := fun e => hne e.symm
      simp [LagApiTest.getMembers, LagApi.getPortList, FakeSai.lagManagerExists,
        List.filter_append, hne2]
  · intro lag mem hmem
    rw [LagApiTest.hasLagMember_eq] at hmem
    by_cases hex : fs.lagManagerExists lag = true
    · simp only [hex, if_true, Option.some.injEq, decide_eq_true_eq] at hmem
      obtain ⟨y, hy, h1, h2⟩ := hmem
      have hany : fs.lagMembers.any (fun x => decide (x.id = mem)) = true :=
        List.any_eq_true.mpr ⟨y, hy, by simp [h2]⟩
      refine ⟨{ fs with lagMembers := fs.lagMembers.filter (fun x => !decide (x.id = mem)) },
        ?_, ?_, ?_⟩
      · simp [LagApiTest.removeLagMember, LagApi.removeLagMember, hany]
      · rw [LagApiTest.hasLagMember_eq]
        have hex2 : FakeSai.lagManagerExists
            { fs with lagMembers := fs.lagMembers.filter (fun x => !decide (x.id = mem)) }
            lag = true := hex
        simp only [hex2, if_true, Option.some.injEq, decide_eq_false_iff_not]
        rintro ⟨z, hz, -, hz2⟩
        simp [List.mem_filter, hz2] at hz
      · intro lag2 x hx
        rw [LagApiTest.hasLagMember_eq, LagApiTest.hasLagMember_eq]
        have hex2 : FakeSai.lagManagerExists
            { fs with lagMembers := fs.lagMembers.filter (fun x => !decide (x.id = mem)) }
            lag2 = fs.lagManagerExists lag2 := rfl
        rw [hex2]
        by_cases h2 : fs.lagManagerExists lag2 = true
        · simp only [h2, if_true, Option.some.injEq]
          apply decide_eq_decide.mpr
          constructor
          · rintro ⟨z, hz, a, b⟩
            exact ⟨z, (List.mem_filter.mp hz).1, a, b⟩
          · rintro ⟨z, hz, a, b⟩
            refine ⟨z, List.mem_filter.mpr ⟨hz, ?_⟩, a, b⟩
            have : ¬ z.id = mem := fun e => hx (b.symm.trans e)
            simp [this]
        · simp [h2]
    · simp [hex] at hmem

/-- Witness for C24: LAG 1 exists after the two `createLag()` calls of `TestApi` and gets a
member; member 1 of LAG 1 is removed from the state in which LAG 1 has members 1 and 2. -/
theorem lag_api_create_member_remove_witness :
    LagApiTest.hasLag LagApiTest.twoLags 1 = true ∧
    (∃ mem fs', LagApiTest.createLagMember LagApiTest.twoLags 1 1 = some (mem, fs') ∧
        LagApiTest.hasLagMember fs' 1 mem = some true ∧
        (∀ x, LagApiTest.hasLagMember LagApiTest.twoLags 1 x = some true →
          LagApiTest.hasLagMember fs' 1 x = some true) ∧
        (∀ other, other ≠ 1 →
          LagApiTest.getMembers fs' other = LagApiTest.getMembers LagApiTest.twoLags other)) ∧
    LagApiTest.hasLagMember LagApiTest.twoMembers 1 1 = some true ∧
    (∃ fs', LagApiTest.removeLagMember LagApiTest.twoMembers 1 = some fs' ∧
        LagApiTest.hasLagMember fs' 1 1 = some false ∧
        (∀ lag2 x, x ≠ 1 →
          LagApiTest.hasLagMember fs' lag2 x =
            LagApiTest.hasLagMember LagApiTest.twoMembers lag2 x)) :=
  ⟨by decide, (lag_api_create_member_remove LagApiTest.twoLags).2.1 1 1 (by decide),
    by decide, (lag_api_create_member_remove LagApiTest.twoMembers).2.2 1 1 (by decide)⟩

/-- C25: for a LAG that exists and a label of fewer than 32 characters none of which is
NUL, `setLabel` succeeds and stores the label followed by NULs up to 32 characters; the
string `checkLabel` then builds from the label attribute (the characters before the first
NUL) is the original label, so its expectation holds; and the label attribute of every
other LAG is what it was before. -/
theorem setLabel_checkLabel_round_trip (fs : FakeSai) (lag : LagSaiId) (label : String)
    (hlag : LagApiTest.hasLag fs lag = true) (hlen : label.length < 32)
    (hnul : NUL ∉ label.toList) :
    ∃ fs', LagApiTest.setLabel fs lag label = some fs' ∧
      LagApi.getLabel fs' lag =
        some (label.toList ++ List.replicate (32 - label.length) NUL) ∧
      LagApiTest.labelValue fs' lag = some label ∧
      LagApiTest.checkLabel fs' lag label = some true ∧
      (∀ other, other ≠ lag → LagApi.getLabel fs' other = LagApi.getLabel fs other) := by
  obtain ⟨hdata, hstr⟩ := LagApiTest.cString_labelData label hlen hnul
  have hex : fs.lagManagerExists lag = true := hlag
  have hget : LagApi.getLabel
      { fs with lags := fs.lags.map (fun l =>
          if l.id = lag then
            { l with label := label.toList ++ List.replicate (32 - label.length) NUL }
          else l) } lag =
      some (label.toList ++ List.replicate (32 - label.length) NUL) :=
    LagApi.getLabel_setLabel lag _ fs.lags hex
  have hvalue : LagApiTest.labelValue
      { fs with lags := fs.lags.map (fun l =>
          if l.id = lag then
            { l with label := label.toList ++ List.replicate (32 - label.length) NUL }
          else l) } lag = some label := by
    rw [LagApiTest.labelValue, hget]
    exact hstr
  refine ⟨_, ?_, hget, hvalue, ?_, ?_⟩
  · rw [LagApiTest.setLabel, hdata]
    simp only [LagApi.setLabel, hex, if_true]
  · rw [LagApiTest.checkLabel, hvalue]
    simp
  · intro other hne
    exact LagApi.getLabel_setLabel_other lag other _ hne fs.lags

/-- Witness for C25: the label "id0" set on LAG 1 after the two `createLag()` calls of
`TestApi`. -/
theorem setLabel_checkLabel_round_trip_witness :
    LagApiTest.hasLag LagApiTest.twoLags 1 = true ∧ "id0".length < 32 ∧
    NUL ∉ "id0".toList ∧
    ∃ fs', LagApiTest.setLabel LagApiTest.twoLags 1 "id0" = some fs' ∧
      LagApi.getLabel fs' 1 = some ("id0".toList ++ List.replicate (32 - "id0".length) NUL) ∧
      LagApiTest.labelValue fs' 1 = some "id0" ∧
      LagApiTest.checkLabel fs' 1 "id0" = some true ∧
      (∀ other, other ≠ 1 →
        LagApi.getLabel fs' other = LagApi.getLabel LagApiTest.twoLags other) :=
  ⟨by decide, by decide, by decide,
    setLabel_checkLabel_round_trip LagApiTest.twoLags 1 "id0" (by decide) (by decide)
      (by decide)⟩

/-! ## `program`: the granted set when a call is answered NOT_FOUND, and the scenario with
the Disabled subport first -/

/-- C3 (defect in the code): two inputs. (General part) Trunk 5 holds gports 1001 and
1002 and ports 1 and 2 are granted; the emergency shrink removes port 1 from hardware;
`program` with port 1 going Enabled to Disabled and port 2 unchanged then returns
normally, port 1 is the only port that went Enabled to Disabled and none went Disabled to
Enabled, yet the granted set is still {1, 2} and not the previous set minus port 1:
`modifyMemberPort` returned on `BCM_E_NOT_FOUND` before `revokeMembership`. (Scenario)
With A = port 2 Enabled and B = port 1 Disabled, so that B is iterated first, the fresh
`init` stores A at index 1 of a one-element array and ends out of bounds after
`bcm_trunk_create`: the group of the scenario is not created. -/
theorem program_granted_set_not_updated_on_not_found :
    ((program demoHw simSdk ⟨7, "po1", [(1, Forwarding.ENABLED), (2, Forwarding.ENABLED)]⟩
        ⟨7, "po1", [(1, Forwarding.DISABLED), (2, Forwarding.ENABLED)]⟩
        (shrinkTrunkGroupHwNotLocked simSdk 5 1
          (Machine.onTrunk5 [1001, 1002] {1, 2})).machine).completion = .returned () ∧
      (shrinkTrunkGroupHwNotLocked simSdk 5 1
        (Machine.onTrunk5 [1001, 1002] {1, 2})).machine.granted = {1, 2} ∧
      wentDisabled [(1, Forwarding.ENABLED), (2, Forwarding.ENABLED)]
        [(1, Forwarding.DISABLED), (2, Forwarding.ENABLED)] = {1} ∧
      wentEnabled [(1, Forwarding.ENABLED), (2, Forwarding.ENABLED)]
        [(1, Forwarding.DISABLED), (2, Forwarding.ENABLED)] = ∅ ∧
      (program demoHw simSdk ⟨7, "po1", [(1, Forwarding.ENABLED), (2, Forwarding.ENABLED)]⟩
        ⟨7, "po1", [(1, Forwarding.DISABLED), (2, Forwarding.ENABLED)]⟩
        (shrinkTrunkGroupHwNotLocked simSdk 5 1
          (Machine.onTrunk5 [1001, 1002] {1, 2})).machine).machine.granted = {1, 2} ∧
      (program demoHw simSdk ⟨7, "po1", [(1, Forwarding.ENABLED), (2, Forwarding.ENABLED)]⟩
        ⟨7, "po1", [(1, Forwarding.DISABLED), (2, Forwarding.ENABLED)]⟩
        (shrinkTrunkGroupHwNotLocked simSdk 5 1
          (Machine.onTrunk5 [1001, 1002] {1, 2})).machine).machine.granted ≠
        ((shrinkTrunkGroupHwNotLocked simSdk 5 1
            (Machine.onTrunk5 [1001, 1002] {1, 2})).machine.granted \
          wentDisabled [(1, Forwarding.ENABLED), (2, Forwarding.ENABLED)]
            [(1, Forwarding.DISABLED), (2, Forwarding.ENABLED)]) ∪
        wentEnabled [(1, Forwarding.ENABLED), (2, Forwarding.ENABLED)]
          [(1, Forwarding.DISABLED), (2, Forwarding.ENABLED)]) ∧
    ((init demoHw simSdk ⟨7, "po1", [(1, Forwarding.DISABLED), (2, Forwarding.ENABLED)]⟩
        (Machine.start SimSdk.empty ⟨[]⟩)).completion = .outOfBounds 1 1 ∧
      issuedSince (Machine.start SimSdk.empty ⟨[]⟩).calls
        (init demoHw simSdk ⟨7, "po1", [(1, Forwarding.DISABLED), (2, Forwarding.ENABLED)]⟩
          (Machine.start SimSdk.empty ⟨[]⟩)).machine.calls = [SdkCall.trunk_create 0] ∧
      (init demoHw simSdk ⟨7, "po1", [(1, Forwarding.DISABLED), (2, Forwarding.ENABLED)]⟩
        (Machine.start SimSdk.empty ⟨[]⟩)).machine.granted = ∅) := by
  decide

/-! ## The registry: creates and deletes for any interleaving -/

theorem RegistryOp.countAfter_other (x : LogicalIdentity) (k : Nat) (op : RegistryOp)
    (ha : op ≠ RegistryOp.acquire x) (hr : op ≠ RegistryOp.release x) :
    op.countAfter x k = k := by
  cases op with
  | acquire y =>
    have : ¬ y = x := fun h => ha (by rw [h])
    simp [RegistryOp.countAfter, this]
  | release y =>
    have : ¬ y = x := fun h => hr (by rw [h])
    simp [RegistryOp.countAfter, this]

theorem rises_falls_balance (x : LogicalIdentity) :
    ∀ (l : List RegistryOp) (c : Nat),
      (if c = 0 then 0 else 1) + rises x c l =
        falls x c l + (if l.foldl (fun k op => op.countAfter x k) c = 0 then 0 else 1) := by
  intro l
  induction l with
  | nil => intro c; simp [rises, falls]
  | cons op rest ih =>
    intro c
    have e3 : rises x c (op :: rest) =
        (if op = RegistryOp.acquire x ∧ c = 0 then 1 else 0) +
          rises x (op.countAfter x c) rest := rfl
    have e4 : falls x c (op :: rest) =
        (if op = RegistryOp.release x ∧ c = 1 then 1 else 0) +
          falls x (op.countAfter x c) rest := rfl
    have hih := ih (op.countAfter x c)
    rw [e3, e4, List.foldl_cons]
    by_cases ha : op = RegistryOp.acquire x
    · subst ha
      have hc : (RegistryOp.acquire x).countAfter x c = c + 1 := by simp [RegistryOp.countAfter]
      rw [hc] at hih ⊢
      have h1 : ¬ (RegistryOp.acquire x = RegistryOp.release x ∧ c = 1) := fun h => by
        cases h.1
      rw [if_neg h1]
      by_cases hz : c = 0
      · subst hz
        simp only [true_and, if_true] at hih ⊢
        simp only [Nat.zero_add] at hih ⊢
        simp only [if_neg (Nat.succ_ne_zero 0)] at hih
        omega
      · have h2 : ¬ (RegistryOp.acquire x = RegistryOp.acquire x ∧ c = 0) := fun h => hz h.2
        rw [if_neg h2, if_neg hz]
        rw [if_neg (Nat.succ_ne_zero c)] at hih
        omega
    · by_cases hr : op = RegistryOp.release x
      · subst hr
        have hc : (RegistryOp.release x).countAfter x c = c - 1 := by
          simp [RegistryOp.countAfter]
        rw [hc] at hih ⊢
        have h1 : ¬ (RegistryOp.release x = RegistryOp.acquire x ∧ c = 0) := fun h => by
          cases h.1
        rw [if_neg h1]
        by_cases hz : c = 0
        · subst hz
          have h2 : ¬ (RegistryOp.release x = RegistryOp.release x ∧ (0 : Nat) = 1) :=
            fun h => by cases h.2
          rw [if_neg h2]
          simpa using hih
        · by_cases h1c : c = 1
          · subst h1c
            have h3 : (RegistryOp.release x = RegistryOp.release x ∧ (1 : Nat) = 1) :=
              ⟨rfl, rfl⟩
            rw [if_pos h3, if_neg hz]
            simp only [Nat.sub_self, if_true] at hih ⊢
            omega
          · have h3 : ¬ (RegistryOp.release x = RegistryOp.release x ∧ c = 1) :=
              fun h => h1c h.2
            have h4 : ¬ c - 1 = 0 := by omega
            rw [if_neg h3, if_neg hz]
            rw [if_neg h4] at hih
            omega
      · have hc := RegistryOp.countAfter_other x c op ha hr
        rw [hc] at hih ⊢
        have h1 : ¬ (op = RegistryOp.acquire x ∧ c = 0) := fun h => ha h.1
        have h2 : ¬ (op = RegistryOp.release x ∧ c = 1) := fun h => hr h.1
        rw [if_neg h1, if_neg h2]
        omega

theorem count_take_cons (op : RegistryOp) (rest : List RegistryOp) (j : Nat)
    (o : RegistryOp) :
    ((op :: rest).take (j + 1)).count o = (rest.take j).count o + (if op = o then 1 else 0) := by
  rw [List.take_succ_cons, List.count_cons]
  by_cases h : op = o <;> simp [h]

theorem refs_of_releases_follow (x : LogicalIdentity) :
    ∀ (l : List RegistryOp) (c : Nat),
      (∀ j, j ≤ l.length → (l.take j).count (RegistryOp.release x) ≤
        c + (l.take j).count (RegistryOp.acquire x)) →
      l.foldl (fun k op => op.countAfter x k) c + l.count (RegistryOp.release x) =
        c + l.count (RegistryOp.acquire x) := by
  intro l
  induction l with
  | nil => intro c _; simp
  | cons op rest ih =>
    intro c h
    have h' : ∀ j, j ≤ rest.length →
        (rest.take j).count (RegistryOp.release x) +
            (if op = RegistryOp.release x then 1 else 0) ≤
          c + ((rest.take j).count (RegistryOp.acquire x) +
            (if op = RegistryOp.acquire x then 1 else 0)) := by
      intro j hj
      have := h (j + 1) (by simp only [List.length_cons]; omega)
      rwa [count_take_cons, count_take_cons] at this
    have hcr : (op :: rest).count (RegistryOp.release x) =
        rest.count (RegistryOp.release x) + (if op = RegistryOp.release x then 1 else 0) := by
      rw [List.count_cons]
      by_cases h : op = RegistryOp.release x <;> simp [h]
    have hca : (op :: rest).count (RegistryOp.acquire x) =
        rest.count (RegistryOp.acquire x) + (if op = RegistryOp.acquire x then 1 else 0) := by
      rw [List.count_cons]
      by_cases h : op = RegistryOp.acquire x <;> simp [h]
    rw [List.foldl_cons, hcr, hca]
    by_cases ha : op = RegistryOp.acquire x
    · subst ha
      have hne : ¬ RegistryOp.acquire x = RegistryOp.release x := fun h => by cases h
      have hc : (RegistryOp.acquire x).countAfter x c = c + 1 := by simp [RegistryOp.countAfter]
      simp only [hne, if_false, if_true, Nat.add_zero] at h' ⊢
      rw [hc]
      have := ih (c + 1) (fun j hj => by have := h' j hj; omega)
      omega
    · by_cases hr : op = RegistryOp.release x
      · subst hr
        have hne : ¬ RegistryOp.release x = RegistryOp.acquire x := fun h => by cases h
        have hc : (RegistryOp.release x).countAfter x c = c - 1 := by
          simp [RegistryOp.countAfter]
        simp only [hne, if_false, if_true, Nat.add_zero] at h' ⊢
        rw [hc]
        have h0 := h' 0 (Nat.zero_le _)
        simp only [List.take_zero, List.count_nil, Nat.zero_add, Nat.add_zero] at h0
        have := ih (c - 1) (fun j hj => by have := h' j hj; omega)
        omega
      · have hc := RegistryOp.countAfter_other x c op ha hr
        simp only [ha, hr, if_false, Nat.add_zero] at h' ⊢
        rw [hc]
        exact ih c h'

theorem rises_eq_zero_iff (x : LogicalIdentity) :
    ∀ (l : List RegistryOp) (c : Nat),
      (∀ o ∈ l, o = RegistryOp.acquire x ∨ o = RegistryOp.release x) →
      (∀ j, j ≤ l.length → (l.take j).count (RegistryOp.release x) ≤
        c + (l.take j).count (RegistryOp.acquire x)) →
      (rises x c l = 0 ↔
        ∀ j, j < l.length → (l.take j).count (RegistryOp.release x) <
          c + (l.take j).count (RegistryOp.acquire x)) := by
  intro l
  induction l with
  | nil => intro c _ _; simp [rises]
  | cons op rest ih =>
    intro c hmem h
    have h' : ∀ j, j ≤ rest.length →
        (rest.take j).count (RegistryOp.release x) +
            (if op = RegistryOp.release x then 1 else 0) ≤
          c + ((rest.take j).count (RegistryOp.acquire x) +
            (if op = RegistryOp.acquire x then 1 else 0)) := by
      intro j hj
      have := h (j + 1) (by simp only [List.length_cons]; omega)
      rwa [count_take_cons, count_take_cons] at this
    have hsplit : (∀ j, j < (op :: rest).length →
          ((op :: rest).take j).count (RegistryOp.release x) <
            c + ((op :: rest).take j).count (RegistryOp.acquire x)) ↔
        (0 < c ∧ ∀ j, j < rest.length →
          (rest.take j).count (RegistryOp.release x) +
              (if op = RegistryOp.release x then 1 else 0) <
            c + ((rest.take j).count (RegistryOp.acquire x) +
              (if op = RegistryOp.acquire x then 1 else 0))) := by
      constructor
      · intro hall
        refine ⟨by simpa using hall 0 (by simp), ?_⟩
        intro j hj
        have := hall (j + 1) (by simp only [List.length_cons]; omega)
        rwa [count_take_cons, count_take_cons] at this
      · rintro ⟨hc, hall⟩ j hj
        cases j with
        | zero => simpa using hc
        | succ i =>
          rw [count_take_cons, count_take_cons]
          exact hall i (by simp only [List.length_cons] at hj; omega)
    have e3 : rises x c (op :: rest) =
        (if op = RegistryOp.acquire x ∧ c = 0 then 1 else 0) +
          rises x (op.countAfter x c) rest := rfl
    have hmem' : ∀ o ∈ rest, o = RegistryOp.acquire x ∨ o = RegistryOp.release x :=
      fun o ho => hmem o (List.mem_cons_of_mem _ ho)
    rw [hsplit, e3]
    rcases hmem op (List.mem_cons_self _ _) with ha | hr
    · subst ha
      have hne : ¬ RegistryOp.acquire x = RegistryOp.release x := fun h => by cases h
      have hc : (RegistryOp.acquire x).countAfter x c = c + 1 := by simp [RegistryOp.countAfter]
      simp only [hne, if_false, if_true, Nat.add_zero, true_and] at h' ⊢
      rw [hc]
      have hih := ih (c + 1) hmem' (fun j hj => by have := h' j hj; omega)
      by_cases hz : c = 0
      · subst hz
        simp
      · rw [if_neg hz, Nat.zero_add, hih]
        constructor
        · intro hall
          exact ⟨by omega, fun j hj => by have := hall j hj; omega⟩
        · rintro ⟨-, hall⟩ j hj
          have := hall j hj
          omega
    · subst hr
      have hne : ¬ RegistryOp.release x = RegistryOp.acquire x := fun h => by cases h
      have hc : (RegistryOp.release x).countAfter x c = c - 1 := by simp [RegistryOp.countAfter]
      simp only [hne, if_false, if_true, Nat.add_zero, false_and] at h' ⊢
      rw [hc]
      have h0 := h' 0 (Nat.zero_le _)
      simp only [List.take_zero, List.count_nil, Nat.zero_add, Nat.add_zero] at h0
      have hih := ih (c - 1) hmem' (fun j hj => by have := h' j hj; omega)
      rw [Nat.zero_add, hih]
      constructor
      · intro hall
        exact ⟨by omega, fun j hj => by have := hall j hj; omega⟩
      · rintro ⟨-, hall⟩ j hj
        have := hall j hj
        omega

theorem mem_opsOn (x : LogicalIdentity) (ops : List RegistryOp) :
    ∀ o ∈ opsOn x ops, o = RegistryOp.acquire x ∨ o = RegistryOp.release x := by
  intro o ho
  simp only [opsOn, List.mem_filter, decide_eq_true_eq] at ho
  cases o with
  | acquire y => left; simpa [RegistryOp.identity] using ho.2
  | release y => right; simpa [RegistryOp.identity] using ho.2

/-- C19 (as amended): on a driver whose creates succeed, starting from the empty
registry, for every identity `x` and `n ≥ 1`: let the operations contain `n` acquisitions
and `n` releases of `x`, in any interleaving with each other and with operations on other
identities in which no release of `x` precedes its acquisition (in every prefix, releases
of `x` are at most as many as acquisitions). Then the driver creates for `x` are as many
as the driver deletes, at least one, and as many as the times the reference count of `x`
rises from zero; there is exactly one create and exactly one delete if and only if the
count does not return to zero before the last release (strictly between the first and the
last operation on `x`, releases are fewer than acquisitions), and two or more of each
otherwise; `x` has no entry at the end, and after any number `k` of the operations there
is at most one registry entry for `x`. -/
theorem registry_one_create_one_delete_iff
    (driverCreate : LogicalIdentity → Option HardwareHandle)
    (x : LogicalIdentity) (n : Nat) (ops : List RegistryOp) (k : Nat)
    (hcreate : ∀ y, (driverCreate y).isSome = true) (hn : 1 ≤ n)
    (hacq : (opsOn x ops).count (RegistryOp.acquire x) = n)
    (hrel : (opsOn x ops).count (RegistryOp.release x) = n)
    (horder : ∀ j, j ≤ (opsOn x ops).length →
      ((opsOn x ops).take j).count (RegistryOp.release x) ≤
        ((opsOn x ops).take j).count (RegistryOp.acquire x)) :
    createsOf x (Registry.empty.run driverCreate ops).driverEvents =
      deletesOf x (Registry.empty.run driverCreate ops).driverEvents ∧
    1 ≤ createsOf x (Registry.empty.run driverCreate ops).driverEvents ∧
    createsOf x (Registry.empty.run driverCreate ops).driverEvents = rises x 0 ops ∧
    ((createsOf x (Registry.empty.run driverCreate ops).driverEvents = 1 ∧
        deletesOf x (Registry.empty.run driverCreate ops).driverEvents = 1) ↔
      ∀ j, j < (opsOn x ops).length → 0 < j →
        ((opsOn x ops).take j).count (RegistryOp.release x) <
          ((opsOn x ops).take j).count (RegistryOp.acquire x)) ∧
    ((¬ ∀ j, j < (opsOn x ops).length → 0 < j →
        ((opsOn x ops).take j).count (RegistryOp.release x) <
          ((opsOn x ops).take j).count (RegistryOp.acquire x)) →
      2 ≤ createsOf x (Registry.empty.run driverCreate ops).driverEvents ∧
      2 ≤ deletesOf x (Registry.empty.run driverCreate ops).driverEvents) ∧
    (Registry.empty.run driverCreate ops).entriesOf x = 0 ∧
    (Registry.empty.run driverCreate (ops.take k)).entriesOf x ≤ 1 := by
  obtain ⟨hwf, hrefs, hcr, hdel⟩ :=
    Registry.run_spec driverCreate hcreate x ops Registry.empty Registry.empty_wf
  have hzero : Registry.empty.refs x = 0 := by simp [Registry.refs, Registry.lookup, Registry.empty]
  have hnil : createsOf x Registry.empty.driverEvents = 0 ∧
      deletesOf x Registry.empty.driverEvents = 0 := by
    simp [createsOf, deletesOf, Registry.empty]
  have hfr : rises x 0 ops = rises x 0 (opsOn x ops) := (rises_falls_filter x ops 0).1
  have hff : falls x 0 ops = falls x 0 (opsOn x ops) := (rises_falls_filter x ops 0).2
  have hfc : ops.foldl (fun k op => op.countAfter x k) 0 =
      (opsOn x ops).foldl (fun k op => op.countAfter x k) 0 := foldl_countAfter_filter x ops 0
  rw [hzero, hnil.1, Nat.zero_add] at hcr
  rw [hzero, hnil.2, Nat.zero_add] at hdel
  rw [hzero] at hrefs
  have hmem := mem_opsOn x ops
  have hend : (opsOn x ops).foldl (fun k op => op.countAfter x k) 0 = 0 := by
    have := refs_of_releases_follow x (opsOn x ops) 0
      (fun j hj => by have := horder j hj; omega)
    omega
  have hbal := rises_falls_balance x (opsOn x ops) 0
  rw [hend] at hbal
  simp only [if_true, Nat.zero_add, Nat.add_zero] at hbal
  have hprefix : (Registry.empty.run driverCreate (ops.take k)).entriesOf x ≤ 1 :=
    (Registry.entriesOf_le_one _
      (Registry.run_spec driverCreate hcreate x (ops.take k) Registry.empty
        Registry.empty_wf).1 x).1
  have hfinal : (Registry.empty.run driverCreate ops).entriesOf x = 0 := by
    apply (Registry.entriesOf_le_one _ hwf x).2
    rw [hrefs, hfc, hend]
  rw [hcr, hdel, hfr, hff, ← hbal]
  generalize opsOn x ops = l at hacq hrel horder hmem hbal hend ⊢
  cases l with
  | nil =>
    simp only [List.count_nil] at hacq
    omega
  | cons op rest =>
    have hop : op = RegistryOp.acquire x := by
      rcases hmem op (List.mem_cons_self _ _) with h | h
      · exact h
      · subst h
        have := horder 1 (by simp)
        simp at this
    subst hop
    have hne : ¬ RegistryOp.acquire x = RegistryOp.release x := fun h => by cases h
    have e3 : rises x 0 (RegistryOp.acquire x :: rest) =
        (if RegistryOp.acquire x = RegistryOp.acquire x ∧ (0 : Nat) = 0 then 1 else 0) +
          rises x ((RegistryOp.acquire x).countAfter x 0) rest := rfl
    have hc : (RegistryOp.acquire x).countAfter x 0 = 1 := by simp [RegistryOp.countAfter]
    have hone : rises x 0 (RegistryOp.acquire x :: rest) = 1 + rises x 1 rest := by
      rw [e3, hc]
      simp
    have horder' : ∀ j, j ≤ rest.length → (rest.take j).count (RegistryOp.release x) ≤
        1 + (rest.take j).count (RegistryOp.acquire x) := by
      intro j hj
      have := horder (j + 1) (by simp only [List.length_cons]; omega)
      rw [count_take_cons, count_take_cons] at this
      simp only [hne, if_false, if_true, Nat.add_zero] at this
      omega
    have hiff := rises_eq_zero_iff x rest 1
      (fun o ho => hmem o (List.mem_cons_of_mem _ ho)) horder'
    have hZ : (∀ j, j < (RegistryOp.acquire x :: rest).length → 0 < j →
          ((RegistryOp.acquire x :: rest).take j).count (RegistryOp.release x) <
            ((RegistryOp.acquire x :: rest).take j).count (RegistryOp.acquire x)) ↔
        ∀ j, j < rest.length → (rest.take j).count (RegistryOp.release x) <
          1 + (rest.take j).count (RegistryOp.acquire x) := by
      constructor
      · intro hall j hj
        have := hall (j + 1) (by simp only [List.length_cons]; omega) (Nat.succ_pos j)
        rw [count_take_cons, count_take_cons] at this
        simp only [hne, if_false, if_true, Nat.add_zero] at this
        omega
      · intro hall j hj hpos
        cases j with
        | zero => omega
        | succ i =>
          rw [count_take_cons, count_take_cons]
          simp only [hne, if_false, if_true, Nat.add_zero]
          have := hall i (by simp only [List.length_cons] at hj; omega)
          omega
    rw [hZ, ← hiff, hone]
    refine ⟨rfl, by omega, rfl, ?_, ?_, hfinal, hprefix⟩
    · constructor
      · intro h; omega
      · intro h; omega
    · intro h
      omega

/-- Witness for C19 as amended: three holders of identity 1 and one holder of identity 2;
the third acquisition of identity 1 comes after its first release, while two references
are still outstanding. -/
theorem registry_one_create_one_delete_iff_witness :
    (∀ y : LogicalIdentity, ((fun x : LogicalIdentity => some (x + 100)) y).isSome = true) ∧
    (opsOn 1 [RegistryOp.acquire 1, RegistryOp.acquire 2, RegistryOp.acquire 1,
      RegistryOp.release 1, RegistryOp.acquire 1, RegistryOp.release 2, RegistryOp.release 1,
      RegistryOp.release 1]).count (RegistryOp.acquire 1) = 3 ∧
    (opsOn 1 [RegistryOp.acquire 1, RegistryOp.acquire 2, RegistryOp.acquire 1,
      RegistryOp.release 1, RegistryOp.acquire 1, RegistryOp.release 2, RegistryOp.release 1,
      RegistryOp.release 1]).count (RegistryOp.release 1) = 3 ∧
    createsOf 1 (Registry.empty.run (fun x => some (x + 100))
      [RegistryOp.acquire 1, RegistryOp.acquire 2, RegistryOp.acquire 1,
        RegistryOp.release 1, RegistryOp.acquire 1, RegistryOp.release 2, RegistryOp.release 1,
        RegistryOp.release 1]).driverEvents = 1 ∧
    deletesOf 1 (Registry.empty.run (fun x => some (x + 100))
      [RegistryOp.acquire 1, RegistryOp.acquire 2, RegistryOp.acquire 1,
        RegistryOp.release 1, RegistryOp.acquire 1, RegistryOp.release 2, RegistryOp.release 1,
        RegistryOp.release 1]).driverEvents = 1 :=
  ⟨fun _ => rfl, by decide, by decide,
    (registry_one_create_one_delete_iff (fun x => some (x + 100)) 1 3
      [RegistryOp.acquire 1, RegistryOp.acquire 2, RegistryOp.acquire 1,
        RegistryOp.release 1, RegistryOp.acquire 1, RegistryOp.release 2, RegistryOp.release 1,
        RegistryOp.release 1] 4 (fun _ => rfl) (by decide) (by decide) (by decide)
      (by decide)).2.2.2.1.mpr (by decide)⟩

/-! ## `init` run twice for the same aggregate port -/

/-- C22 (counterexample): aggregate port 7 with subports 1 and 2 Enabled; the warm-boot
cache maps it to trunk 5, which holds both gports in hardware; the cache drops an entry
once it is programmed. The first `init` adopts trunk 5 with one `bcm_trunk_get` and
leaves the cache empty. The second `init` finds no entry and takes the fresh branch: it
issues `bcm_trunk_create` and `bcm_trunk_set`, the object is now bound to the new trunk 6
and the hardware holds trunks 5 and 6. -/
theorem init_twice_second_run_creates_trunk :
    (init demoHw simSdk ⟨7, "po1", [(1, Forwarding.ENABLED), (2, Forwarding.ENABLED)]⟩
      (Machine.warmStart 5 [1001, 1002])).completion = .returned () ∧
    (init demoHw simSdk ⟨7, "po1", [(1, Forwarding.ENABLED), (2, Forwarding.ENABLED)]⟩
      (Machine.warmStart 5 [1001, 1002])).machine.calls = [SdkCall.trunk_get 5 2] ∧
    (init demoHw simSdk ⟨7, "po1", [(1, Forwarding.ENABLED), (2, Forwarding.ENABLED)]⟩
      (Machine.warmStart 5 [1001, 1002])).machine.trunk.bcmTrunkID_ = 5 ∧
    (init demoHw simSdk ⟨7, "po1", [(1, Forwarding.ENABLED), (2, Forwarding.ENABLED)]⟩
      (Machine.warmStart 5 [1001, 1002])).machine.warmBootCache.trunks = [] ∧
    (init demoHw simSdk ⟨7, "po1", [(1, Forwarding.ENABLED), (2, Forwarding.ENABLED)]⟩
      (init demoHw simSdk ⟨7, "po1", [(1, Forwarding.ENABLED), (2, Forwarding.ENABLED)]⟩
        (Machine.warmStart 5 [1001, 1002])).machine).completion = .returned () ∧
    issuedSince
      (init demoHw simSdk ⟨7, "po1", [(1, Forwarding.ENABLED), (2, Forwarding.ENABLED)]⟩
        (Machine.warmStart 5 [1001, 1002])).machine.calls
      (init demoHw simSdk ⟨7, "po1", [(1, Forwarding.ENABLED), (2, Forwarding.ENABLED)]⟩
        (init demoHw simSdk ⟨7, "po1", [(1, Forwarding.ENABLED), (2, Forwarding.ENABLED)]⟩
          (Machine.warmStart 5 [1001, 1002])).machine).machine.calls =
      [SdkCall.trunk_create 0, SdkCall.trunk_set 6 freshTrunkInfo [⟨1001⟩, ⟨1002⟩],
        SdkCall.port_flood_block_set 1 2 trafficToBlock,
        SdkCall.port_flood_block_set 2 1 trafficToBlock] ∧
    (init demoHw simSdk ⟨7, "po1", [(1, Forwarding.ENABLED), (2, Forwarding.ENABLED)]⟩
      (init demoHw simSdk ⟨7, "po1", [(1, Forwarding.ENABLED), (2, Forwarding.ENABLED)]⟩
        (Machine.warmStart 5 [1001, 1002])).machine).machine.trunk.bcmTrunkID_ = 6 ∧
    (init demoHw simSdk ⟨7, "po1", [(1, Forwarding.ENABLED), (2, Forwarding.ENABLED)]⟩
      (init demoHw simSdk ⟨7, "po1", [(1, Forwarding.ENABLED), (2, Forwarding.ENABLED)]⟩
        (Machine.warmStart 5 [1001, 1002])).machine).machine.sdk.created = [5, 6] := by
  decide

/-- C22 (as amended): let the first `init` find the aggregate port in the warm-boot cache
and its `bcm_trunk_get` succeed. It returns after that one driver call and leaves as the
cache what `programmed` made of it. If the aggregate port is not found in that cache, a
second `init` for the same aggregate port takes the fresh branch: its first driver call is
`bcm_trunk_create` and the object is bound to the trunk id that call returns. If the
cache still holds the entry and `bcm_trunk_get`, asked again, reports the same return code
and member list, the second run returns, leaves the `BcmTrunk` object (trunk id, stats id
and name, granted ports) as the first run left it and issues one `bcm_trunk_get` and no
`bcm_trunk_create` or `bcm_trunk_set`. -/
theorem init_twice_after_adoption (hw : BcmSwitchIf) (sdk : BcmSdk σ)
    (aggPort : AggregatePort) (m : Machine σ) (foundTrunk : AggregatePortID × bcm_trunk_t)
    (hfind : m.warmBootCache.trunks.find? (fun trunk => decide (aggPort.getID = trunk.1)) =
      some foundTrunk)
    (hget : BCM_FAILURE (sdk.bcm_trunk_get m.sdk foundTrunk.2
      aggPort.forwardingSubportCount).1 = false) :
    ((init hw sdk aggPort m).completion = .returned () ∧
      issuedSince m.calls (init hw sdk aggPort m).machine.calls =
        [SdkCall.trunk_get foundTrunk.2 aggPort.forwardingSubportCount] ∧
      (init hw sdk aggPort m).machine.trunk.bcmTrunkID_ = foundTrunk.2 ∧
      (init hw sdk aggPort m).machine.warmBootCache =
        hw.programmed m.warmBootCache foundTrunk) ∧
    ((hw.programmed m.warmBootCache foundTrunk).trunks.find?
        (fun trunk => decide (aggPort.getID = trunk.1)) = none →
      (init hw sdk aggPort (init hw sdk aggPort m).machine).machine.trunk.bcmTrunkID_ =
        (sdk.bcm_trunk_create (sdk.bcm_trunk_get m.sdk foundTrunk.2
          aggPort.forwardingSubportCount).2.2.2 0).2.1 ∧
      ∃ extra : List SdkCall,
        issuedSince (init hw sdk aggPort m).machine.calls
          (init hw sdk aggPort (init hw sdk aggPort m).machine).machine.calls =
            SdkCall.trunk_create 0 :: extra) ∧
    ((hw.programmed m.warmBootCache foundTrunk).trunks.find?
        (fun trunk => decide (aggPort.getID = trunk.1)) = some foundTrunk →
      (sdk.bcm_trunk_get (sdk.bcm_trunk_get m.sdk foundTrunk.2
          aggPort.forwardingSubportCount).2.2.2 foundTrunk.2
          aggPort.forwardingSubportCount).1 =
        (sdk.bcm_trunk_get m.sdk foundTrunk.2 aggPort.forwardingSubportCount).1 →
      (sdk.bcm_trunk_get (sdk.bcm_trunk_get m.sdk foundTrunk.2
          aggPort.forwardingSubportCount).2.2.2 foundTrunk.2
          aggPort.forwardingSubportCount).2.1 =
        (sdk.bcm_trunk_get m.sdk foundTrunk.2 aggPort.forwardingSubportCount).2.1 →
      (init hw sdk aggPort (init hw sdk aggPort m).machine).completion = .returned () ∧
      (init hw sdk aggPort (init hw sdk aggPort m).machine).machine.trunk =
        (init hw sdk aggPort m).machine.trunk ∧
      issuedSince (init hw sdk aggPort m).machine.calls
        (init hw sdk aggPort (init hw sdk aggPort m).machine).machine.calls =
          [SdkCall.trunk_get foundTrunk.2 aggPort.forwardingSubportCount] ∧
      (∀ c ∈ issuedSince (init hw sdk aggPort m).machine.calls
          (init hw sdk aggPort (init hw sdk aggPort m).machine).machine.calls,
        c.isTrunkCreate = false ∧ c.isTrunkSet = false)) := by
  obtain ⟨hc1, hcalls1, hid1, hsdk1, -⟩ := init_warm hw sdk aggPort m foundTrunk hfind
  obtain ⟨-, -, hcache1, -⟩ := init_warm_adoption hw sdk aggPort m foundTrunk hfind hget
  refine ⟨⟨?_, ?_, hid1, hcache1⟩, ?_, ?_⟩
  · rw [hc1]; simp [hget]
  · rw [hcalls1, issuedSince_append]
  · intro hnone
    rw [← hcache1] at hnone
    obtain ⟨hid2, extra, hcalls2, -⟩ :=
      init_fresh hw sdk aggPort (init hw sdk aggPort m).machine hnone
    rw [hsdk1] at hid2
    exact ⟨hid2, extra, by rw [hcalls2, issuedSince_append]⟩
  · intro hsome hrv hlive
    rw [← hcache1] at hsome
    rw [← hsdk1] at hrv hlive
    obtain ⟨-, h2, h3, -, -, h6, h7⟩ :=
      init_warm_twice_of_retained hw sdk aggPort m foundTrunk hfind hget hsome hrv hlive
    exact ⟨h2, h3, h6, h7⟩

/-- Witness for C22 as amended: aggregate port 7 with subports 1 and 2 Enabled, trunk 5
recorded in the warm-boot cache and holding both gports in hardware. With a cache that
drops the programmed entry the second run is bound to a new trunk; with a cache that keeps
it the second run leaves the object as it was. -/
theorem init_twice_after_adoption_witness :
    (Machine.warmStart 5 [1001, 1002]).warmBootCache.trunks.find?
      (fun trunk => decide (7 = trunk.1)) = some (7, 5) ∧
    (demoHw.programmed (Machine.warmStart 5 [1001, 1002]).warmBootCache (7, 5)).trunks.find?
      (fun trunk => decide (7 = trunk.1)) = none ∧
    (init demoHw simSdk ⟨7, "po1", [(1, Forwarding.ENABLED), (2, Forwarding.ENABLED)]⟩
      (init demoHw simSdk ⟨7, "po1", [(1, Forwarding.ENABLED), (2, Forwarding.ENABLED)]⟩
        (Machine.warmStart 5 [1001, 1002])).machine).machine.trunk.bcmTrunkID_ =
      (simSdk.bcm_trunk_create (simSdk.bcm_trunk_get (Machine.warmStart 5 [1001, 1002]).sdk 5
        2).2.2.2 0).2.1 ∧
    (retainingHw.programmed (Machine.warmStart 5 [1001, 1002]).warmBootCache
      (7, 5)).trunks.find? (fun trunk => decide (7 = trunk.1)) = some (7, 5) ∧
    (init retainingHw simSdk ⟨7, "po1", [(1, Forwarding.ENABLED), (2, Forwarding.ENABLED)]⟩
      (init retainingHw simSdk ⟨7, "po1", [(1, Forwarding.ENABLED), (2, Forwarding.ENABLED)]⟩
        (Machine.warmStart 5 [1001, 1002])).machine).machine.trunk =
      (init retainingHw simSdk ⟨7, "po1", [(1, Forwarding.ENABLED), (2, Forwarding.ENABLED)]⟩
        (Machine.warmStart 5 [1001, 1002])).machine.trunk :=
  ⟨by decide, by decide,
    ((init_twice_after_adoption demoHw simSdk
      ⟨7, "po1", [(1, Forwarding.ENABLED), (2, Forwarding.ENABLED)]⟩
      (Machine.warmStart 5 [1001, 1002]) (7, 5) (by decide) (simSdk_get_ok _ _ _)).2.1
        (by decide)).1,
    by decide,
    ((init_twice_after_adoption retainingHw simSdk
      ⟨7, "po1", [(1, Forwarding.ENABLED), (2, Forwarding.ENABLED)]⟩
      (Machine.warmStart 5 [1001, 1002]) (7, 5) (by decide) (simSdk_get_ok _ _ _)).2.2
        (by decide) (by decide) (by decide)).2.1⟩

end fboss
